import Mathlib

/-!
Shallow embedding of the flow-allocation and spatial-routing engine of the
Industrializer repository (src/economy.ts, src/hexUtils.ts, src/constants.ts,
src/types.ts), together with theorems settling the frozen claims about it.

Modelling conventions:
* JavaScript numbers are modelled as exact rationals (ℚ); the engine only
  adds, subtracts, multiplies, divides and compares, so every quantity it
  manipulates is rational.
* `Record<string, number>` resource maps are association lists in insertion
  order (JS object iteration order for non-index keys) with the
  `map[k] || 0` read convention.
* `Map`/`Set` containers are association lists / lists in insertion order.
* Hex keys are the exact strings produced by hexKey/getEdgeKey.
* While-loops whose termination is not structural carry an explicit fuel
  argument; callers pass bounds derived from the input that dominate the
  source loop's true iteration count (noted at each use).  The loop body is
  a verbatim translation, and the loop stops early exactly when the source
  loop's condition fails.
-/

namespace Industrializer

set_option maxRecDepth 400000 in
/-- Resource map: `Record<string, number>` in insertion order. -/
abbrev RMap := List (String × ℚ)

/-- Read with JS `map[k] || 0` default. -/
def RMap.get (m : RMap) (k : String) : ℚ :=
  ((m.find? (fun p => p.1 == k)).map (fun p => p.2)).getD 0

/-- JS `map[k] = v`: overwrite in place if the key exists, else append. -/
def RMap.set (m : RMap) (k : String) (v : ℚ) : RMap :=
  if m.any (fun p => p.1 == k) then
    m.map (fun p => if p.1 == k then (k, v) else p)
  else m ++ [(k, v)]

/-- economy.ts `addToMap`: `map[key] = (map[key] || 0) + amount`. -/
def addToMap (m : RMap) (k : String) (amount : ℚ) : RMap :=
  m.set k (m.get k + amount)

/-- Whether a key is present (JS `res in map` / truthy checks use `|| 0` instead;
this is used for `Set` membership where a set is a list of keys). -/
def RMap.hasKey (m : RMap) (k : String) : Bool :=
  m.any (fun p => p.1 == k)

inductive TerrainType where
  | plains | forest | mountain | water
deriving DecidableEq

/-- types.ts InfrastructureType. -/
inductive InfraType where
  | road | rail | canal | power_line | hv_line
deriving DecidableEq

structure InfrastructureEdge where
  transport : Option InfraType := none
  power : Option InfraType := none
deriving DecidableEq

structure ConstructionSite where
  targetBuildingId : String
  totalCost : RMap
  delivered : RMap
  isUpgrade : Bool
  previousBuildingId : Option String := none
deriving DecidableEq

structure InputDiagnostic where
  resource : String
  required : ℚ
  available : ℚ
  distanceLoss : ℚ
  inputShortage : ℚ
  satisfaction : ℚ
deriving DecidableEq

structure BuildingFlowState where
  potential : RMap
  realized : RMap
  consumed : RMap
  inputDiagnostics : List InputDiagnostic
  efficiency : ℚ
  clusterBonus : ℚ
  clusterSize : Nat
  zoneOutputBonus : ℚ
  zoneInputReduction : ℚ
  superclusterSize : Nat
  exports : RMap
  exportEfficiency : ℚ
deriving DecidableEq

structure HexData where
  q : Int
  r : Int
  buildingId : Option String := none
  prioritized : Bool := false
  paused : Bool := false
  constructionSite : Option ConstructionSite := none
  flowState : Option BuildingFlowState := none
deriving DecidableEq

structure InfraEdgeConstructionSite where
  edgeKey : String
  hexA : Int × Int
  hexB : Int × Int
  targetType : InfraType
  totalCost : RMap
  delivered : RMap
  isUpgrade : Bool
  previousType : Option InfraType := none
deriving DecidableEq

structure FlowPair where
  sourceKey : String
  destKey : String
  resource : String
  amount : ℚ
  pathCost : ℚ
deriving DecidableEq

structure FlowSummary where
  potential : RMap
  potentialDemand : RMap
  realized : RMap
  consumed : RMap
  exportConsumed : RMap
  lostToDistance : RMap
  lostToShortage : RMap
deriving DecidableEq

/-- `Record<string, HexData>` in insertion order. -/
abbrev Grid := List (String × HexData)

def Grid.get (g : Grid) (k : String) : Option HexData :=
  (g.find? (fun p => p.1 == k)).map (fun p => p.2)

/-- Update the hex stored under an existing key (JS `grid[k].field = v`). -/
def Grid.setHex (g : Grid) (k : String) (h : HexData) : Grid :=
  g.map (fun p => if p.1 == k then (k, h) else p)

/-- `Record<string, InfrastructureEdge>`. -/
abbrev EdgeMap := List (String × InfrastructureEdge)

def EdgeMap.get (m : EdgeMap) (k : String) : Option InfrastructureEdge :=
  (m.find? (fun p => p.1 == k)).map (fun p => p.2)

def EdgeMap.set (m : EdgeMap) (k : String) (v : InfrastructureEdge) : EdgeMap :=
  if m.any (fun p => p.1 == k) then
    m.map (fun p => if p.1 == k then (k, v) else p)
  else m ++ [(k, v)]

/- ===================== hexUtils.ts ===================== -/

/-- hexUtils.ts hexKey: the string `q,r`. -/
def hexKey (q r : Int) : String :=
  toString q ++ "," ++ toString r

/-- hexUtils.ts getEdgeKey: canonical order-independent key of an edge. -/
def getEdgeKey (q1 r1 q2 r2 : Int) : String :=
  if q1 < q2 ∨ (q1 = q2 ∧ r1 < r2) then
    toString q1 ++ "," ++ toString r1 ++ "|" ++ toString q2 ++ "," ++ toString r2
  else
    toString q2 ++ "," ++ toString r2 ++ "|" ++ toString q1 ++ "," ++ toString r1

/-- hexUtils.ts HEX_DIRECTIONS, as (dq, dr) pairs in source order. -/
def HEX_DIRECTIONS : List (Int × Int) :=
  [(1, 0), (1, -1), (0, -1), (-1, 0), (-1, 1), (0, 1)]

/-- hexUtils.ts getNeighbors, in source order. -/
def getNeighbors (q r : Int) : List (Int × Int) :=
  [(q + 1, r), (q + 1, r - 1), (q, r - 1), (q - 1, r), (q - 1, r + 1), (q, r + 1)]

/-- hexUtils.ts isPowerInfra. -/
def isPowerInfra (t : InfraType) : Bool :=
  t == InfraType.power_line || t == InfraType.hv_line

/-- hexUtils.ts edgeHasType. -/
def edgeHasType (edge : Option InfrastructureEdge) (t : InfraType) : Bool :=
  match edge with
  | none => false
  | some e => if isPowerInfra t then e.power == some t else e.transport == some t

/-- hexUtils.ts setEdgeType. -/
def setEdgeType (edge : Option InfrastructureEdge) (t : InfraType) : InfrastructureEdge :=
  let result := edge.getD {}
  if isPowerInfra t then { result with power := some t }
  else { result with transport := some t }

/-- hexUtils.ts countHexConnections, with a type filter (the engine only calls
the filtered form, for canal detection). -/
def countHexConnections (q r : Int) (infraEdges : EdgeMap) (t : InfraType) : Nat :=
  HEX_DIRECTIONS.foldl (fun count d =>
    let ek := getEdgeKey q r (q + d.1) (r + d.2)
    match infraEdges.get ek with
    | some edge => if edgeHasType (some edge) t then count + 1 else count
    | none => count) 0

/-- hexUtils.ts getHexesInRadius, in source iteration order. -/
def getHexesInRadius (cq cr : Int) (radius : Int) : List (Int × Int) :=
  ((List.range (2 * radius.toNat + 1)).map (fun i => -radius + (i : Int))).flatMap
    (fun q =>
      let r1 := max (-radius) (-q - radius)
      let r2 := min radius (-q + radius)
      ((List.range (r2 - r1 + 1).toNat).map (fun j => r1 + (j : Int))).map
        (fun r => (cq + q, cr + r)))

/- ===================== constants.ts (fields the engine reads) ===================== -/

/-- Building catalog entry; only the fields economy.ts reads (inputs, outputs,
upgradesTo) are modelled. -/
structure Building where
  inputs : RMap
  outputs : RMap
  upgradesTo : Option String := none
deriving DecidableEq

/-- constants.ts BUILDINGS: full catalog, inputs/outputs/upgradesTo fields. -/
def BUILDINGS : String → Option Building := fun id =>
  match id with
  | "forager" => some ⟨[("population", 0.1)], [("food", 0.3)], some "farm"⟩
  | "wood_camp" => some ⟨[("population", 0.1)], [("wood", 0.3)], some "lumber_mill"⟩
  | "stone_camp" => some ⟨[("population", 0.1)], [("stone", 0.3)], some "quarry"⟩
  | "workshop" => some ⟨[("wood", 0.5), ("stone", 0.25), ("population", 0.1)], [("tools", 0.1)], some "tool_factory"⟩
  | "surface_mine" => some ⟨[("population", 0.2), ("tools", 0.1)], [("iron_ore", 0.3)], some "iron_mine"⟩
  | "surface_coal" => some ⟨[("population", 0.2), ("tools", 0.1)], [("coal", 0.3)], some "coal_mine"⟩
  | "bloomery" => some ⟨[("iron_ore", 1), ("wood", 2), ("population", 0.2)], [("iron_ingot", 0.25)], some "smelter"⟩
  | "farm" => some ⟨[("population", 0.1), ("tools", 0.1)], [("food", 1.5)], some "industrial_farm"⟩
  | "lumber_mill" => some ⟨[("population", 0.2), ("tools", 0.2)], [("wood", 2)], some "automated_sawmill"⟩
  | "quarry" => some ⟨[("population", 0.5), ("tools", 0.2)], [("stone", 2)], some "automated_quarry"⟩
  | "iron_mine" => some ⟨[("population", 1), ("tools", 0.5)], [("iron_ore", 2.5)], some "automated_iron_mine"⟩
  | "coal_mine" => some ⟨[("population", 1), ("tools", 0.5)], [("coal", 2.5)], some "automated_coal_mine"⟩
  | "smelter" => some ⟨[("iron_ore", 2), ("coal", 1), ("population", 0.5)], [("iron_ingot", 0.75)], some "electric_smelter"⟩
  | "tool_factory" => some ⟨[("iron_ingot", 1), ("wood", 1), ("coal", 0.5), ("population", 0.5)], [("tools", 1)], some "automated_toolworks"⟩
  | "concrete_factory" => some ⟨[("stone", 5), ("coal", 1), ("population", 0.5)], [("concrete", 1)], some "electric_kiln"⟩
  | "steel_mill" => some ⟨[("iron_ingot", 3), ("coal", 3), ("tools", 0.5), ("population", 1)], [("steel", 1)], some "electric_arc_furnace"⟩
  | "machine_works" => some ⟨[("steel", 2), ("tools", 1), ("iron_ingot", 1), ("population", 1)], [("machinery", 0.5)], some "precision_works"⟩
  | "manufactory" => some ⟨[("iron_ingot", 2), ("wood", 2), ("tools", 0.5), ("machinery", 0.5), ("population", 2)], [("goods", 1.5)], some "assembly_line"⟩
  | "export_port" => some ⟨[("goods", 5), ("tools", 0.2), ("population", 1)], [], none⟩
  | "trade_depot" => some ⟨[("population", 0.2)], [], some "station"⟩
  | "station" => some ⟨[("population", 0.5), ("tools", 0.1)], [], none⟩
  | "coal_power_plant" => some ⟨[("coal", 3), ("tools", 0.5), ("population", 1)], [("electricity", 2)], none⟩
  | "solar_array" => some ⟨[("machinery", 0.5), ("population", 0.2)], [("electricity", 2)], none⟩
  | "electric_arc_furnace" => some ⟨[("iron_ingot", 3), ("electricity", 2), ("tools", 0.5), ("population", 0.5)], [("steel", 2)], none⟩
  | "automated_toolworks" => some ⟨[("steel", 1), ("machinery", 0.25), ("electricity", 1), ("population", 0.3)], [("tools", 5)], none⟩
  | "assembly_line" => some ⟨[("iron_ingot", 3), ("wood", 1), ("electricity", 2), ("machinery", 1), ("population", 1)], [("goods", 4)], none⟩
  | "electric_smelter" => some ⟨[("iron_ore", 3), ("electricity", 1), ("population", 0.3)], [("iron_ingot", 2)], none⟩
  | "electric_kiln" => some ⟨[("stone", 3), ("machinery", 0.1), ("electricity", 1), ("population", 0.3)], [("concrete", 2.5)], none⟩
  | "precision_works" => some ⟨[("steel", 2), ("tools", 0.5), ("electricity", 2), ("population", 0.5)], [("machinery", 1.5)], none⟩
  | "industrial_farm" => some ⟨[("electricity", 1), ("tools", 0.1), ("population", 0.05)], [("food", 3)], none⟩
  | "automated_sawmill" => some ⟨[("electricity", 1), ("tools", 0.1), ("population", 0.1)], [("wood", 4)], none⟩
  | "automated_quarry" => some ⟨[("electricity", 1), ("tools", 0.2), ("population", 0.2)], [("stone", 4)], none⟩
  | "automated_iron_mine" => some ⟨[("electricity", 2), ("tools", 0.2), ("machinery", 0.1), ("population", 0.3)], [("iron_ore", 5)], none⟩
  | "automated_coal_mine" => some ⟨[("electricity", 2), ("tools", 0.2), ("machinery", 0.1), ("population", 0.3)], [("coal", 5)], none⟩
  | "uranium_mine" => some ⟨[("electricity", 2), ("tools", 0.3), ("machinery", 0.1), ("population", 0.5)], [("uranium_ore", 2)], none⟩
  | "enrichment_plant" => some ⟨[("uranium_ore", 2), ("electricity", 3), ("machinery", 0.25), ("population", 0.5)], [("enriched_uranium", 0.5)], none⟩
  | "nuclear_reactor" => some ⟨[("enriched_uranium", 0.5), ("concrete", 0.5), ("machinery", 0.1), ("population", 0.5)], [("electricity", 15)], none⟩
  | "university" => some ⟨[("population", 3), ("tools", 0.5), ("goods", 0.5)], [], none⟩
  | "settlement" => some ⟨[("food", 2)], [("population", 0.75)], some "town"⟩
  | "town" => some ⟨[("food", 5), ("tools", 0.1)], [("population", 2)], some "city"⟩
  | "city" => some ⟨[("food", 10), ("tools", 0.5), ("electricity", 0.5)], [("population", 6)], none⟩
  | _ => none

/-- constants.ts INFRA_STEP_COSTS. -/
def INFRA_STEP_COSTS : InfraType → ℚ
  | InfraType.road => 0.5
  | InfraType.rail => 0.1
  | InfraType.canal => 1
  | InfraType.power_line => 1
  | InfraType.hv_line => 1

/-- constants.ts HUB_RADIUS. -/
def HUB_RADIUS : String → Option Int := fun id =>
  match id with
  | "trade_depot" => some 2
  | "station" => some 3
  | "export_port" => some 4
  | _ => none

/-- Key set of HUB_RADIUS in insertion order (used as the HUB_BUILDINGS set). -/
def HUB_BUILDING_IDS : List String := ["trade_depot", "station", "export_port"]

def ZONE_OUTPUT_BONUS : ℚ := 0.15

def ZONE_INPUT_REDUCTION : ℚ := 0.1

/-- constants.ts ZONE_TYPES: zone category name and its member building ids,
in insertion order. -/
def ZONE_TYPES : List (String × List String) :=
  [("agricultural", ["forager", "farm", "industrial_farm", "wood_camp", "lumber_mill", "automated_sawmill"]),
   ("mining", ["surface_mine", "surface_coal", "iron_mine", "coal_mine", "quarry", "stone_camp", "automated_quarry", "automated_iron_mine", "automated_coal_mine", "uranium_mine"]),
   ("industry", ["workshop", "bloomery", "smelter", "electric_smelter", "tool_factory", "automated_toolworks", "concrete_factory", "electric_kiln", "steel_mill", "electric_arc_furnace", "coal_power_plant", "solar_array", "machine_works", "precision_works", "manufactory", "assembly_line", "export_port", "enrichment_plant", "nuclear_reactor"]),
   ("residential", ["settlement", "town", "city"])]

/- ===================== economy.ts constants ===================== -/

def CONVERGENCE_ITERATIONS : Nat := 3

def BASE_POPULATION : ℚ := 0.1

def CONSTRUCTION_RESERVE : ℚ := 0.1

def MIN_PRODUCTION_FLOOR : ℚ := 0.1

def HUB_HOP_COST : ℚ := 0.05

/-- economy.ts INFRA_EXPORT_EFFICIENCY (road/rail/canal; power types are never
looked up because only `edge.transport` is passed in). -/
def INFRA_EXPORT_EFFICIENCY : InfraType → ℚ
  | InfraType.road => 0.5
  | InfraType.rail => 0.7
  | InfraType.canal => 1
  | InfraType.power_line => 0
  | InfraType.hv_line => 0

def ALL_EXPORTABLE_RESOURCES : List String :=
  ["food", "wood", "stone", "iron_ore", "coal",
   "iron_ingot", "tools", "concrete", "steel", "machinery", "goods", "electricity"]

/-- Transfer efficiency as computed inline at economy.ts:569 and economy.ts:1097:
`pathCost <= 1 ? 1.0 : Math.max(0, 1.0 - (pathCost - 1) * 0.15)`. -/
def transferEff (pathCost : ℚ) : ℚ :=
  if pathCost ≤ 1 then 1 else max 0 (1 - (pathCost - 1) * 0.15)

/- ===================== economy.ts MinHeap ===================== -/

structure HeapNode where
  key : String
  q : Int
  r : Int
  cost : ℚ
deriving DecidableEq

/-- MinHeap._bubbleUp.  The source loop moves the index from `i` to its parent
`(i-1)/2` each round, so it runs at most `i+1 ≤ length` rounds; the fuel passed
by callers dominates that, and the loop stops early exactly when the source
does. -/
def heapBubbleUp : Nat → List HeapNode → Nat → List HeapNode
  | 0, d, _ => d
  | fuel + 1, d, i =>
    if i = 0 then d
    else
      let p := (i - 1) / 2
      match d.get? p, d.get? i with
      | some dp, some di =>
        if dp.cost ≤ di.cost then d
        else heapBubbleUp fuel ((d.set p di).set i dp) p
      | _, _ => d

/-- MinHeap._sinkDown.  The index strictly increases towards the end of the
array each round, so `length` rounds always suffice. -/
def heapSinkDown : Nat → List HeapNode → Nat → List HeapNode
  | 0, d, _ => d
  | fuel + 1, d, i =>
    match d.get? i with
    | none => d
    | some di =>
      let l := 2 * i + 1
      let r := 2 * i + 2
      let s1 : Nat × HeapNode :=
        match d.get? l with
        | some dl => if dl.cost < di.cost then (l, dl) else (i, di)
        | none => (i, di)
      let s2 : Nat × HeapNode :=
        match d.get? r with
        | some dr => if dr.cost < s1.2.cost then (r, dr) else s1
        | none => s1
      if s2.1 = i then d
      else heapSinkDown fuel ((d.set s2.1 di).set i s2.2) s2.1

/-- MinHeap.push. -/
def heapPush (d : List HeapNode) (node : HeapNode) : List HeapNode :=
  let d1 := d ++ [node]
  heapBubbleUp d1.length d1 (d1.length - 1)

/-- MinHeap.pop, returning `none` when the heap is empty (the source only pops
under a `length > 0` guard). -/
def heapPop (d : List HeapNode) : Option (HeapNode × List HeapNode) :=
  match d, d.getLast? with
  | top :: _, some last =>
    let d1 := d.dropLast
    if d1.length > 0 then some (top, heapSinkDown d1.length (d1.set 0 last) 0)
    else some (top, d1)
  | _, _ => none

/- ===================== economy.ts precomputeDistances ===================== -/

structure HubZone where
  hubKey : String
  hexKeys : List String
deriving DecidableEq

/-- Read an RMap entry without the `|| 0` default (JS `map.get(k)` on a `Map`,
where an absent key behaves as Infinity via `?? Infinity`). -/
def RMap.getOpt (m : RMap) (k : String) : Option ℚ :=
  (m.find? (fun p => p.1 == k)).map (fun p => p.2)

/-- `Map<string, Map<string, number>>` from precomputeDistances. -/
abbrev DistanceMap := List (String × RMap)

def DistanceMap.getMap (m : DistanceMap) (k : String) : Option RMap :=
  (m.find? (fun p => p.1 == k)).map (fun p => p.2)

def DistanceMap.setMap (m : DistanceMap) (k : String) (v : RMap) : DistanceMap :=
  if m.any (fun p => p.1 == k) then
    m.map (fun p => if p.1 == k then (k, v) else p)
  else m ++ [(k, v)]

inductive InfraCategory where
  | transport | power
deriving DecidableEq

/-- One relaxation: `if (cond && newCost < (distances.get(k) ?? Infinity))`
then record the new distance and push the node. -/
def dijkstraRelax (distances : RMap) (queue : List HeapNode) (k : String)
    (q r : Int) (newCost : ℚ) (withinCap : Bool) : RMap × List HeapNode :=
  let better := match distances.getOpt k with
    | none => true
    | some dv => newCost < dv
  if withinCap && better then
    (distances.set k newCost, heapPush queue ⟨k, q, r, newCost⟩)
  else (distances, queue)

/-- Body of the Dijkstra `while` loop of precomputeDistances, as a fueled
recursion.  Each push is guarded by a strict improvement of a node label; with
every step cost a multiple of 1/20 in [0, maxCost = 10], a node label can
improve at most 201 times, so `(grid.length + 1) * 256` iterations dominate the
source loop, which stops exactly when the queue empties. -/
def dijkstraLoop (grid : Grid) (infraEdges : EdgeMap) (maxCost : ℚ)
    (waterPortKeys : Option (List String)) (stepCostOverrides : InfraType → Option ℚ)
    (hubZones : Option (List HubZone)) (category : InfraCategory) :
    Nat → RMap → List HeapNode → RMap
  | 0, distances, _ => distances
  | fuel + 1, distances, queue =>
    match heapPop queue with
    | none => distances
    | some (current, queue1) =>
      let stale := match distances.getOpt current.key with
        | none => false
        | some dc => dc < current.cost
      if stale then
        dijkstraLoop grid infraEdges maxCost waterPortKeys stepCostOverrides hubZones category
          fuel distances queue1
      else
        -- Normal hex neighbors
        let st1 := HEX_DIRECTIONS.foldl (fun (st : RMap × List HeapNode) d =>
          let nq := current.q + d.1
          let nr := current.r + d.2
          let nKey := hexKey nq nr
          match Grid.get grid nKey with
          | none => st
          | some _ =>
            let ek := getEdgeKey current.q current.r nq nr
            let edge := EdgeMap.get infraEdges ek
            let edgeType := match edge with
              | some e => (match category with
                | InfraCategory.power => e.power
                | InfraCategory.transport => e.transport)
              | none => none
            let stepCost := match edgeType with
              | some t => (stepCostOverrides t).getD (INFRA_STEP_COSTS t)
              | none => 1
            let newCost := current.cost + stepCost
            dijkstraRelax st.1 st.2 nKey nq nr newCost (newCost ≤ maxCost))
          (distances, queue1)
        -- Free port-to-port transit
        let st2 := match waterPortKeys with
          | none => st1
          | some ports =>
            if ports.contains current.key then
              ports.foldl (fun (st : RMap × List HeapNode) portKey =>
                if portKey == current.key then st
                else match Grid.get grid portKey with
                  | none => st
                  | some portHex =>
                    dijkstraRelax st.1 st.2 portKey portHex.q portHex.r current.cost true)
                st1
            else st1
        -- Hub zone star topology: spoke → hub
        let hubsForHex : List HubZone := match hubZones with
          | none => []
          | some zs => zs.filter (fun z => z.hexKeys.contains current.key)
        let st3 := hubsForHex.foldl (fun (st : RMap × List HeapNode) zone =>
          match Grid.get grid zone.hubKey with
          | none => st
          | some hubHex =>
            if zone.hubKey == current.key then st
            else
              let hopCost := current.cost + HUB_HOP_COST
              dijkstraRelax st.1 st.2 zone.hubKey hubHex.q hubHex.r hopCost (hopCost ≤ maxCost))
          st2
        -- Hub zone star topology: hub → spokes
        let centerZones : List HubZone := match hubZones with
          | none => []
          | some zs => zs.filter (fun z => z.hubKey == current.key)
        let st4 := centerZones.foldl (fun (st : RMap × List HeapNode) zone =>
          zone.hexKeys.foldl (fun (st : RMap × List HeapNode) destKey =>
            if destKey == current.key then st
            else match Grid.get grid destKey with
              | none => st
              | some destHex =>
                let hopCost := current.cost + HUB_HOP_COST
                dijkstraRelax st.1 st.2 destKey destHex.q destHex.r hopCost (hopCost ≤ maxCost))
            st)
          st3
        dijkstraLoop grid infraEdges maxCost waterPortKeys stepCostOverrides hubZones category
          fuel st4.1 st4.2

/-- economy.ts precomputeDistances: SSSP from each source key. -/
def precomputeDistances (sourceKeys : List String) (grid : Grid) (infraEdges : EdgeMap)
    (maxCost : ℚ) (waterPortKeys : Option (List String))
    (stepCostOverrides : InfraType → Option ℚ) (hubZones : Option (List HubZone))
    (category : InfraCategory) : DistanceMap :=
  sourceKeys.foldl (fun result startKey =>
    match Grid.get grid startKey with
    | none => result
    | some startHex =>
      let distances : RMap := [(startKey, 0)]
      let queue : List HeapNode := heapPush [] ⟨startKey, startHex.q, startHex.r, 0⟩
      let final := dijkstraLoop grid infraEdges maxCost waterPortKeys stepCostOverrides
        hubZones category ((grid.length + 1) * 256) distances queue
      DistanceMap.setMap result startKey final) []

/-- Empty step-cost override table (the JS `undefined` argument). -/
def noOverrides : InfraType → Option ℚ := fun _ => none

/- ===================== economy.ts allocatePass ===================== -/

structure ProducerState where
  hex : HexData
  key : String
  buildingId : String
  potential : RMap
  realized : RMap
  remaining : RMap
  clusterBonus : ℚ
  clusterSize : Nat
  zoneOutputBonus : ℚ
  zoneInputReduction : ℚ
  superclusterSize : Nat
deriving DecidableEq

structure ConsumerState where
  hex : HexData
  key : String
  buildingId : String
  prioritized : Bool
  demand : RMap
  received : RMap
  distanceLoss : RMap
deriving DecidableEq

/-- An (producer, consumer) candidate pair.  The source stores object
references; distinct objects are modelled by their positions in the producer
and consumer lists, which the sweep updates in place. -/
structure AllocPair where
  producerIdx : Nat
  consumerIdx : Nat
  pathCost : ℚ
  transferEff : ℚ
deriving DecidableEq

/-- Candidate pair construction of allocatePass (economy.ts:553-573). -/
def buildAllocPairs (resource : String) (producers : List ProducerState)
    (consumers : List ConsumerState) (distMap : DistanceMap)
    (portDistMap : Option DistanceMap) : List AllocPair :=
  producers.enum.flatMap (fun (pi : Nat × ProducerState) =>
    let p := pi.2
    let remaining := p.remaining.get resource
    if remaining ≤ 0 then []
    else
      let pDists := if p.key == "__base__" then none else DistanceMap.getMap distMap p.key
      consumers.enum.filterMap (fun (ci : Nat × ConsumerState) =>
        let c := ci.2
        let needed := c.demand.get resource - c.received.get resource
        if needed ≤ 0 then none
        else if p.key == c.key then none
        else
          let portDists := portDistMap.bind (fun pdm => DistanceMap.getMap pdm c.key)
          let pathCost? : Option ℚ :=
            match portDists with
            | some pd => if p.key == "__base__" then some 0 else RMap.getOpt pd p.key
            | none =>
              match pDists with
              | some pds => RMap.getOpt pds c.key
              | none => some 0
          match pathCost? with
          | none => none
          | some pathCost =>
            let eff := transferEff pathCost
            if eff ≤ 0 then none
            else some ⟨pi.1, ci.1, pathCost, eff⟩))

/-- The sort comparator of allocatePass (economy.ts:575-580), as the stable
`should sort before or equal` Boolean relation equivalent to the JS
comparator. -/
def allocPairLE (consumers : List ConsumerState) (a b : AllocPair) : Bool :=
  let prio : Nat → Nat := fun ci =>
    match consumers.get? ci with
    | some c => if c.prioritized then 0 else 1
    | none => 1
  let ap := prio a.consumerIdx
  let bp := prio b.consumerIdx
  if ap = bp then decide (a.pathCost ≤ b.pathCost) else decide (ap < bp)

/-- One iteration of the allocation sweep (economy.ts:582-598). -/
def allocSweepStep (resource : String)
    (st : List ProducerState × List ConsumerState × Option (List FlowPair))
    (pair : AllocPair) :
    List ProducerState × List ConsumerState × Option (List FlowPair) :=
  match st.1.get? pair.producerIdx, st.2.1.get? pair.consumerIdx with
  | some producer, some consumer =>
    let remaining := producer.remaining.get resource
    let needed := consumer.demand.get resource - consumer.received.get resource
    if remaining ≤ 0 ∨ needed ≤ 0 then st
    else
      let rawNeeded := if pair.transferEff > 0 then needed / pair.transferEff else needed
      let canSend := min remaining rawNeeded
      let delivered := canSend * pair.transferEff
      let consumer2 := { consumer with
        received := consumer.received.set resource (consumer.received.get resource + delivered),
        distanceLoss := consumer.distanceLoss.set resource
          (consumer.distanceLoss.get resource + (canSend - delivered)) }
      -- `producer.remaining[resource] -= canSend`: the key is present whenever
      -- this branch runs, since an absent key reads as 0 ≤ 0 and is skipped.
      let producer2 := { producer with
        remaining := producer.remaining.set resource (remaining - canSend) }
      let fps2 := match st.2.2 with
        | none => none
        | some l =>
          if delivered > 0.01 ∧ producer.key ≠ "__base__" then
            some (l ++ [⟨producer.key, consumer.key, resource, delivered, pair.pathCost⟩])
          else some l
      (st.1.set pair.producerIdx producer2, st.2.1.set pair.consumerIdx consumer2, fps2)
  | _, _ => st

/-- economy.ts allocatePass: one single-resource greedy allocation sweep. -/
def allocatePass (resource : String) (producers : List ProducerState)
    (consumers : List ConsumerState) (distMap : DistanceMap)
    (portDistMap : Option DistanceMap) (flowPairs : Option (List FlowPair)) :
    List ProducerState × List ConsumerState × Option (List FlowPair) :=
  let pairs := buildAllocPairs resource producers consumers distMap portDistMap
  let sorted := pairs.mergeSort (allocPairLE consumers)
  sorted.foldl (allocSweepStep resource) (producers, consumers, flowPairs)

/- ===================== association-list lemmas ===================== -/

theorem find?_map_set_self (k : String) (v : ℚ) (t : List (String × ℚ))
    (h : t.any (fun p => p.1 == k) = true) :
    List.find? (fun p => p.1 == k) (t.map (fun p => if p.1 == k then (k, v) else p))
      = some (k, v) := by
  induction t with
  | nil => simp at h
  | cons p t ih =>
    rw [List.map_cons]
    by_cases hp : (p.1 == k) = true
    · rw [if_pos hp, List.find?_cons_of_pos]
      simp
    · rw [if_neg hp, List.find?_cons_of_neg]
      · apply ih
        simpa [hp] using h
      · simpa using hp

/-- find? head reduction with the predicate explicit, to steer unification. -/
theorem find?_cons_pos' (p : String × ℚ → Bool) (a : String × ℚ) (l : List (String × ℚ))
    (h : p a = true) : List.find? p (a :: l) = some a :=
  List.find?_cons_of_pos l h

/-- find? head skip with the predicate explicit, to steer unification. -/
theorem find?_cons_neg' (p : String × ℚ → Bool) (a : String × ℚ) (l : List (String × ℚ))
    (h : p a = false) : List.find? p (a :: l) = List.find? p l :=
  List.find?_cons_of_neg l (by simp [h])

theorem find?_map_set_ne (k k2 : String) (v : ℚ) (hne : k2 ≠ k) (t : List (String × ℚ)) :
    List.find? (fun p => p.1 == k2) (t.map (fun p => if p.1 == k then (k, v) else p))
      = List.find? (fun p => p.1 == k2) t := by
  have hkk2 : ((k : String) == k2) = false := beq_eq_false_iff_ne.mpr (fun e => hne e.symm)
  induction t with
  | nil => rfl
  | cons p t ih =>
    rw [List.map_cons]
    by_cases hp : (p.1 == k) = true
    · have hp1 : p.1 = k := by simpa using hp
      have h2 : (p.1 == k2) = false := by rw [hp1]; exact hkk2
      rw [if_pos hp]
      rw [find?_cons_neg' (fun q => q.1 == k2) (k, v) _ hkk2]
      rw [find?_cons_neg' (fun q => q.1 == k2) p _ h2]
      exact ih
    · rw [if_neg hp]
      by_cases hq : (p.1 == k2) = true
      · rw [find?_cons_pos' (fun q => q.1 == k2) p _ hq]
        rw [find?_cons_pos' (fun q => q.1 == k2) p _ hq]
      · have hq2 : (p.1 == k2) = false := by
          cases h3 : (p.1 == k2) with
          | true => exact absurd h3 hq
          | false => rfl
        rw [find?_cons_neg' (fun q => q.1 == k2) p _ hq2]
        rw [find?_cons_neg' (fun q => q.1 == k2) p _ hq2]
        exact ih

theorem RMap.get_set_self (m : RMap) (k : String) (v : ℚ) :
    RMap.get (RMap.set m k v) k = v := by
  unfold RMap.set
  by_cases h : m.any (fun p => p.1 == k) = true
  · rw [if_pos h]
    unfold RMap.get
    rw [find?_map_set_self k v m h]
    rfl
  · rw [if_neg h]
    unfold RMap.get
    rw [List.find?_append]
    have hnone : List.find? (fun p => p.1 == k) m = none := by
      rw [List.find?_eq_none]
      intro x hx hpx
      exact h (List.any_eq_true.mpr ⟨x, hx, hpx⟩)
    rw [hnone]
    simp [List.find?]

theorem RMap.get_set_ne (m : RMap) (k k2 : String) (v : ℚ) (hne : k2 ≠ k) :
    RMap.get (RMap.set m k v) k2 = RMap.get m k2 := by
  unfold RMap.set
  by_cases h : m.any (fun p => p.1 == k) = true
  · rw [if_pos h]
    unfold RMap.get
    rw [find?_map_set_ne k k2 v hne m]
  · rw [if_neg h]
    unfold RMap.get
    rw [List.find?_append]
    have hkk2 : ((k : String) == k2) = false := beq_eq_false_iff_ne.mpr (fun e => hne e.symm)
    have hlast : List.find? (fun p => p.1 == k2) [(k, v)] = none := by
      rw [find?_cons_neg' (fun q => q.1 == k2) (k, v) [] hkk2]
      rfl
    rw [hlast]
    simp

/- ===================== C2: transfer efficiency ===================== -/

/-- C2: the transfer-efficiency function used by the allocation sweep satisfies
transferEff = 1.0 when pathCost ≤ 1; transferEff = max(0, 1 − (pathCost − 1)·k)
with k = 0.15 otherwise; transferEff is non-increasing in pathCost; and
transferEff = 0 for every pathCost ≥ 1 + 1/k. -/
theorem transferEff_piecewise_monotone_zero :
    (∀ c : ℚ, c ≤ 1 → transferEff c = 1) ∧
    (∀ c : ℚ, ¬ c ≤ 1 → transferEff c = max 0 (1 - (c - 1) * (0.15 : ℚ))) ∧
    (∀ c₁ c₂ : ℚ, c₁ ≤ c₂ → transferEff c₂ ≤ transferEff c₁) ∧
    (∀ c : ℚ, 1 + 1 / (0.15 : ℚ) ≤ c → transferEff c = 0) := by
  refine ⟨fun c h => by simp [transferEff, h], fun c h => by simp [transferEff, h], ?_, ?_⟩
  · intro c₁ c₂ h
    unfold transferEff
    by_cases h2 : c₂ ≤ 1
    · rw [if_pos h2, if_pos (le_trans h h2)]
    · rw [if_neg h2]
      by_cases h1 : c₁ ≤ 1
      · rw [if_pos h1]
        apply max_le
        · norm_num
        · nlinarith
      · rw [if_neg h1]
        apply max_le (le_max_left _ _)
        apply le_max_of_le_right
        nlinarith
  · intro c h
    have h23 : (23 : ℚ) / 3 ≤ c := by
      have he : (1 : ℚ) + 1 / (0.15 : ℚ) = 23 / 3 := by norm_num
      linarith [he ▸ h]
    have h1 : ¬ c ≤ 1 := by intro hc; linarith
    rw [transferEff, if_neg h1]
    apply max_eq_left
    nlinarith [h23]

/-- Witness for transferEff_piecewise_monotone_zero at concrete path costs. -/
theorem transferEff_piecewise_monotone_zero_witness :
    transferEff (1/2) = 1 ∧
    transferEff 2 = max 0 (1 - (2 - 1) * (0.15 : ℚ)) ∧
    transferEff 3 ≤ transferEff 2 ∧
    transferEff 8 = 0 :=
  ⟨transferEff_piecewise_monotone_zero.1 (1/2) (by norm_num),
   transferEff_piecewise_monotone_zero.2.1 2 (by norm_num),
   transferEff_piecewise_monotone_zero.2.2.1 2 3 (by norm_num),
   transferEff_piecewise_monotone_zero.2.2.2 8 (by norm_num)⟩

/- ===================== allocatePass sweep invariants ===================== -/

/-- Relations between the consumer/producer lists entering an allocation sweep
and any later state of the sweep: lengths are unchanged, producer remaining
capacity only decreases and stays nonnegative, consumer demand is untouched,
and received only grows, bounded by max(initial received, demand). -/
def SweepRel (resource : String) (ps0 : List ProducerState) (cs0 : List ConsumerState)
    (st : List ProducerState × List ConsumerState × Option (List FlowPair)) : Prop :=
  st.1.length = ps0.length ∧ st.2.1.length = cs0.length ∧
  (∀ i p0 p1, ps0.get? i = some p0 → st.1.get? i = some p1 →
    p1.remaining.get resource ≤ p0.remaining.get resource ∧
    (0 ≤ p0.remaining.get resource → 0 ≤ p1.remaining.get resource)) ∧
  (∀ j c0 c1, cs0.get? j = some c0 → st.2.1.get? j = some c1 →
    c1.demand = c0.demand ∧
    c0.received.get resource ≤ c1.received.get resource ∧
    c1.received.get resource ≤ max (c0.received.get resource) (c0.demand.get resource))

theorem sweepRel_refl (resource : String) (ps : List ProducerState)
    (cs : List ConsumerState) (fps : Option (List FlowPair)) :
    SweepRel resource ps cs (ps, cs, fps) := by
  refine ⟨rfl, rfl, ?_, ?_⟩
  · intro i p0 p1 h0 h1
    rw [h0] at h1
    cases h1
    exact ⟨le_refl _, fun h => h⟩
  · intro j c0 c1 h0 h1
    rw [h0] at h1
    cases h1
    exact ⟨rfl, le_refl _, le_max_left _ _⟩

theorem sweepRel_comp (resource : String) (ps0 ps1 : List ProducerState)
    (cs0 cs1 : List ConsumerState) (f1 : Option (List FlowPair))
    (st2 : List ProducerState × List ConsumerState × Option (List FlowPair))
    (h1 : SweepRel resource ps0 cs0 (ps1, cs1, f1))
    (h2 : SweepRel resource ps1 cs1 st2) :
    SweepRel resource ps0 cs0 st2 := by
  obtain ⟨hl1, hl1c, hp1, hc1⟩ := h1
  obtain ⟨hl2, hl2c, hp2, hc2⟩ := h2
  refine ⟨hl2.trans hl1, hl2c.trans hl1c, ?_, ?_⟩
  · intro i p0 p2 h0 hfin
    have hi : i < ps1.length := by
      have h3 : i < st2.1.length := (List.get?_eq_some.mp hfin).1
      omega
    have hmid : ps1.get? i = some (ps1.get ⟨i, hi⟩) := List.get?_eq_get hi
    obtain ⟨ha, hb⟩ := hp1 i p0 (ps1.get ⟨i, hi⟩) h0 hmid
    obtain ⟨hc, hd⟩ := hp2 i (ps1.get ⟨i, hi⟩) p2 hmid hfin
    exact ⟨le_trans hc ha, fun h => hd (hb h)⟩
  · intro j c0 c2 h0 hfin
    have hj : j < cs1.length := by
      have h3 : j < st2.2.1.length := (List.get?_eq_some.mp hfin).1
      omega
    have hmid : cs1.get? j = some (cs1.get ⟨j, hj⟩) := List.get?_eq_get hj
    obtain ⟨ha, hb, hb2⟩ := hc1 j c0 (cs1.get ⟨j, hj⟩) h0 hmid
    obtain ⟨hc, hd, hd2⟩ := hc2 j (cs1.get ⟨j, hj⟩) c2 hmid hfin
    refine ⟨hc.trans ha, le_trans hb hd, ?_⟩
    calc c2.received.get resource
        ≤ max ((cs1.get ⟨j, hj⟩).received.get resource) ((cs1.get ⟨j, hj⟩).demand.get resource) := hd2
      _ ≤ max (c0.received.get resource) (c0.demand.get resource) := by
          rw [ha]
          exact max_le (le_trans hb2 (le_refl _)) (le_max_right _ _)

theorem allocSweepStep_rel (resource : String) (ps : List ProducerState)
    (cs : List ConsumerState) (fps : Option (List FlowPair)) (pr : AllocPair)
    (heff : 0 < pr.transferEff) :
    SweepRel resource ps cs (allocSweepStep resource (ps, cs, fps) pr) := by
  cases hgp : ps.get? pr.producerIdx with
  | none =>
    have hstep : allocSweepStep resource (ps, cs, fps) pr = (ps, cs, fps) := by
      unfold allocSweepStep
      rw [hgp]
    rw [hstep]
    exact sweepRel_refl resource ps cs fps
  | some producer =>
    cases hgc : cs.get? pr.consumerIdx with
    | none =>
      have hstep : allocSweepStep resource (ps, cs, fps) pr = (ps, cs, fps) := by
        unfold allocSweepStep
        rw [hgp, hgc]
      rw [hstep]
      exact sweepRel_refl resource ps cs fps
    | some consumer =>
      by_cases hskip : producer.remaining.get resource ≤ 0 ∨
          consumer.demand.get resource - consumer.received.get resource ≤ 0
      · have hstep : allocSweepStep resource (ps, cs, fps) pr = (ps, cs, fps) := by
          unfold allocSweepStep
          rw [hgp, hgc]
          dsimp only
          rw [if_pos hskip]
        rw [hstep]
        exact sweepRel_refl resource ps cs fps
      · push_neg at hskip
        obtain ⟨hrem, hneed⟩ := hskip
        set remaining := producer.remaining.get resource with hremdef
        set needed := consumer.demand.get resource - consumer.received.get resource with hneeddef
        set rawNeeded := if pr.transferEff > 0 then needed / pr.transferEff else needed
          with hrawdef
        set canSend := min remaining rawNeeded with hcandef
        set delivered := canSend * pr.transferEff with hdeldef
        have hraw : rawNeeded = needed / pr.transferEff := by
          rw [hrawdef, if_pos heff]
        have hrawpos : 0 < rawNeeded := by
          rw [hraw]
          exact div_pos hneed heff
        have hcanpos : 0 < canSend := lt_min hrem hrawpos
        have hcanle : canSend ≤ remaining := min_le_left _ _
        have hdelnn : 0 ≤ delivered := mul_nonneg hcanpos.le heff.le
        have hdelle : delivered ≤ needed := by
          rw [hdeldef]
          calc canSend * pr.transferEff ≤ rawNeeded * pr.transferEff :=
                mul_le_mul_of_nonneg_right (min_le_right _ _) heff.le
            _ = needed := by rw [hraw, div_mul_cancel₀ _ (ne_of_gt heff)]
        have hstep : allocSweepStep resource (ps, cs, fps) pr =
            (ps.set pr.producerIdx
              { producer with remaining := producer.remaining.set resource (remaining - canSend) },
             cs.set pr.consumerIdx
              { consumer with
                received := consumer.received.set resource
                  (consumer.received.get resource + delivered),
                distanceLoss := consumer.distanceLoss.set resource
                  (consumer.distanceLoss.get resource + (canSend - delivered)) },
             match fps with
             | none => none
             | some l =>
               if delivered > 0.01 ∧ producer.key ≠ "__base__" then
                 some (l ++ [⟨producer.key, consumer.key, resource, delivered, pr.pathCost⟩])
               else some l) := by
          unfold allocSweepStep
          rw [hgp, hgc]
          dsimp only
          rw [if_neg]
          push_neg
          exact ⟨hrem, hneed⟩
        rw [hstep]
        refine ⟨by simp, by simp, ?_, ?_⟩
        · intro i p0 p1 h0 h1
          rw [List.get?_eq_getElem?, List.getElem?_set] at h1
          by_cases hii : pr.producerIdx = i
          · subst hii
            rw [hgp] at h0
            cases h0
            have hlt : pr.producerIdx < ps.length := (List.get?_eq_some.mp hgp).1
            rw [if_pos rfl, if_pos hlt] at h1
            cases h1
            constructor
            · show RMap.get (RMap.set producer.remaining resource (remaining - canSend)) resource ≤ _
              rw [RMap.get_set_self]
              linarith
            · intro _
              show 0 ≤ RMap.get (RMap.set producer.remaining resource (remaining - canSend)) resource
              rw [RMap.get_set_self]
              linarith
          · rw [if_neg hii, ← List.get?_eq_getElem?, h0] at h1
            cases h1
            exact ⟨le_refl _, fun h => h⟩
        · intro j c0 c1 h0 h1
          rw [List.get?_eq_getElem?, List.getElem?_set] at h1
          by_cases hjj : pr.consumerIdx = j
          · subst hjj
            rw [hgc] at h0
            cases h0
            have hlt : pr.consumerIdx < cs.length := (List.get?_eq_some.mp hgc).1
            rw [if_pos rfl, if_pos hlt] at h1
            cases h1
            refine ⟨rfl, ?_, ?_⟩
            · show _ ≤ RMap.get (RMap.set consumer.received resource
                (consumer.received.get resource + delivered)) resource
              rw [RMap.get_set_self]
              linarith
            · show RMap.get (RMap.set consumer.received resource
                (consumer.received.get resource + delivered)) resource ≤ _
              rw [RMap.get_set_self]
              have hle : consumer.received.get resource + delivered ≤
                  consumer.demand.get resource := by
                have := hdelle
                rw [hneeddef] at this
                linarith
              exact le_max_of_le_right hle
          · rw [if_neg hjj, ← List.get?_eq_getElem?, h0] at h1
            cases h1
            exact ⟨rfl, le_refl _, le_max_left _ _⟩

theorem allocSweep_foldl_rel (resource : String) (L : List AllocPair)
    (heff : ∀ pr ∈ L, 0 < pr.transferEff) :
    ∀ ps cs fps, SweepRel resource ps cs (L.foldl (allocSweepStep resource) (ps, cs, fps)) := by
  induction L with
  | nil =>
    intro ps cs fps
    exact sweepRel_refl resource ps cs fps
  | cons a L ih =>
    intro ps cs fps
    rw [List.foldl_cons]
    have h1 := allocSweepStep_rel resource ps cs fps a (heff a (List.mem_cons_self a L))
    rcases hst : allocSweepStep resource (ps, cs, fps) a with ⟨ps1, cs1, f1⟩
    rw [hst] at h1
    have h2 := ih (fun pr hm => heff pr (List.mem_cons_of_mem a hm)) ps1 cs1 f1
    exact sweepRel_comp resource ps ps1 cs cs1 f1 _ h1 h2

theorem buildAllocPairs_eff_pos (resource : String) (producers : List ProducerState)
    (consumers : List ConsumerState) (distMap : DistanceMap)
    (portDistMap : Option DistanceMap) (pr : AllocPair)
    (hmem : pr ∈ buildAllocPairs resource producers consumers distMap portDistMap) :
    0 < pr.transferEff := by
  unfold buildAllocPairs at hmem
  rw [List.mem_flatMap] at hmem
  obtain ⟨pi, _, hmem⟩ := hmem
  by_cases hrem : RMap.get pi.2.remaining resource ≤ 0
  · rw [if_pos hrem] at hmem
    simp at hmem
  · rw [if_neg hrem] at hmem
    rw [List.mem_filterMap] at hmem
    obtain ⟨ci, _, heq⟩ := hmem
    dsimp only at heq
    split at heq
    · exact absurd heq (by simp)
    · split at heq
      · exact absurd heq (by simp)
      · split at heq
        · exact absurd heq (by simp)
        · rename_i pathCost hpc
          split at heq
          · exact absurd heq (by simp)
          · rename_i hne
            cases heq
            exact lt_of_not_le hne

/-- The initial received/demand/remaining data relevant to one allocatePass
call survives to its output with the sweep bounds.  Shared backbone for the
claims about allocatePass. -/
theorem allocatePass_rel (resource : String) (producers : List ProducerState)
    (consumers : List ConsumerState) (distMap : DistanceMap)
    (portDistMap : Option DistanceMap) (flowPairs : Option (List FlowPair)) :
    SweepRel resource producers consumers
      (allocatePass resource producers consumers distMap portDistMap flowPairs) := by
  have hAP : allocatePass resource producers consumers distMap portDistMap flowPairs
      = ((buildAllocPairs resource producers consumers distMap portDistMap).mergeSort
          (allocPairLE consumers)).foldl (allocSweepStep resource)
          (producers, consumers, flowPairs) := rfl
  rw [hAP]
  apply allocSweep_foldl_rel
  intro pr hm
  exact buildAllocPairs_eff_pos resource producers consumers distMap portDistMap pr
    (List.mem_mergeSort.mp hm)

/-- C1: in every single-resource allocation sweep (allocatePass), every
producer's remaining capacity for the resource only decreases and never goes
negative (so the total sent never exceeds the remaining capacity before the
pass), and every consumer whose received total starts at or below its demand
ends at or below its demand (received ≤ demand, hence received ≤ demand + ε
for every ε ≥ 0). -/
theorem allocatePass_conservation_and_demand_bound (resource : String)
    (producers : List ProducerState) (consumers : List ConsumerState)
    (distMap : DistanceMap) (portDistMap : Option DistanceMap)
    (flowPairs : Option (List FlowPair)) (i j : Nat) (p0 : ProducerState)
    (c0 : ConsumerState) (hp : producers.get? i = some p0)
    (hc : consumers.get? j = some c0)
    (hrem : 0 ≤ p0.remaining.get resource)
    (hrec : c0.received.get resource ≤ c0.demand.get resource) :
    ∃ p1 c1,
      (allocatePass resource producers consumers distMap portDistMap flowPairs).1.get? i
        = some p1 ∧
      (allocatePass resource producers consumers distMap portDistMap flowPairs).2.1.get? j
        = some c1 ∧
      0 ≤ p1.remaining.get resource ∧
      p1.remaining.get resource ≤ p0.remaining.get resource ∧
      c1.demand = c0.demand ∧
      c1.received.get resource ≤ c0.demand.get resource := by
  obtain ⟨hlp, hlc, hprod, hcons⟩ :=
    allocatePass_rel resource producers consumers distMap portDistMap flowPairs
  have hi : i < producers.length := (List.get?_eq_some.mp hp).1
  have hj : j < consumers.length := (List.get?_eq_some.mp hc).1
  have hi2 : i < (allocatePass resource producers consumers distMap portDistMap
      flowPairs).1.length := by omega
  have hj2 : j < (allocatePass resource producers consumers distMap portDistMap
      flowPairs).2.1.length := by omega
  refine ⟨_, _, List.get?_eq_get hi2, List.get?_eq_get hj2, ?_, ?_, ?_, ?_⟩
  · exact (hprod i p0 _ hp (List.get?_eq_get hi2)).2 hrem
  · exact (hprod i p0 _ hp (List.get?_eq_get hi2)).1
  · exact (hcons j c0 _ hc (List.get?_eq_get hj2)).1
  · have h3 := (hcons j c0 _ hc (List.get?_eq_get hj2)).2.2
    rwa [max_eq_right hrec] at h3

/-- Concrete producer for the C1 witness. -/
def exProducerA : ProducerState :=
  { hex := { q := 0, r := 0 }, key := "0,0", buildingId := "wood_camp",
    potential := [("wood", 0.3)], realized := [("wood", 0.3)],
    remaining := [("wood", 0.3)], clusterBonus := 0, clusterSize := 1,
    zoneOutputBonus := 0, zoneInputReduction := 0, superclusterSize := 0 }

/-- Concrete consumer for the C1 witness. -/
def exConsumerB : ConsumerState :=
  { hex := { q := 1, r := 0 }, key := "1,0", buildingId := "workshop",
    prioritized := false, demand := [("wood", 0.5)], received := [],
    distanceLoss := [] }

/-- Concrete distance map for the C1 witness. -/
def exDistAB : DistanceMap := [("0,0", [("1,0", 1)])]

/-- Witness for allocatePass_conservation_and_demand_bound on a concrete
one-producer one-consumer pass. -/
theorem allocatePass_conservation_and_demand_bound_witness :
    ∃ p1 c1,
      (allocatePass "wood" [exProducerA] [exConsumerB] exDistAB none none).1.get? 0
        = some p1 ∧
      (allocatePass "wood" [exProducerA] [exConsumerB] exDistAB none none).2.1.get? 0
        = some c1 ∧
      0 ≤ p1.remaining.get "wood" ∧
      p1.remaining.get "wood" ≤ exProducerA.remaining.get "wood" ∧
      c1.demand = exConsumerB.demand ∧
      c1.received.get "wood" ≤ exConsumerB.demand.get "wood" :=
  allocatePass_conservation_and_demand_bound "wood" [exProducerA] [exConsumerB]
    exDistAB none none 0 0 exProducerA exConsumerB rfl rfl
    (by rw [show RMap.get exProducerA.remaining "wood" = (0.3 : ℚ) from rfl]; norm_num)
    (by rw [show RMap.get exConsumerB.received "wood" = (0 : ℚ) from rfl,
            show RMap.get exConsumerB.demand "wood" = (0.5 : ℚ) from rfl]; norm_num)

/- ===================== construction demand (economy.ts:961-979) ===================== -/

/-- Demand map presented to the construction allocation pass for one site:
`demand[res] = total - (delivered[res] || 0)` over the totalCost entries
(economy.ts:963-966 for building sites, 972-975 for infrastructure sites). -/
def constructionDemand (totalCost delivered : RMap) : RMap :=
  totalCost.foldl (fun m p => m.set p.1 (p.2 - delivered.get p.1)) []

/-- C7 counterexample: a site with delivered 6 of a total cost 5 presents
demand −1, not max(0, 5 − 6) = 0: the computed demand is not clamped at
zero. -/
theorem constructionDemand_not_clamped_counterexample :
    RMap.get (constructionDemand [("wood", 5)] [("wood", 6)]) "wood" = -1 ∧
    max (0 : ℚ) ((5 : ℚ) - 6) = 0 ∧
    RMap.get (constructionDemand [("wood", 5)] [("wood", 6)]) "wood"
      ≠ max (0 : ℚ) ((5 : ℚ) - 6) := by
  have h0 : RMap.get (constructionDemand [("wood", 5)] [("wood", 6)]) "wood"
      = (5 : ℚ) - 6 := rfl
  have h1 : RMap.get (constructionDemand [("wood", 5)] [("wood", 6)]) "wood" = -1 := by
    rw [h0]; norm_num
  refine ⟨h1, by norm_num, ?_⟩
  rw [h1]
  norm_num

theorem constructionDemand_go (delivered : RMap) (tc : List (String × ℚ)) :
    ∀ acc : RMap,
    (∀ p ∈ tc, acc.any (fun q => q.1 == p.1) = false) →
    (tc.map Prod.fst).Nodup →
    tc.foldl (fun m p => m.set p.1 (p.2 - delivered.get p.1)) acc
      = acc ++ tc.map (fun p => (p.1, p.2 - RMap.get delivered p.1)) := by
  induction tc with
  | nil => intro acc _ _; simp
  | cons p t ih =>
    intro acc hfresh hnd
    rw [List.foldl_cons]
    have ha := hfresh p (List.mem_cons_self p t)
    have hset : RMap.set acc p.1 (p.2 - delivered.get p.1)
        = acc ++ [(p.1, p.2 - delivered.get p.1)] := by
      unfold RMap.set
      rw [ha]
      simp
    rw [hset]
    rw [List.map_cons, List.nodup_cons] at hnd
    have hfresh2 : ∀ q ∈ t,
        (acc ++ [(p.1, p.2 - delivered.get p.1)]).any (fun z => z.1 == q.1) = false := by
      intro q hq
      rw [List.any_append]
      have h1 : acc.any (fun z => z.1 == q.1) = false := hfresh q (List.mem_cons_of_mem p hq)
      have h2 : (p.1 == q.1) = false := by
        rw [beq_eq_false_iff_ne]
        intro he
        exact hnd.1 (he ▸ List.mem_map_of_mem Prod.fst hq)
      rw [h1]
      simp [h2]
    rw [ih (acc ++ [(p.1, p.2 - delivered.get p.1)]) hfresh2 hnd.2]
    simp

/-- C7 amended: the demand presented to the construction allocation pass is
totalCost − delivered with no clamping (entrywise, for Record key sets, which
are duplicate-free); however a consumer whose demand does not exceed its
received total (in particular one with a non-positive demand and zero
received) is never allocated anything by the sweep, so the unclamped negative
demand behaves exactly like a zero demand. -/
theorem constructionDemand_unclamped_and_harmless :
    (∀ totalCost delivered : RMap, (totalCost.map Prod.fst).Nodup →
      constructionDemand totalCost delivered
        = totalCost.map (fun p => (p.1, p.2 - RMap.get delivered p.1))) ∧
    (∀ (resource : String) (producers : List ProducerState)
        (consumers : List ConsumerState) (distMap : DistanceMap)
        (portDistMap : Option DistanceMap) (flowPairs : Option (List FlowPair))
        (j : Nat) (c0 : ConsumerState),
      consumers.get? j = some c0 →
      c0.demand.get resource ≤ c0.received.get resource →
      ∃ c1, (allocatePass resource producers consumers distMap portDistMap
          flowPairs).2.1.get? j = some c1 ∧
        c1.received.get resource = c0.received.get resource) := by
  constructor
  · intro totalCost delivered hnd
    have h := constructionDemand_go delivered totalCost [] (by simp) hnd
    simpa [constructionDemand] using h
  · intro resource producers consumers distMap portDistMap flowPairs j c0 hc hle
    obtain ⟨_, hlc, _, hcons⟩ :=
      allocatePass_rel resource producers consumers distMap portDistMap flowPairs
    have hj : j < consumers.length := (List.get?_eq_some.mp hc).1
    have hj2 : j < (allocatePass resource producers consumers distMap portDistMap
        flowPairs).2.1.length := by omega
    refine ⟨_, List.get?_eq_get hj2, ?_⟩
    obtain ⟨_, hmono, hmax⟩ := hcons j c0 _ hc (List.get?_eq_get hj2)
    have : max (c0.received.get resource) (c0.demand.get resource)
        = c0.received.get resource := max_eq_left hle
    exact le_antisymm (this ▸ hmax) hmono

/-- Concrete over-delivered consumer for the C7 witness. -/
def exConsumerNeg : ConsumerState :=
  { exConsumerB with demand := [("wood", -1)] }

/-- Witness for constructionDemand_unclamped_and_harmless at concrete
inputs. -/
theorem constructionDemand_unclamped_and_harmless_witness :
    (constructionDemand [("wood", 5)] [("wood", 6)]
      = [("wood", 5)].map (fun p => (p.1, p.2 - RMap.get [("wood", 6)] p.1))) ∧
    (∃ c1, (allocatePass "wood" [exProducerA] [exConsumerNeg] exDistAB none
        none).2.1.get? 0 = some c1 ∧
      c1.received.get "wood" = exConsumerNeg.received.get "wood") :=
  ⟨constructionDemand_unclamped_and_harmless.1 [("wood", 5)] [("wood", 6)] (by simp),
   constructionDemand_unclamped_and_harmless.2 "wood" [exProducerA] [exConsumerNeg]
     exDistAB none none 0 exConsumerNeg rfl
     (by rw [show RMap.get exConsumerNeg.demand "wood" = (-1 : ℚ) from rfl,
             show RMap.get exConsumerNeg.received "wood" = (0 : ℚ) from rfl]
         norm_num)⟩

/- ===================== C10: base population pairing ===================== -/

/-- C10: the base-population pseudo-producer `__base__` is paired with every
consumer with outstanding population demand at pathCost 0 and transferEff
1.0, regardless of the consumer's location and of the distance maps in use,
so base population is delivered without distance loss. -/
theorem basePopulation_paired_at_zero_cost (producers : List ProducerState)
    (consumers : List ConsumerState) (distMap : DistanceMap)
    (portDistMap : Option DistanceMap) (i j : Nat) (p0 : ProducerState)
    (c0 : ConsumerState) (hp : producers.get? i = some p0)
    (hpk : p0.key = "__base__")
    (hrem : 0 < p0.remaining.get "population")
    (hc : consumers.get? j = some c0)
    (hneed : 0 < c0.demand.get "population" - c0.received.get "population")
    (hck : c0.key ≠ "__base__") :
    (⟨i, j, 0, 1⟩ : AllocPair)
      ∈ buildAllocPairs "population" producers consumers distMap portDistMap := by
  unfold buildAllocPairs
  rw [List.mem_flatMap]
  refine ⟨(i, p0), ?_, ?_⟩
  · apply List.get?_mem
    rw [List.get?_eq_getElem?, List.getElem?_enum, ← List.get?_eq_getElem?, hp]
    rfl
  · dsimp only
    rw [if_neg (not_le.mpr hrem)]
    rw [List.mem_filterMap]
    refine ⟨(j, c0), ?_, ?_⟩
    · apply List.get?_mem
      rw [List.get?_eq_getElem?, List.getElem?_enum, ← List.get?_eq_getElem?, hc]
      rfl
    · dsimp only
      rw [if_neg (not_le.mpr hneed)]
      have hkey : (p0.key == c0.key) = false := by
        rw [hpk, beq_eq_false_iff_ne]
        exact fun e => hck e.symm
      rw [if_neg (by simp [hkey])]
      have hbase : (p0.key == "__base__") = true := by rw [hpk]; rfl
      cases hpd : portDistMap.bind (fun pdm => DistanceMap.getMap pdm c0.key) with
      | some pd =>
        simp only [hpd, hbase, if_true]
        have h01 : transferEff 0 = 1 := by norm_num [transferEff]
        rw [h01]
        rw [if_neg (by norm_num)]
      | none =>
        simp only [hpd, hbase, if_true]
        have h01 : transferEff 0 = 1 := by norm_num [transferEff]
        rw [h01]
        rw [if_neg (by norm_num)]

/-- Concrete base producer for the C10 witness. -/
def c10BaseProducer : ProducerState :=
  { hex := { q := 0, r := 0 }, key := "__base__", buildingId := "__base__",
    potential := [("population", BASE_POPULATION)], realized := [],
    remaining := [("population", BASE_POPULATION)], clusterBonus := 0,
    clusterSize := 0, zoneOutputBonus := 0, zoneInputReduction := 0,
    superclusterSize := 0 }

/-- Concrete far-away consumer for the C10 witness. -/
def c10FarConsumer : ConsumerState :=
  { hex := { q := 40, r := -17 }, key := "40,-17", buildingId := "settlement",
    prioritized := false, demand := [("population", 0.75)], received := [],
    distanceLoss := [] }

/-- Witness for basePopulation_paired_at_zero_cost: the base producer is
paired with a far-away consumer at pathCost 0 and transferEff 1. -/
theorem basePopulation_paired_at_zero_cost_witness :
    (⟨0, 0, 0, 1⟩ : AllocPair)
      ∈ buildAllocPairs "population" [c10BaseProducer] [c10FarConsumer] [] none :=
  basePopulation_paired_at_zero_cost [c10BaseProducer] [c10FarConsumer] [] none 0 0
    c10BaseProducer c10FarConsumer rfl rfl
    (by rw [show RMap.get c10BaseProducer.remaining "population" = (0.1 : ℚ) from rfl]
        norm_num)
    rfl
    (by rw [show RMap.get c10FarConsumer.demand "population" = (0.75 : ℚ) from rfl,
            show RMap.get c10FarConsumer.received "population" = (0 : ℚ) from rfl]
        norm_num)
    (by decide)

/- ===================== generic string-keyed maps ===================== -/

/-- Generic `Map<string, α>` read (absent key = none). -/
def AList.get {α : Type} (m : List (String × α)) (k : String) : Option α :=
  (m.find? (fun p => p.1 == k)).map (fun p => p.2)

/-- Generic `Map<string, α>` write: update in place, else append (JS Map
insertion order). -/
def AList.set {α : Type} (m : List (String × α)) (k : String) (v : α) :
    List (String × α) :=
  if m.any (fun p => p.1 == k) then
    m.map (fun p => if p.1 == k then (k, v) else p)
  else m ++ [(k, v)]

/-- Generic key-presence test. -/
def AList.hasKey {α : Type} (m : List (String × α)) (k : String) : Bool :=
  m.any (fun p => p.1 == k)

theorem AList.find?_map_write_self {α : Type} (k : String) (v : α) (t : List (String × α))
    (h : t.any (fun p => p.1 == k) = true) :
    List.find? (fun p => p.1 == k) (t.map (fun p => if p.1 == k then (k, v) else p))
      = some (k, v) := by
  induction t with
  | nil => simp at h
  | cons p t ih =>
    rw [List.map_cons]
    by_cases hp : (p.1 == k) = true
    · rw [if_pos hp, List.find?_cons_of_pos]
      simp
    · rw [if_neg hp, List.find?_cons_of_neg]
      · apply ih
        simpa [hp] using h
      · simpa using hp

theorem AList.get_write_self {α : Type} (m : List (String × α)) (k : String) (v : α) :
    AList.get (AList.set m k v) k = some v := by
  unfold AList.set
  by_cases h : m.any (fun p => p.1 == k) = true
  · rw [if_pos h]
    unfold AList.get
    rw [AList.find?_map_write_self k v m h]
    rfl
  · rw [if_neg h]
    unfold AList.get
    rw [List.find?_append]
    have hnone : List.find? (fun p => p.1 == k) m = none := by
      rw [List.find?_eq_none]
      intro x hx hpx
      exact h (List.any_eq_true.mpr ⟨x, hx, hpx⟩)
    rw [hnone]
    simp [List.find?]

/- ===================== economy.ts computeSuperclusters ===================== -/

structure SuperRec where
  bonus : ℚ
  uniCount : Nat
  size : Nat
deriving DecidableEq

abbrev SuperMap := List (String × SuperRec)

/-- Reverse lookup buildingId → zone category, built exactly like the
`buildingToZone` map of computeSuperclusters (economy.ts:301-304). -/
def buildingToZone (bid : String) : Option String :=
  AList.get (ZONE_TYPES.foldl (fun m p => p.2.foldl (fun m2 b => AList.set m2 b p.1) m) []) bid

/-- Wildcard test of computeSuperclusters: university or any hub building. -/
def isZoneWildcard (bid : String) : Bool :=
  bid == "university" || HUB_BUILDING_IDS.contains bid

/-- Zone membership test for a hex during the supercluster BFS
(economy.ts:313-315 and 328-330). -/
def zoneEligible (zt : String) (hex : HexData) : Bool :=
  match hex.buildingId with
  | none => false
  | some bid =>
    if hex.constructionSite.isSome || hex.paused then false
    else isZoneWildcard bid || decide (buildingToZone bid = some zt)

/-- BFS of computeSuperclusters collecting one zone component
(economy.ts:317-334).  Each pop consumes a queue entry and entries are pushed
only for freshly visited cells, so `grid.length + 1` iterations dominate the
source loop. -/
def superBFS (grid : Grid) (zt : String) :
    Nat → List String → List String → List String → List String × List String
  | 0, cluster, visited, _ => (cluster, visited)
  | fuel + 1, cluster, visited, queue =>
    match queue with
    | [] => (cluster, visited)
    | cur :: rest =>
      let cluster2 := cluster ++ [cur]
      match Grid.get grid cur with
      | none => superBFS grid zt fuel cluster2 visited rest
      | some curHex =>
        let st := (getNeighbors curHex.q curHex.r).foldl
          (fun (st : List String × List String) n =>
            let nk := hexKey n.1 n.2
            if st.1.contains nk then st
            else match Grid.get grid nk with
              | none => st
              | some nHex =>
                if zoneEligible zt nHex then (st.1 ++ [nk], st.2 ++ [nk]) else st)
          (visited, rest)
        superBFS grid zt fuel cluster2 st.1 st.2

/-- Per-member record update of computeSuperclusters (economy.ts:359-364):
only a component strictly larger than the recorded size updates the record,
and only then is the bonus maxed in. -/
def superApplyUpdate (result : SuperMap) (k : String) (bonus : ℚ)
    (uniCount size : Nat) : SuperMap :=
  match AList.get result k with
  | none => AList.set result k ⟨bonus, uniCount, size⟩
  | some p =>
    if p.size < size then AList.set result k ⟨max p.bonus bonus, uniCount, size⟩
    else result

/-- Component statistics and record updates for one discovered component
(economy.ts:336-364). -/
def superProcessComponent (grid : Grid) (cluster : List String) (result : SuperMap) :
    SuperMap :=
  let stats := cluster.foldl (fun (st : List String × Nat) k =>
    match Grid.get grid k with
    | none => st
    | some h =>
      match h.buildingId with
      | none => st
      | some bid =>
        if isZoneWildcard bid then st
        else (if st.1.contains bid then st.1 else st.1 ++ [bid], st.2 + 1))
    ([], 0)
  let typesInCluster := stats.1
  let nonWildcardCount := stats.2
  let uniCount := cluster.foldl (fun c k =>
    match Grid.get grid k with
    | none => c
    | some h => if h.buildingId == some "university" then c + 1 else c) 0
  let qualifies := 21 ≤ nonWildcardCount ∧ 2 ≤ typesInCluster.length
  let bonus : ℚ :=
    if qualifies then min 1 (((nonWildcardCount : ℚ) - 21) / (42 - 21)) else 0
  cluster.foldl (fun res k => superApplyUpdate res k bonus uniCount nonWildcardCount)
    result

/-- One zone-category pass of computeSuperclusters (economy.ts:308-366),
threading the per-category visited set and the shared result map. -/
def superZonePass (grid : Grid) (zt : String) (result0 : SuperMap) : SuperMap :=
  (grid.foldl (fun (st : List String × SuperMap) entry =>
    let key := entry.1
    let hex := entry.2
    if st.1.contains key then st
    else if zoneEligible zt hex then
      let bfs := superBFS grid zt (grid.length + 1) [] (st.1 ++ [key]) [key]
      (bfs.2, superProcessComponent grid bfs.1 st.2)
    else st) ([], result0)).2

/-- economy.ts computeSuperclusters. -/
def computeSuperclusters (grid : Grid) : SuperMap :=
  (ZONE_TYPES.map (fun p => p.1)).foldl (fun result zt => superZonePass grid zt result) []

/- ===================== C8: supercluster best-bonus ===================== -/

/-- Concrete grid refuting C8: a trade depot (zone wildcard) at the origin,
a chain of 25 farms (one agricultural component, single type, bonus 0) to its
east, and a chain of 22 alternating stone camps and quarries (one mining
component, two types, bonus 1/21) to its west. -/
def c8Grid : Grid :=
  [("0,0", { q := 0, r := 0, buildingId := some "trade_depot" })]
  ++ ((List.range 25).map (fun i =>
       let qi : Int := 1 + (i : Int)
       (hexKey qi 0, { q := qi, r := 0, buildingId := some "farm" })))
  ++ ((List.range 22).map (fun i =>
       let qi : Int := -(1 + (i : Int))
       let bid : String := if i % 2 = 0 then "stone_camp" else "quarry"
       (hexKey qi 0, { q := qi, r := 0, buildingId := some bid })))

set_option maxRecDepth 400000 in
/-- C8 counterexample: the depot cell belongs to both the agricultural
component (size 25, bonus 0, processed first) and the mining component
(size 22, bonus 1/21 as recorded on its mine members), but because the mining
component is not strictly larger than the already-recorded size 25, the depot
records bonus 0 — not the best bonus 1/21 across its zone categories. -/
theorem computeSuperclusters_not_best_bonus_counterexample :
    AList.get (computeSuperclusters c8Grid) "0,0" = some ⟨0, 0, 25⟩ ∧
    AList.get (computeSuperclusters c8Grid) "-1,0"
      = some ⟨min 1 (((22 : ℚ) - 21) / (42 - 21)), 0, 22⟩ ∧
    (superBFS c8Grid "mining" (c8Grid.length + 1) [] ["0,0"] ["0,0"]).1.contains "-1,0"
      = true ∧
    min 1 (((22 : ℚ) - 21) / (42 - 21)) = 1 / 21 ∧
    (0 : ℚ) ≠ max 0 (1 / 21) := by
  refine ⟨rfl, rfl, rfl, by norm_num, by norm_num⟩

/-- Scalar replay of one superApplyUpdate step on a single cell's record
(economy.ts:359-364). -/
def superFoldStep (prev : Option SuperRec) (c : ℚ × Nat × Nat) : Option SuperRec :=
  match prev with
  | none => some ⟨c.1, c.2.1, c.2.2⟩
  | some p => if p.size < c.2.2 then some ⟨max p.bonus c.1, c.2.1, c.2.2⟩ else some p

/-- Modelled from the spec (amended wording): the components that strictly
exceed every earlier recorded size — the running-maximum record breakers. -/
def sizeRecordBreakersGo : List (ℚ × Nat × Nat) → Option Nat → List (ℚ × Nat × Nat)
  | [], _ => []
  | c :: rest, none => c :: sizeRecordBreakersGo rest (some c.2.2)
  | c :: rest, some best =>
    if best < c.2.2 then c :: sizeRecordBreakersGo rest (some c.2.2)
    else sizeRecordBreakersGo rest (some best)

theorem superFoldStep_from_breakers (comps : List (ℚ × Nat × Nat)) :
    ∀ p : SuperRec, ∃ r : SuperRec,
      comps.foldl superFoldStep (some p) = some r ∧
      r.bonus = ((sizeRecordBreakersGo comps (some p.size)).map
        (fun x => x.1)).foldl max p.bonus := by
  induction comps with
  | nil => intro p; exact ⟨p, rfl, rfl⟩
  | cons c rest ih =>
    intro p
    rw [List.foldl_cons]
    by_cases hlt : p.size < c.2.2
    · have hstep : superFoldStep (some p) c = some ⟨max p.bonus c.1, c.2.1, c.2.2⟩ := by
        unfold superFoldStep
        dsimp only
        rw [if_pos hlt]
      rw [hstep]
      obtain ⟨r, hr, hb⟩ := ih ⟨max p.bonus c.1, c.2.1, c.2.2⟩
      refine ⟨r, hr, ?_⟩
      rw [hb]
      have hbrk : sizeRecordBreakersGo (c :: rest) (some p.size)
          = c :: sizeRecordBreakersGo rest (some c.2.2) := by
        show (if p.size < c.2.2 then c :: sizeRecordBreakersGo rest (some c.2.2)
          else sizeRecordBreakersGo rest (some p.size)) = _
        rw [if_pos hlt]
      rw [hbrk, List.map_cons, List.foldl_cons]
    · have hstep : superFoldStep (some p) c = some p := by
        unfold superFoldStep
        dsimp only
        rw [if_neg hlt]
      rw [hstep]
      obtain ⟨r, hr, hb⟩ := ih p
      refine ⟨r, hr, ?_⟩
      rw [hb]
      have hbrk : sizeRecordBreakersGo (c :: rest) (some p.size)
          = sizeRecordBreakersGo rest (some p.size) := by
        show (if p.size < c.2.2 then c :: sizeRecordBreakersGo rest (some c.2.2)
          else sizeRecordBreakersGo rest (some p.size)) = _
        rw [if_neg hlt]
      rw [hbrk]

/-- C8 amended: the per-member record update of computeSuperclusters keeps a
component's bonus only when the component strictly exceeds the recorded
size.  (i) superApplyUpdate (the map update used by computeSuperclusters)
replays superFoldStep at the updated key; (ii) over any sequence of
components (in zone-category iteration order), the recorded bonus is the
maximum bonus over the size record breakers only — a later component whose
size does not exceed every earlier component's size never contributes its
bonus, so the best bonus across all containing components is not always
recorded. -/
theorem superclusterRecord_breaker_characterization :
    (∀ (result : SuperMap) (k : String) (bonus : ℚ) (uniCount size : Nat),
      AList.get (superApplyUpdate result k bonus uniCount size) k
        = superFoldStep (AList.get result k) (bonus, uniCount, size)) ∧
    (∀ (c : ℚ × Nat × Nat) (rest : List (ℚ × Nat × Nat)) (r : SuperRec),
      (c :: rest).foldl superFoldStep none = some r →
      r.bonus = ((sizeRecordBreakersGo rest (some c.2.2)).map
        (fun x => x.1)).foldl max c.1) := by
  constructor
  · intro result k bonus uniCount size
    unfold superApplyUpdate superFoldStep
    cases hg : AList.get result k with
    | none =>
      dsimp only
      rw [AList.get_write_self]
    | some p =>
      dsimp only
      by_cases hlt : p.size < size
      · rw [if_pos hlt, if_pos hlt, AList.get_write_self]
      · rw [if_neg hlt, if_neg hlt, hg]
  · intro c rest r hfold
    rw [List.foldl_cons] at hfold
    have hstep : superFoldStep none c = some ⟨c.1, c.2.1, c.2.2⟩ := rfl
    rw [hstep] at hfold
    obtain ⟨r2, hr2, hb⟩ := superFoldStep_from_breakers rest ⟨c.1, c.2.1, c.2.2⟩
    rw [hr2] at hfold
    cases hfold
    exact hb

/-- Witness for superclusterRecord_breaker_characterization: a later smaller
component with a positive bonus is suppressed by an earlier larger zero-bonus
component. -/
theorem superclusterRecord_breaker_characterization_witness :
    (AList.get (superApplyUpdate [("0,0", ⟨0, 0, 25⟩)] "0,0" (1/21) 0 22) "0,0"
      = superFoldStep (AList.get [("0,0", (⟨0, 0, 25⟩ : SuperRec))] "0,0") (1/21, 0, 22)) ∧
    ((⟨0, 0, 25⟩ : SuperRec).bonus
      = ((sizeRecordBreakersGo [((1:ℚ)/21, 0, 22)] (some 25)).map
          (fun x => x.1)).foldl max 0) :=
  ⟨superclusterRecord_breaker_characterization.1 [("0,0", ⟨0, 0, 25⟩)] "0,0" (1/21) 0 22,
   superclusterRecord_breaker_characterization.2 (0, 0, 25) [((1:ℚ)/21, 0, 22)]
     ⟨0, 0, 25⟩ rfl⟩

/- ===================== economy.ts computeClusters ===================== -/

structure ClusterRec where
  size : Nat
  bonus : ℚ
deriving DecidableEq

abbrev ClusterMap := List (String × ClusterRec)

/-- Upgrade-chain successors of a building type: the `while` loop of
economy.ts:208-216.  Catalog chains have length at most 2, so fuel 64
dominates the source loop. -/
def upgradeCompatible : Nat → String → List String
  | 0, _ => []
  | fuel + 1, current =>
    match BUILDINGS current with
    | none => []
    | some b =>
      match b.upgradesTo with
      | none => []
      | some next => next :: upgradeCompatible fuel next

/-- Neighbor eligibility of the cluster BFS (economy.ts:237-242). -/
def clusterEligible (buildingType : String) (compatible : List String)
    (hex : HexData) : Bool :=
  match hex.buildingId with
  | none => false
  | some nbid =>
    nbid == buildingType || HUB_BUILDING_IDS.contains nbid || compatible.contains nbid

/-- BFS of computeClusters collecting one same-type cluster
(economy.ts:227-245).  Each pop consumes a queue entry pushed for a freshly
visited cell, so `grid.length + 1` iterations dominate. -/
def clusterBFS (grid : Grid) (buildingType : String) (compatible : List String) :
    Nat → List String → List String → List String → List String × List String
  | 0, cluster, visited, _ => (cluster, visited)
  | fuel + 1, cluster, visited, queue =>
    match queue with
    | [] => (cluster, visited)
    | cur :: rest =>
      let cluster2 := cluster ++ [cur]
      match Grid.get grid cur with
      | none => clusterBFS grid buildingType compatible fuel cluster2 visited rest
      | some curHex =>
        let st := (getNeighbors curHex.q curHex.r).foldl
          (fun (st : List String × List String) n =>
            let nk := hexKey n.1 n.2
            if st.1.contains nk then st
            else match Grid.get grid nk with
              | none => st
              | some nHex =>
                if clusterEligible buildingType compatible nHex then
                  (st.1 ++ [nk], st.2 ++ [nk])
                else st)
          (visited, rest)
        clusterBFS grid buildingType compatible fuel cluster2 st.1 st.2

/-- Distance-decayed adjacency score BFS inside one cluster
(economy.ts:256-273). -/
def clusterScoreBFS (grid : Grid) (clusterSet : List String) :
    Nat → List (String × Nat) → List String → ℚ → ℚ
  | 0, _, _, score => score
  | fuel + 1, distances, queue, score =>
    match queue with
    | [] => score
    | cur :: rest =>
      let curDist := (AList.get distances cur).getD 0
      match Grid.get grid cur with
      | none => clusterScoreBFS grid clusterSet fuel distances rest score
      | some curHex =>
        let st := (getNeighbors curHex.q curHex.r).foldl
          (fun (st : List (String × Nat) × List String × ℚ) n =>
            let nk := hexKey n.1 n.2
            if AList.hasKey st.1 nk || !(clusterSet.contains nk) then st
            else
              let nDist := curDist + 1
              (AList.set st.1 nk nDist, st.2.1 ++ [nk],
               st.2.2 + (0.5 : ℚ) ^ (nDist - 1)))
          (distances, rest, score)
        clusterScoreBFS grid clusterSet fuel st.1 st.2.1 st.2.2

/-- Score quantization of economy.ts:274. -/
def clusterScoreBonus (score : ℚ) : ℚ :=
  if 5 ≤ score then 1
  else if 3 ≤ score then 0.5
  else if 2 ≤ score then 0.25
  else if 1 ≤ score then 0.1
  else 0

/-- Per-cluster record updates of computeClusters (economy.ts:248-284). -/
def processCluster (grid : Grid) (compatible : List String) (cluster : List String)
    (result : ClusterMap) : ClusterMap :=
  let clusterSize := cluster.length
  if clusterSize ≤ 1 then
    match cluster with
    | [] => result
    | c0 :: _ =>
      match AList.get result c0 with
      | none => AList.set result c0 ⟨1, 0⟩
      | some prev => if prev.size < clusterSize then AList.set result c0 ⟨1, 0⟩ else result
  else
    cluster.foldl (fun res buildingKey =>
      let score := clusterScoreBFS grid cluster (grid.length + 1) [(buildingKey, 0)]
        [buildingKey] 0
      let bonus := clusterScoreBonus score
      let skip := match Grid.get grid buildingKey with
        | none => false
        | some bHex =>
          match bHex.buildingId with
          | none => false
          | some bid => compatible.contains bid
      if skip then res
      else
        match AList.get res buildingKey with
        | none => AList.set res buildingKey ⟨clusterSize, bonus⟩
        | some prev =>
          if prev.bonus < bonus then AList.set res buildingKey ⟨clusterSize, bonus⟩
          else res) result

/-- economy.ts computeClusters. -/
def computeClusters (grid : Grid) : ClusterMap :=
  let buildingTypes := grid.foldl (fun (acc : List String) entry =>
    match entry.2.buildingId with
    | some bid =>
      if HUB_BUILDING_IDS.contains bid then acc
      else if acc.contains bid then acc else acc ++ [bid]
    | none => acc) []
  let result0 := buildingTypes.foldl (fun result buildingType =>
    let compatible := upgradeCompatible 64 buildingType
    let clusters := (grid.foldl (fun (st : List String × List (List String)) entry =>
      if st.1.contains entry.1 then st
      else if entry.2.buildingId == some buildingType then
        let bfs := clusterBFS grid buildingType compatible (grid.length + 1) []
          (st.1 ++ [entry.1]) [entry.1]
        (bfs.2, st.2 ++ [bfs.1])
      else st) ([], [])).2
    clusters.foldl (fun res cluster => processCluster grid compatible cluster res)
      result) []
  grid.foldl (fun res entry =>
    match entry.2.buildingId with
    | some _ => if AList.hasKey res entry.1 then res else AList.set res entry.1 ⟨1, 0⟩
    | none => res) result0

/- ===================== economy.ts getExportEfficiency ===================== -/

/-- Terrain lookup capability (the GetTerrainsFn form; the engine converts the
association form to this before use). -/
abbrev GetTerrainsFn := Int → Int → List TerrainType

/-- Map-edge test of getExportEfficiency (economy.ts:394-401): a cell with a
neighbor outside the grid or devoid of terrain. -/
def isAtMapEdge (grid : Grid) (getTerrains : GetTerrainsFn) (q r : Int) : Bool :=
  (getNeighbors q r).any (fun n =>
    match Grid.get grid (hexKey n.1 n.2) with
    | none => true
    | some _ => (getTerrains n.1 n.2).isEmpty)

/-- Step efficiency of getExportEfficiency (economy.ts:402-410): transport
infrastructure on the edge, or 1.0 into water; none when neither applies. -/
def getStepEfficiency (infraEdges : EdgeMap) (getTerrains : GetTerrainsFn)
    (fromQ fromR toQ toR : Int) : Option ℚ :=
  let ek := getEdgeKey fromQ fromR toQ toR
  let edge := EdgeMap.get infraEdges ek
  let best : Option ℚ :=
    match edge with
    | some e =>
      match e.transport with
      | some t => some (INFRA_EXPORT_EFFICIENCY t)
      | none => none
    | none => none
  let destTerrains := getTerrains toQ toR
  if destTerrains.contains TerrainType.water then some (max (best.getD 0) 1)
  else best

/-- State of the widest-path BFS of getExportEfficiency. -/
structure ExportState where
  bestSeen : List (String × ℚ)
  queue : List (String × ℚ)
  best : ℚ
deriving DecidableEq

/-- The `while` loop of getExportEfficiency (economy.ts:423-443).  Every push
strictly improves a node's bestSeen value, and values lie in the finite set
{0.5, 0.7, 1.0} closed under min, so at most three improvements happen per
cell and `4 * (grid.length + 1) + 8` iterations dominate the source loop,
which stops exactly when the queue empties. -/
def exportLoop (grid : Grid) (infraEdges : EdgeMap) (getTerrains : GetTerrainsFn) :
    Nat → ExportState → ExportState
  | 0, st => st
  | fuel + 1, st =>
    match st.queue with
    | [] => st
    | (cur, minEff) :: rest =>
      match Grid.get grid cur with
      | none => exportLoop grid infraEdges getTerrains fuel { st with queue := rest }
      | some curHex =>
        if isAtMapEdge grid getTerrains curHex.q curHex.r then
          exportLoop grid infraEdges getTerrains fuel
            { st with queue := rest, best := max st.best minEff }
        else
          let st2 := (getNeighbors curHex.q curHex.r).foldl
            (fun (s : List (String × ℚ) × List (String × ℚ)) n =>
              let nk := hexKey n.1 n.2
              match Grid.get grid nk with
              | none => s
              | some _ =>
                match getStepEfficiency infraEdges getTerrains curHex.q curHex.r n.1 n.2 with
                | none => s
                | some stepEff =>
                  let pathEff := min minEff stepEff
                  let prev := (AList.get s.1 nk).getD 0
                  if prev < pathEff then (AList.set s.1 nk pathEff, s.2 ++ [(nk, pathEff)])
                  else s)
            (st.bestSeen, rest)
          exportLoop grid infraEdges getTerrains fuel
            { bestSeen := st2.1, queue := st2.2, best := st.best }

/-- Initial queue seeding of getExportEfficiency (economy.ts:414-421). -/
def exportSeed (grid : Grid) (infraEdges : EdgeMap) (getTerrains : GetTerrainsFn)
    (startHex : HexData) : List (String × ℚ) × List (String × ℚ) :=
  (getNeighbors startHex.q startHex.r).foldl
    (fun (s : List (String × ℚ) × List (String × ℚ)) n =>
      let nk := hexKey n.1 n.2
      match Grid.get grid nk with
      | none => s
      | some _ =>
        match getStepEfficiency infraEdges getTerrains startHex.q startHex.r n.1 n.2 with
        | none => s
        | some eff => (AList.set s.1 nk eff, s.2 ++ [(nk, eff)]))
    ([], [])

/-- economy.ts getExportEfficiency: weakest-link widest path to the map
edge. -/
def getExportEfficiency (startKey : String) (grid : Grid) (infraEdges : EdgeMap)
    (getTerrains : GetTerrainsFn) : ℚ :=
  match Grid.get grid startKey with
  | none => 0
  | some startHex =>
    if isAtMapEdge grid getTerrains startHex.q startHex.r then 1
    else
      let seed := exportSeed grid infraEdges getTerrains startHex
      (exportLoop grid infraEdges getTerrains (4 * (grid.length + 1) + 8)
        { bestSeen := seed.1, queue := seed.2, best := 0 }).best

/- ===================== economy.ts simulateTick: helpers ===================== -/

structure TickResult where
  grid : Grid
  flowSummary : FlowSummary
  exportRate : RMap
  infraEdges : EdgeMap
  infraConstructionSites : List InfraEdgeConstructionSite
  flowPairs : List FlowPair
deriving DecidableEq

def emptyFlowSummary : FlowSummary :=
  { potential := [], potentialDemand := [], realized := [], consumed := [],
    exportConsumed := [], lostToDistance := [], lostToShortage := [] }

/-- economy.ts aggregateFlowPairs (602-616). -/
def aggregateFlowPairs (pairs : List FlowPair) : List FlowPair :=
  (pairs.foldl (fun (m : List (String × FlowPair)) p =>
    if p.amount < 0.01 then m
    else
      let key := p.sourceKey ++ "|" ++ p.destKey ++ "|" ++ p.resource
      match AList.get m key with
      | some existing =>
        AList.set m key
          { existing with
            amount := existing.amount + p.amount,
            pathCost := max existing.pathCost p.pathCost }
      | none => AList.set m key p) []).map (fun e => e.2)

/-- economy.ts:762-771: operating buildings (hex, key, buildingId) and
construction sites (hex, key), in grid iteration order. -/
def collectOperating (grid : Grid) :
    List (HexData × String × String) × List (HexData × String) :=
  grid.foldl
    (fun (st : List (HexData × String × String) × List (HexData × String)) entry =>
      let key := entry.1
      let hex := entry.2
      match hex.constructionSite with
      | some site =>
        let ops :=
          if site.isUpgrade then
            match site.previousBuildingId with
            | some prev => st.1 ++ [(hex, key, prev)]
            | none => st.1
          else st.1
        (ops, st.2 ++ [(hex, key)])
      | none =>
        match hex.buildingId with
        | some bid => if hex.paused then st else (st.1 ++ [(hex, key, bid)], st.2)
        | none => st) ([], [])

/-- The constant base-population pseudo-producer (economy.ts:773-777). -/
def baseProducer : ProducerState :=
  { hex := { q := 0, r := 0 }, key := "__base__", buildingId := "__base__",
    potential := [("population", BASE_POPULATION)], realized := [],
    remaining := [("population", BASE_POPULATION)], clusterBonus := 0,
    clusterSize := 0, zoneOutputBonus := 0, zoneInputReduction := 0,
    superclusterSize := 0 }

/-- economy.ts:782-810: producers (base first), processors and exporters from
the operating buildings. -/
def buildProducersConsumers (operating : List (HexData × String × String))
    (clusters : ClusterMap) (superclusters : SuperMap) :
    List ProducerState × List ConsumerState × List ConsumerState :=
  operating.foldl
    (fun (st : List ProducerState × List ConsumerState × List ConsumerState) ob =>
      let hex := ob.1
      let key := ob.2.1
      let buildingId := ob.2.2
      match BUILDINGS buildingId with
      | none => st
      | some building =>
        let potential0 := building.outputs.foldl (fun (m : RMap) p => m.set p.1 p.2) []
        let cluster := AList.get clusters key
        let clusterBonus := (cluster.map (fun c => c.bonus)).getD 0
        let clusterSize := (cluster.map (fun c => c.size)).getD 1
        let potential1 :=
          if 0 < clusterBonus then
            building.outputs.foldl (fun (m : RMap) p =>
              m.set p.1 (m.get p.1 + p.2 * clusterBonus)) potential0
          else potential0
        let sc := AList.get superclusters key
        let scMultiplier := (sc.map (fun s => s.bonus)).getD 0
        let scUniCount : Nat := min ((sc.map (fun s => s.uniCount)).getD 0) 4
        let superclusterSize := (sc.map (fun s => s.size)).getD 0
        let zoneOutputBonus :=
          if 0 < scMultiplier then
            (ZONE_OUTPUT_BONUS + (scUniCount : ℚ) * 0.10) * scMultiplier
          else 0
        let zoneInputReduction :=
          if 0 < scMultiplier then
            min ((ZONE_INPUT_REDUCTION + (scUniCount : ℚ) * 0.05) * scMultiplier) 0.25
          else 0
        let potential2 :=
          if 0 < zoneOutputBonus then
            building.outputs.foldl (fun (m : RMap) p =>
              m.set p.1 (m.get p.1 + p.2 * zoneOutputBonus)) potential1
          else potential1
        let producer : ProducerState :=
          { hex := hex, key := key, buildingId := buildingId, potential := potential2,
            realized := [], remaining := potential2, clusterBonus := clusterBonus,
            clusterSize := clusterSize, zoneOutputBonus := zoneOutputBonus,
            zoneInputReduction := zoneInputReduction, superclusterSize := superclusterSize }
        let demand := building.inputs.foldl (fun (m : RMap) p =>
          m.set p.1 (p.2 * (1 - zoneInputReduction))) []
        let producers2 := st.1 ++ [producer]
        if demand.isEmpty then (producers2, st.2.1, st.2.2)
        else
          let c : ConsumerState :=
            { hex := hex, key := key, buildingId := buildingId,
              prioritized := hex.prioritized, demand := demand, received := [],
              distanceLoss := [] }
          if buildingId == "export_port" then (producers2, st.2.1, st.2.2 ++ [c])
          else (producers2, st.2.1 ++ [c], st.2.2))
    ([baseProducer], [], [])

/-- economy.ts:817-824: water port keys (export ports on water or with a
canal connection). -/
def collectWaterPortKeys (grid : Grid) (infraEdges : EdgeMap)
    (getTerrains : GetTerrainsFn) : List String :=
  grid.foldl (fun (acc : List String) entry =>
    let hex := entry.2
    if hex.buildingId == some "export_port" && hex.constructionSite.isNone then
      let terrains := getTerrains hex.q hex.r
      let hasCanal := 0 < countHexConnections hex.q hex.r infraEdges InfraType.canal
      if terrains.contains TerrainType.water || decide hasCanal then acc ++ [entry.1]
      else acc
    else acc) []

structure HubBuildingInfo where
  key : String
  q : Int
  r : Int
  radius : Int
deriving DecidableEq

structure HubCandidate where
  q : Int
  r : Int
  bestHub : String
  bestDist : Nat
deriving DecidableEq

/-- economy.ts:829-859: hub zones; each covered hex is assigned to the
nearest hub only (ties broken by the smaller hub key string). -/
def computeHubZones (operating : List (HexData × String × String)) (grid : Grid) :
    List HubZone :=
  let hubBuildings := operating.foldl (fun (acc : List HubBuildingInfo) ob =>
    match HUB_RADIUS ob.2.2 with
    | none => acc
    | some radius => acc ++ [⟨ob.2.1, ob.1.q, ob.1.r, radius⟩]) []
  let hexCandidates : List (String × HubCandidate) :=
    hubBuildings.foldl (fun cand hub =>
      (getHexesInRadius hub.q hub.r hub.radius).foldl
        (fun (cand2 : List (String × HubCandidate)) h =>
          let k := hexKey h.1 h.2
          match Grid.get grid k with
          | none => cand2
          | some _ =>
            let dist := max (max (h.1 - hub.q).natAbs (h.2 - hub.r).natAbs)
              (h.1 + h.2 - (hub.q + hub.r)).natAbs
            let upd := match AList.get cand2 k with
              | none => true
              | some existing =>
                decide (dist < existing.bestDist) ||
                  (dist == existing.bestDist && decide (hub.key < existing.bestHub))
            if upd then AList.set cand2 k ⟨h.1, h.2, hub.key, dist⟩ else cand2)
        cand) []
  hubBuildings.map (fun hub =>
    { hubKey := hub.key,
      hexKeys := (hexCandidates.filter (fun e => e.2.bestHub == hub.key)).map
        (fun e => e.1) })

/-- economy.ts:888-899: resources still demanded by any construction site. -/
def collectConstructionResources (constructionSites : List (HexData × String))
    (infraSites : List InfraEdgeConstructionSite) : List String :=
  let s1 := constructionSites.foldl (fun (acc : List String) hs =>
    match hs.1.constructionSite with
    | none => acc
    | some site =>
      site.totalCost.foldl (fun (acc2 : List String) p =>
        if RMap.get site.delivered p.1 < p.2 then
          (if acc2.contains p.1 then acc2 else acc2 ++ [p.1])
        else acc2) acc) []
  infraSites.foldl (fun (acc : List String) site =>
    site.totalCost.foldl (fun (acc2 : List String) p =>
      if RMap.get site.delivered p.1 < p.2 then
        (if acc2.contains p.1 then acc2 else acc2 ++ [p.1])
      else acc2) acc) s1

/-- economy.ts:905-913: per-iteration producer remaining reset. -/
def resetProducerRemaining (constructionResources : List String)
    (efficiencyByKey : List (String × ℚ)) (p : ProducerState) : ProducerState :=
  if p.key == "__base__" then { p with remaining := [("population", BASE_POPULATION)] }
  else
    let eff := (AList.get efficiencyByKey p.key).getD 1
    let rem2 := p.potential.foldl
      (fun (m : RMap) q =>
        m.set q.1 (p.potential.get q.1 * eff *
          (if constructionResources.contains q.1 then 1 - CONSTRUCTION_RESERVE else 1)))
      p.remaining
    { p with remaining := rem2 }

/-- economy.ts:920-926: a producer's input efficiency is the minimum input
satisfaction of its consumer record (1 when it has none). -/
def producerInputEfficiency (consumer : Option ConsumerState) : ℚ :=
  match consumer with
  | none => 1
  | some c =>
    c.demand.foldl (fun ie p =>
      let satisfaction :=
        if 0 < c.demand.get p.1 then min 1 (c.received.get p.1 / c.demand.get p.1)
        else 1
      if satisfaction < ie then satisfaction else ie) 1

/-- economy.ts:917-928: per-producer assigned efficiency — max of the minimum
input satisfaction and the production floor 0.1; no downstream-demand gating
exists. -/
def recomputeEfficiencies (producers : List ProducerState)
    (processors : List ConsumerState) (efficiencyByKey : List (String × ℚ)) :
    List (String × ℚ) :=
  producers.foldl (fun eff producer =>
    if producer.key == "__base__" then eff
    else
      let consumer := processors.find? (fun c => c.key == producer.key)
      AList.set eff producer.key
        (max (producerInputEfficiency consumer) MIN_PRODUCTION_FLOOR)) efficiencyByKey

/-- One round of the convergence loop (economy.ts:903-928). -/
def convergenceIteration (allProcessorRes : List String)
    (distMap elecDistMap : DistanceMap) (constructionResources : List String)
    (st : List ProducerState × List ConsumerState × List (String × ℚ)) :
    List ProducerState × List ConsumerState × List (String × ℚ) :=
  let processors0 := st.2.1.map (fun c => { c with received := [], distanceLoss := [] })
  let producers0 := st.1.map (resetProducerRemaining constructionResources st.2.2)
  let alloc := allProcessorRes.foldl
    (fun (s : List ProducerState × List ConsumerState) res =>
      let out := allocatePass res s.1 s.2
        (if res == "electricity" then elecDistMap else distMap) none none
      (out.1, out.2.1)) (producers0, processors0)
  (alloc.1, alloc.2, recomputeEfficiencies alloc.1 alloc.2 st.2.2)

/-- economy.ts:931-939: realized production and post-convergence remaining. -/
def establishRealized (constructionResources : List String)
    (efficiencyByKey : List (String × ℚ)) (p : ProducerState) : ProducerState :=
  if p.key == "__base__" then
    let basePop : RMap := [("population", BASE_POPULATION)]
    { p with realized := basePop, remaining := basePop }
  else
    let eff := (AList.get efficiencyByKey p.key).getD 1
    let realized2 := p.potential.foldl (fun (m : RMap) q => m.set q.1 (q.2 * eff)) []
    let rem2 := p.potential.foldl
      (fun (m : RMap) q =>
        m.set q.1 (q.2 * eff *
          (if constructionResources.contains q.1 then 1 - CONSTRUCTION_RESERVE else 1)))
      []
    { p with realized := realized2, remaining := rem2 }

/-- economy.ts:946-956: release the construction reserve back into
remaining. -/
def releaseReserve (constructionResources : List String)
    (efficiencyByKey : List (String × ℚ)) (p : ProducerState) : ProducerState :=
  if p.key == "__base__" then p
  else
    let eff := (AList.get efficiencyByKey p.key).getD 1
    let rem2 := p.potential.foldl
      (fun (m : RMap) q =>
        if constructionResources.contains q.1 then
          m.set q.1 (m.get q.1 + p.potential.get q.1 * eff * CONSTRUCTION_RESERVE)
        else m)
      p.remaining
    { p with remaining := rem2 }

/-- economy.ts:961-968: building-site construction consumers. -/
def buildConstructionDemands (constructionSites : List (HexData × String)) :
    List ConsumerState :=
  constructionSites.foldl (fun (acc : List ConsumerState) hs =>
    match hs.1.constructionSite with
    | none => acc
    | some site =>
      let c : ConsumerState :=
        { hex := hs.1, key := hs.2, buildingId := "site",
          prioritized := hs.1.prioritized,
          demand := constructionDemand site.totalCost site.delivered,
          received := [], distanceLoss := [] }
      acc ++ [c]) []

/-- economy.ts:970-979: infrastructure-site construction consumers, aligned
index-by-index with the site list (the source tracks the edgeKey on each
record and looks the site back up by it; edge keys are unique). -/
def buildInfraDemands (grid : Grid) (infraSites : List InfraEdgeConstructionSite) :
    List ConsumerState :=
  infraSites.foldl (fun (acc : List ConsumerState) site =>
    let hexAKey := hexKey site.hexA.1 site.hexA.2
    let hexA := (Grid.get grid hexAKey).getD { q := site.hexA.1, r := site.hexA.2 }
    let c : ConsumerState :=
      { hex := hexA, key := hexAKey, buildingId := "infra", prioritized := false,
        demand := constructionDemand site.totalCost site.delivered,
        received := [], distanceLoss := [] }
    acc ++ [c]) []

/-- economy.ts:1138-1139 and 1155-1156: add this tick's received amounts to a
site's delivered totals. -/
def siteNewDelivered (delivered received : RMap) : RMap :=
  received.foldl (fun (m : RMap) p => m.set p.1 (m.get p.1 + p.2)) delivered

/-- economy.ts:1140 and 1157: completion test with the 0.01 epsilon. -/
def siteAllComplete (totalCost newDelivered : RMap) : Bool :=
  totalCost.all (fun p => decide (p.2 - 0.01 ≤ RMap.get newDelivered p.1))

/-- economy.ts:1140-1147: convert a completed building site (install the
target building, drop the site and flowState) or persist the accumulated
delivered totals. -/
def applySiteUpdate (hex : HexData) (site : ConstructionSite) (received : RMap) :
    HexData :=
  let newDelivered := siteNewDelivered site.delivered received
  if siteAllComplete site.totalCost newDelivered then
    { hex with
      buildingId := some site.targetBuildingId,
      constructionSite := none,
      flowState := none }
  else
    { hex with constructionSite := some { site with delivered := newDelivered } }

/-- economy.ts:1157-1159: complete an infrastructure site (upgrade the edge
type) or keep it pending with the accumulated delivered totals. -/
def applyInfraSiteUpdate (edges : EdgeMap) (pending : List InfraEdgeConstructionSite)
    (site : InfraEdgeConstructionSite) (received : RMap) :
    EdgeMap × List InfraEdgeConstructionSite :=
  let newDelivered := siteNewDelivered site.delivered received
  if siteAllComplete site.totalCost newDelivered then
    (EdgeMap.set edges site.edgeKey
      (setEdgeType (EdgeMap.get edges site.edgeKey) site.targetType), pending)
  else
    (edges, pending ++ [{ site with delivered := newDelivered }])

/-- economy.ts:1005-1070: per-producer ledger entries, diagnostics,
consumption, export of goods by ports, and the flowState write into the next
grid.  The export_port's reported efficiency is 1 regardless of its input
efficiency; every other building reports max(min input satisfaction, 0.1). -/
def producerSummaryStep (grid : Grid) (infraEdges : EdgeMap)
    (getTerrains : GetTerrainsFn) (processors exporters : List ConsumerState)
    (efficiencyByKey : List (String × ℚ))
    (st : FlowSummary × RMap × Grid) (producer : ProducerState) :
    FlowSummary × RMap × Grid :=
  if producer.key == "__base__" then st
  else
    match BUILDINGS producer.buildingId with
    | none => st
    | some building =>
      let summary := st.1
      let exportRate := st.2.1
      let nextGrid := st.2.2
      let processor := processors.find? (fun c => c.key == producer.key)
      let exporter := exporters.find? (fun c => c.key == producer.key)
      let inputEfficiency := (AList.get efficiencyByKey producer.key).getD 1
      let pd2 := building.inputs.foldl
        (fun (m : RMap) p => addToMap m p.1 (p.2 * (1 - producer.zoneInputReduction)))
        summary.potentialDemand
      let summary1 := { summary with potentialDemand := pd2 }
      let summary2 := producer.realized.foldl
        (fun (s : FlowSummary) p =>
          { s with
            potential := addToMap s.potential p.1 (producer.potential.get p.1),
            realized := addToMap s.realized p.1 p.2 })
        summary1
      let buildingExportEff :=
        if producer.buildingId == "export_port" || producer.buildingId == "trade_depot"
            || producer.buildingId == "station" then
          getExportEfficiency producer.key grid infraEdges getTerrains
        else 0
      let procRes := match processor with
        | none => (([] : List InputDiagnostic), ([] : RMap), summary2)
        | some proc =>
          building.inputs.foldl
            (fun (acc : List InputDiagnostic × RMap × FlowSummary) (p : String × ℚ) =>
              let res := p.1
              let received := proc.received.get res
              let distLoss := proc.distanceLoss.get res
              let required := proc.demand.get res
              let satisfaction := if 0 < required then min 1 (received / required) else 1
              let shortage := max 0 (required - received - distLoss)
              let diag : InputDiagnostic :=
                { resource := res, required := required, available := received,
                  distanceLoss := distLoss, inputShortage := shortage,
                  satisfaction := satisfaction }
              let s2 :=
                { acc.2.2 with
                  consumed := addToMap acc.2.2.consumed res received,
                  lostToDistance := addToMap acc.2.2.lostToDistance res distLoss,
                  lostToShortage := addToMap acc.2.2.lostToShortage res shortage }
              (acc.1 ++ [diag], acc.2.1.set res received, s2))
            ([], [], summary2)
      let inputDiagnostics := procRes.1
      let consumed0 := procRes.2.1
      let summary3 := procRes.2.2
      let expRes := match exporter with
        | none => (consumed0, summary3, exportRate, ([] : RMap))
        | some expc =>
          building.inputs.foldl
            (fun (acc : RMap × FlowSummary × RMap × RMap) (p : String × ℚ) =>
              let res := p.1
              let received := expc.received.get res
              let distLoss := expc.distanceLoss.get res
              let consumed1 := acc.1.set res received
              let s2 :=
                { acc.2.1 with
                  consumed := addToMap acc.2.1.consumed res received,
                  exportConsumed := addToMap acc.2.1.exportConsumed res received,
                  lostToDistance := addToMap acc.2.1.lostToDistance res distLoss }
              if 0 < buildingExportEff ∧ res = "goods" then
                let exported := received * buildingExportEff
                (consumed1, s2, addToMap acc.2.2.1 "goods" exported,
                 acc.2.2.2.set "goods" exported)
              else (consumed1, s2, acc.2.2.1, acc.2.2.2))
            (consumed0, summary3, exportRate, ([] : RMap))
      let flowState : BuildingFlowState :=
        { potential := producer.potential, realized := producer.realized,
          consumed := expRes.1, inputDiagnostics := inputDiagnostics,
          efficiency := if producer.buildingId == "export_port" then 1 else inputEfficiency,
          clusterBonus := producer.clusterBonus, clusterSize := producer.clusterSize,
          zoneOutputBonus := producer.zoneOutputBonus,
          zoneInputReduction := producer.zoneInputReduction,
          superclusterSize := producer.superclusterSize,
          exports := expRes.2.2.2, exportEfficiency := buildingExportEff }
      let nextGrid2 := match Grid.get nextGrid producer.key with
        | none => nextGrid
        | some h => Grid.setHex nextGrid producer.key { h with flowState := some flowState }
      (expRes.2.1, expRes.2.2.1, nextGrid2)

structure DepotClaim where
  producerKey : String
  depotKey : String
  transferEff : ℚ
  available : ℚ
  depotExportEff : ℚ
deriving DecidableEq

/-- economy.ts:1072-1133: trade depot / station surplus absorption, split
proportionally by transfer efficiency, plus the depot flowState rewrite. -/
def depotSurplus (producers : List ProducerState) (grid : Grid) (infraEdges : EdgeMap)
    (getTerrains : GetTerrainsFn) (distMap portDistMap elecDistMap : DistanceMap)
    (summary : FlowSummary) (exportRate : RMap) (nextGrid : Grid) :
    List ProducerState × FlowSummary × RMap × Grid :=
  let depots := producers.foldl (fun (acc : List (String × ℚ)) depot =>
    if depot.key == "__base__" ||
        !(depot.buildingId == "trade_depot" || depot.buildingId == "station") then acc
    else
      let eff := getExportEfficiency depot.key grid infraEdges getTerrains
      if eff ≤ 0 then acc else acc ++ [(depot.key, eff)]) []
  let depotExportsMap0 : List (String × RMap) := depots.map (fun d => (d.1, []))
  let resFold := ALL_EXPORTABLE_RESOURCES.foldl
    (fun (st : List ProducerState × FlowSummary × RMap × List (String × RMap))
        (res : String) =>
      let claims := st.1.foldl (fun (cl : List DepotClaim) (p : ProducerState) =>
        if p.key == "__base__" || decide (p.remaining.get res ≤ 0) then cl
        else
          let available := p.remaining.get res
          cl ++ depots.foldl (fun (cl2 : List DepotClaim) d =>
            let fallback : Option ℚ :=
              match DistanceMap.getMap (if res == "electricity" then elecDistMap else distMap)
                  p.key with
              | none => none
              | some m => RMap.getOpt m d.1
            let pathCost? : Option ℚ :=
              match DistanceMap.getMap portDistMap d.1 with
              | some dd =>
                (match RMap.getOpt dd p.key, fallback with
                 | some a, some b => some (min a b)
                 | some a, none => some a
                 | none, some b => some b
                 | none, none => none)
              | none => fallback
            match pathCost? with
            | none => cl2
            | some pathCost =>
              let eff := transferEff pathCost
              if eff ≤ 0 then cl2
              else cl2 ++ [⟨p.key, d.1, eff, available, d.2⟩]) []) []
      let pKeys := claims.foldl (fun (ks : List String) c =>
        if ks.contains c.producerKey then ks else ks ++ [c.producerKey]) []
      pKeys.foldl
        (fun (st2 : List ProducerState × FlowSummary × RMap × List (String × RMap)) pKey =>
          let pClaims := claims.filter (fun c => c.producerKey == pKey)
          match st2.1.find? (fun x => x.key == pKey) with
          | none => st2
          | some p =>
            let available := p.remaining.get res
            if available ≤ 0 then st2
            else
              let totalWeight := pClaims.foldl (fun s c => s + c.transferEff) 0
              let inner := pClaims.foldl
                (fun (st3 : RMap × List (String × RMap)) c =>
                  let share := available * (c.transferEff / totalWeight)
                  let received := share * c.transferEff
                  let exported := received * c.depotExportEff
                  if 0 < exported then
                    let dExports := (AList.get st3.2 c.depotKey).getD []
                    (addToMap st3.1 res exported,
                     AList.set st3.2 c.depotKey (dExports.set res (dExports.get res + exported)))
                  else st3)
                (st2.2.2.1, st2.2.2.2)
              let s2 :=
                { st2.2.1 with
                  consumed := addToMap st2.2.1.consumed res available,
                  exportConsumed := addToMap st2.2.1.exportConsumed res available }
              let producers2 := st2.1.map (fun x =>
                if x.key == pKey then { x with remaining := x.remaining.set res 0 } else x)
              (producers2, s2, inner.1, inner.2))
        (st.1, st.2.1, st.2.2.1, st.2.2.2))
    (producers, summary, exportRate, depotExportsMap0)
  let nextGrid2 := depots.foldl (fun (g : Grid) d =>
    match Grid.get g d.1 with
    | none => g
    | some h =>
      match h.flowState with
      | none => g
      | some fs =>
        let fs2 :=
          { fs with
            exports := (AList.get resFold.2.2.2 d.1).getD [],
            exportEfficiency := d.2 }
        Grid.setHex g d.1 { h with flowState := some fs2 }) nextGrid
  (resFold.1, resFold.2.1, resFold.2.2.1, nextGrid2)

/-- Data prepared by simulateTick before the allocation phases
(economy.ts:759-899). -/
structure TickPrep where
  operatingBuildings : List (HexData × String × String)
  constructionSites : List (HexData × String)
  producers0 : List ProducerState
  processors0 : List ConsumerState
  exporters0 : List ConsumerState
  allProcessorRes : List String
  distMap : DistanceMap
  portDistMap : DistanceMap
  elecDistMap : DistanceMap
  constructionResources : List String

/-- economy.ts:759-899: analyzers, producer/consumer records, distance maps,
and the construction-reserve resource set. -/
def tickPrep (grid : Grid) (getTerrains : GetTerrainsFn) (infraEdges : EdgeMap)
    (infraConstructionSites : List InfraEdgeConstructionSite) : TickPrep :=
  let clusters := computeClusters grid
  let superclusters := computeSuperclusters grid
  let collected := collectOperating grid
  let operatingBuildings := collected.1
  let constructionSites := collected.2
  let pcs := buildProducersConsumers operatingBuildings clusters superclusters
  let producers0 := pcs.1
  let processors0 := pcs.2.1
  let exporters0 := pcs.2.2
  let allProcessorRes := processors0.foldl (fun (acc : List String) c =>
    c.demand.foldl (fun (a : List String) p =>
      if a.contains p.1 then a else a ++ [p.1]) acc) []
  let waterPortKeys := collectWaterPortKeys grid infraEdges getTerrains
  let hubZones := computeHubZones operatingBuildings grid
  let producerKeys := (producers0.filter (fun p => !(p.key == "__base__"))).map
    (fun p => p.key)
  let distMap := precomputeDistances producerKeys grid infraEdges 10
    (some waterPortKeys) noOverrides (some hubZones) InfraCategory.transport
  let portDepotKeys := (producers0.filter (fun p =>
    p.buildingId == "export_port" || p.buildingId == "trade_depot"
      || p.buildingId == "station")).map (fun p => p.key)
  let portDistMap := if 0 < portDepotKeys.length then
      precomputeDistances portDepotKeys grid infraEdges 10 (some waterPortKeys)
        (fun t => if t == InfraType.canal then some 0 else none) (some hubZones)
        InfraCategory.transport
    else []
  let elecProducerKeys := (producers0.filter (fun p =>
    !(p.key == "__base__") && decide (0 < p.potential.get "electricity"))).map
    (fun p => p.key)
  let elecDistMap := if 0 < elecProducerKeys.length then
      precomputeDistances elecProducerKeys grid infraEdges 10 (some waterPortKeys)
        (fun t => if t == InfraType.power_line then some 0.2
          else if t == InfraType.hv_line then some 0 else none)
        (some hubZones) InfraCategory.power
    else []
  let constructionResources := collectConstructionResources constructionSites
    infraConstructionSites
  { operatingBuildings := operatingBuildings, constructionSites := constructionSites,
    producers0 := producers0, processors0 := processors0, exporters0 := exporters0,
    allProcessorRes := allProcessorRes, distMap := distMap, portDistMap := portDistMap,
    elecDistMap := elecDistMap, constructionResources := constructionResources }

/-- Outputs of the allocation phases of simulateTick. -/
structure TickAlloc where
  producers : List ProducerState
  processors : List ConsumerState
  exporters : List ConsumerState
  constructionFinal : List ConsumerState
  flowPairs : List FlowPair
  efficiencyByKey : List (String × ℚ)

/-- economy.ts:901-989: convergence loop, realized production, authoritative
processor pass, reserve release, construction pass and export pass. -/
def tickAllocPhases (grid : Grid) (infraConstructionSites : List InfraEdgeConstructionSite)
    (prep : TickPrep) : TickAlloc :=
  let conv := (List.range CONVERGENCE_ITERATIONS).foldl
    (fun (st : List ProducerState × List ConsumerState × List (String × ℚ)) _ =>
      convergenceIteration prep.allProcessorRes prep.distMap prep.elecDistMap
        prep.constructionResources st)
    (prep.producers0, prep.processors0, ([] : List (String × ℚ)))
  let efficiencyByKey := conv.2.2
  let producers2 := conv.1.map (establishRealized prep.constructionResources efficiencyByKey)
  let processors2 := conv.2.1.map (fun c => { c with received := [], distanceLoss := [] })
  let auth := prep.allProcessorRes.foldl
    (fun (s : List ProducerState × List ConsumerState × Option (List FlowPair)) res =>
      allocatePass res s.1 s.2.1
        (if res == "electricity" then prep.elecDistMap else prep.distMap) none s.2.2)
    (producers2, processors2, some [])
  let producers4 := if !prep.constructionResources.isEmpty then
      auth.1.map (releaseReserve prep.constructionResources efficiencyByKey)
    else auth.1
  let constructionDemands := buildConstructionDemands prep.constructionSites
  let infraDemands := buildInfraDemands grid infraConstructionSites
  let allConstructionConsumers := constructionDemands ++ infraDemands
  let allConstRes := allConstructionConsumers.foldl (fun (acc : List String) c =>
    c.demand.foldl (fun (a : List String) p =>
      if a.contains p.1 then a else a ++ [p.1]) acc) []
  let constr := allConstRes.foldl
    (fun (s : List ProducerState × List ConsumerState) res =>
      let out := allocatePass res s.1 s.2 prep.distMap none none
      (out.1, out.2.1)) (producers4, allConstructionConsumers)
  let allExportRes := prep.exporters0.foldl (fun (acc : List String) c =>
    c.demand.foldl (fun (a : List String) p =>
      if a.contains p.1 then a else a ++ [p.1]) acc) []
  let exp := allExportRes.foldl
    (fun (s : List ProducerState × List ConsumerState × Option (List FlowPair)) res =>
      allocatePass res s.1 s.2.1
        (if res == "electricity" then prep.elecDistMap else prep.distMap)
        (some prep.portDistMap) s.2.2)
    (constr.1, prep.exporters0, some (auth.2.2.getD []))
  { producers := exp.1, processors := auth.2.1, exporters := exp.2.1,
    constructionFinal := constr.2, flowPairs := exp.2.2.getD [],
    efficiencyByKey := efficiencyByKey }

/-- economy.ts:1136-1150: building construction-site updates against the
original grid's sites, in site order (sites and their construction consumers
are aligned index by index). -/
def tickBuildingSiteUpdates (grid : Grid)
    (constructionSites : List (HexData × String)) (constrConsumersFinal : List ConsumerState)
    (nextGrid : Grid) (summary : FlowSummary) : Grid × FlowSummary :=
  (constructionSites.zip constrConsumersFinal).foldl
    (fun (st : Grid × FlowSummary) pair =>
      let siteKey := pair.1.2
      let d := pair.2
      match (Grid.get grid siteKey).bind (fun h => h.constructionSite) with
      | none => st
      | some site =>
        let nextGrid2 := match Grid.get st.1 siteKey with
          | none => st.1
          | some h => Grid.setHex st.1 siteKey (applySiteUpdate h site d.received)
        let sum2 := d.received.foldl
          (fun (s : FlowSummary) p => { s with consumed := addToMap s.consumed p.1 p.2 })
          st.2
        let sum3 := d.distanceLoss.foldl
          (fun (s : FlowSummary) p =>
            { s with lostToDistance := addToMap s.lostToDistance p.1 p.2 }) sum2
        (nextGrid2, sum3)) (nextGrid, summary)

/-- economy.ts:1152-1162: infrastructure construction-site updates. -/
def tickInfraSiteUpdates (infraConstructionSites : List InfraEdgeConstructionSite)
    (infraConsumersFinal : List ConsumerState) (edges : EdgeMap)
    (summary : FlowSummary) : EdgeMap × List InfraEdgeConstructionSite × FlowSummary :=
  (infraConstructionSites.zip infraConsumersFinal).foldl
    (fun (st : EdgeMap × List InfraEdgeConstructionSite × FlowSummary) pair =>
      let site := pair.1
      let d := pair.2
      let upd := applyInfraSiteUpdate st.1 st.2.1 site d.received
      let sum2 := d.received.foldl
        (fun (s : FlowSummary) p => { s with consumed := addToMap s.consumed p.1 p.2 })
        st.2.2
      let sum3 := d.distanceLoss.foldl
        (fun (s : FlowSummary) p =>
          { s with lostToDistance := addToMap s.lostToDistance p.1 p.2 }) sum2
      (upd.1, upd.2, sum3))
    (edges, ([] : List InfraEdgeConstructionSite), summary)

/-- economy.ts simulateTick (744-1166), composing the phases above. -/
def simulateTick (grid : Grid) (getTerrains : GetTerrainsFn) (infraEdges : EdgeMap)
    (infraConstructionSites : List InfraEdgeConstructionSite) : TickResult :=
  let prep := tickPrep grid getTerrains infraEdges infraConstructionSites
  let alloc := tickAllocPhases grid infraConstructionSites prep
  let summary0 := emptyFlowSummary
  let summary1 :=
    { summary0 with
      potential := addToMap summary0.potential "population" BASE_POPULATION,
      realized := addToMap summary0.realized "population" BASE_POPULATION }
  let prodSum := alloc.producers.foldl
    (producerSummaryStep grid infraEdges getTerrains alloc.processors alloc.exporters
      alloc.efficiencyByKey)
    (summary1, ([] : RMap), grid)
  let dep := depotSurplus alloc.producers grid infraEdges getTerrains prep.distMap
    prep.portDistMap prep.elecDistMap prodSum.1 prodSum.2.1 prodSum.2.2
  let nConstr := (buildConstructionDemands prep.constructionSites).length
  let constrFold := tickBuildingSiteUpdates grid prep.constructionSites
    (alloc.constructionFinal.take nConstr) dep.2.2.2 dep.2.1
  let infraFold := tickInfraSiteUpdates infraConstructionSites
    (alloc.constructionFinal.drop nConstr) infraEdges constrFold.2
  { grid := constrFold.1, flowSummary := infraFold.2.2, exportRate := dep.2.2.1,
    infraEdges := infraFold.1, infraConstructionSites := infraFold.2.1,
    flowPairs := aggregateFlowPairs alloc.flowPairs }

/- ===================== C3: determinism ===================== -/

/-- C3: simulateTick is deterministic — two invocations on identical inputs
(grid, terrain lookup, infrastructure edges, construction sites) return
identical outputs.  The embedding is a pure function (the source uses no
randomness, clocks or other ambient state, and container iteration order is
fixed by insertion order), so equal inputs give equal outputs. -/
theorem simulateTick_deterministic (grid grid2 : Grid) (t t2 : GetTerrainsFn)
    (e e2 : EdgeMap) (s s2 : List InfraEdgeConstructionSite)
    (hg : grid = grid2) (ht : t = t2) (he : e = e2) (hs : s = s2) :
    simulateTick grid t e s = simulateTick grid2 t2 e2 s2 := by
  subst hg
  subst ht
  subst he
  subst hs
  rfl

/-- One-cell grid holding a lone wood camp. -/
def c5Grid : Grid := [("0,0", { q := 0, r := 0, buildingId := some "wood_camp" })]

/-- All-plains terrain lookup. -/
def c5Terrains : GetTerrainsFn := fun _ _ => [TerrainType.plains]

/-- Witness for simulateTick_deterministic at concrete inputs. -/
theorem simulateTick_deterministic_witness :
    simulateTick c5Grid c5Terrains [] [] = simulateTick c5Grid c5Terrains [] [] :=
  simulateTick_deterministic c5Grid c5Grid c5Terrains c5Terrains [] [] [] []
    rfl rfl rfl rfl

/- ===================== C4: construction conversion ===================== -/

theorem siteNewDelivered_mono (received : List (String × ℚ)) :
    ∀ (delivered : RMap) (k : String), (∀ q ∈ received, 0 ≤ q.2) →
      RMap.get delivered k ≤ RMap.get (siteNewDelivered delivered received) k := by
  induction received with
  | nil => intro d k _; exact le_refl _
  | cons q t ih =>
    intro d k hnn
    have hstep : RMap.get d k ≤ RMap.get (d.set q.1 (d.get q.1 + q.2)) k := by
      by_cases hk : k = q.1
      · subst hk
        rw [RMap.get_set_self]
        have := hnn q (List.mem_cons_self q t)
        linarith
      · rw [RMap.get_set_ne d q.1 k _ hk]
    have htail := ih (d.set q.1 (d.get q.1 + q.2)) k
      (fun x hx => hnn x (List.mem_cons_of_mem q hx))
    exact le_trans hstep htail

/-- C4: a construction site (building or infrastructure edge) converts
exactly when every resource's delivered total including this tick's
deliveries reaches totalCost − 0.01: (i) the completion test is that
universally quantified comparison; (ii) on completion a building site's cell
gets the target building and loses its constructionSite (so it cannot
reappear as under construction), and otherwise the site persists with the
accumulated delivered totals; (iii) a site already satisfied at tick start
converts on that tick for any nonnegative deliveries; (iv) the same holds
for infrastructure sites — completion upgrades the edge, otherwise the site
is carried over with its accumulated totals. -/
theorem constructionSite_conversion_iff :
    (∀ totalCost delivered received : RMap,
      (siteAllComplete totalCost (siteNewDelivered delivered received) = true ↔
        ∀ p ∈ totalCost, p.2 - 0.01 ≤ RMap.get (siteNewDelivered delivered received) p.1)) ∧
    (∀ (hex : HexData) (site : ConstructionSite) (received : RMap),
      (siteAllComplete site.totalCost (siteNewDelivered site.delivered received) = true →
        applySiteUpdate hex site received =
          { hex with
            buildingId := some site.targetBuildingId,
            constructionSite := none,
            flowState := none }) ∧
      (siteAllComplete site.totalCost (siteNewDelivered site.delivered received) = false →
        applySiteUpdate hex site received =
          { hex with
            constructionSite :=
              some { site with delivered := siteNewDelivered site.delivered received } })) ∧
    (∀ (site : ConstructionSite) (received : RMap),
      (∀ p ∈ site.totalCost, p.2 - 0.01 ≤ RMap.get site.delivered p.1) →
      (∀ q ∈ received, 0 ≤ q.2) →
      siteAllComplete site.totalCost (siteNewDelivered site.delivered received) = true) ∧
    (∀ (edges : EdgeMap) (pending : List InfraEdgeConstructionSite)
        (site : InfraEdgeConstructionSite) (received : RMap),
      (siteAllComplete site.totalCost (siteNewDelivered site.delivered received) = true →
        applyInfraSiteUpdate edges pending site received =
          (EdgeMap.set edges site.edgeKey
            (setEdgeType (EdgeMap.get edges site.edgeKey) site.targetType), pending)) ∧
      (siteAllComplete site.totalCost (siteNewDelivered site.delivered received) = false →
        applyInfraSiteUpdate edges pending site received =
          (edges, pending ++ [{ site with
            delivered := siteNewDelivered site.delivered received }]))) := by
  refine ⟨?_, ?_, ?_, ?_⟩
  · intro totalCost delivered received
    unfold siteAllComplete
    rw [List.all_eq_true]
    constructor
    · intro h p hp
      exact of_decide_eq_true (h p hp)
    · intro h p hp
      exact decide_eq_true (h p hp)
  · intro hex site received
    constructor
    · intro hc
      unfold applySiteUpdate
      rw [if_pos hc]
    · intro hc
      unfold applySiteUpdate
      rw [if_neg (by rw [hc]; exact Bool.false_ne_true)]
  · intro site received hsat hnn
    unfold siteAllComplete
    rw [List.all_eq_true]
    intro p hp
    apply decide_eq_true
    calc p.2 - 0.01 ≤ RMap.get site.delivered p.1 := hsat p hp
      _ ≤ RMap.get (siteNewDelivered site.delivered received) p.1 :=
          siteNewDelivered_mono received site.delivered p.1 hnn
  · intro edges pending site received
    constructor
    · intro hc
      unfold applyInfraSiteUpdate
      rw [if_pos hc]
    · intro hc
      unfold applyInfraSiteUpdate
      rw [if_neg (by rw [hc]; exact Bool.false_ne_true)]

/-- Hex used by the C4 witness. -/
def c4Hex : HexData := { q := 0, r := 0 }

/-- Already-satisfied construction site used by the C4 witness. -/
def c4Site : ConstructionSite :=
  { targetBuildingId := "farm", totalCost := [("wood", 5)],
    delivered := [("wood", 4.995)], isUpgrade := false }

/-- Witness for constructionSite_conversion_iff: an already-satisfied site
converts even with no further deliveries. -/
theorem constructionSite_conversion_iff_witness :
    (siteAllComplete c4Site.totalCost (siteNewDelivered c4Site.delivered []) = true ↔
      ∀ p ∈ c4Site.totalCost,
        p.2 - 0.01 ≤ RMap.get (siteNewDelivered c4Site.delivered []) p.1) ∧
    (applySiteUpdate c4Hex c4Site [] =
      { c4Hex with
        buildingId := some c4Site.targetBuildingId,
        constructionSite := none,
        flowState := none }) ∧
    siteAllComplete c4Site.totalCost (siteNewDelivered c4Site.delivered []) = true :=
  ⟨constructionSite_conversion_iff.1 c4Site.totalCost c4Site.delivered [],
   (constructionSite_conversion_iff.2.1 c4Hex c4Site []).1
     (constructionSite_conversion_iff.2.2.1 c4Site []
       (by
         intro p hp
         rw [show c4Site.totalCost = [(("wood" : String), (5 : ℚ))] from rfl,
           List.mem_singleton] at hp
         subst hp
         rw [show RMap.get c4Site.delivered "wood" = (4.995 : ℚ) from rfl]
         norm_num)
       (by intro q hq; simp at hq)),
   constructionSite_conversion_iff.2.2.1 c4Site []
     (by
       intro p hp
       rw [show c4Site.totalCost = [(("wood" : String), (5 : ℚ))] from rfl,
         List.mem_singleton] at hp
       subst hp
       rw [show RMap.get c4Site.delivered "wood" = (4.995 : ℚ) from rfl]
       norm_num)
     (by intro q hq; simp at hq)⟩

/- ===================== C5: efficiency of undemanded producers ===================== -/

/-- Every entry of AList.set is either the written pair or an entry of the
original list. -/
theorem AList.mem_set_cases {α : Type} (m : List (String × α)) (k : String)
    (v : α) : ∀ q ∈ AList.set m k v, q = (k, v) ∨ q ∈ m := by
  intro q hq
  unfold AList.set at hq
  by_cases h : m.any (fun p => p.1 == k) = true
  · rw [if_pos h, List.mem_map] at hq
    obtain ⟨p, hp, hpe⟩ := hq
    by_cases hk : (p.1 == k) = true
    · rw [if_pos hk] at hpe
      exact Or.inl hpe.symm
    · rw [if_neg hk] at hpe
      exact Or.inr (hpe ▸ hp)
  · rw [if_neg h, List.mem_append, List.mem_singleton] at hq
    rcases hq with h1 | h2
    · exact Or.inr h1
    · exact Or.inl h2

/-- Every efficiency entry written by recomputeEfficiencies is at least the
production floor, provided the incoming entries are. -/
theorem recomputeEfficiencies_entries_floor (producers : List ProducerState) :
    ∀ (processors : List ConsumerState) (eff0 : List (String × ℚ)),
      (∀ p ∈ eff0, MIN_PRODUCTION_FLOOR ≤ p.2) →
      ∀ p ∈ recomputeEfficiencies producers processors eff0,
        MIN_PRODUCTION_FLOOR ≤ p.2 := by
  induction producers with
  | nil => intro processors eff0 h0 p hp; exact h0 p hp
  | cons a t ih =>
    intro processors eff0 h0 p hp
    unfold recomputeEfficiencies at hp
    rw [List.foldl_cons] at hp
    by_cases hb : (a.key == "__base__") = true
    · rw [if_pos hb] at hp
      exact ih processors eff0 h0 p hp
    · rw [if_neg hb] at hp
      refine ih processors _ ?_ p hp
      intro q hq
      rcases AList.mem_set_cases eff0 a.key _ q hq with he | hm
      · rw [he]
        exact le_max_right _ _
      · exact h0 q hm

/-- recomputeEfficiencies never reads a producer's outputs (its potential
map): replacing every producer's potential map leaves the efficiency
assignment unchanged. -/
theorem recomputeEfficiencies_potential_irrel (f : ProducerState → RMap)
    (producers : List ProducerState) :
    ∀ (processors : List ConsumerState) (eff0 : List (String × ℚ)),
      recomputeEfficiencies (producers.map (fun p => { p with potential := f p }))
          processors eff0 =
        recomputeEfficiencies producers processors eff0 := by
  induction producers with
  | nil => intro _ _; rfl
  | cons a t ih =>
    intro processors eff0
    unfold recomputeEfficiencies
    rw [List.map_cons, List.foldl_cons, List.foldl_cons]
    exact ih processors _

set_option maxRecDepth 400000 in
/-- C5 is refuted: a producer whose outputs nobody demands does NOT get
efficiency 0.  In a grid holding a single wood_camp (outputs wood; the only
consumer demand anywhere is the camp's own population input, so wood is
demanded by nothing, and there is no export/depot/station building), the
tick assigns the camp flow-state efficiency 1, not 0. -/
theorem undemanded_producer_efficiency_counterexample :
    BUILDINGS "wood_camp" =
      some ⟨[("population", 0.1)], [("wood", 0.3)], some "lumber_mill"⟩ ∧
    (tickPrep c5Grid c5Terrains [] []).processors0.map (fun c => c.demand) =
      [[("population", 0.1)]] ∧
    (tickPrep c5Grid c5Terrains [] []).exporters0 = [] ∧
    HUB_BUILDING_IDS.contains "wood_camp" = false ∧
    ((Grid.get (simulateTick c5Grid c5Terrains [] []).grid "0,0").bind
        (fun h => h.flowState)).map (fun fs => fs.efficiency) = some 1 ∧
    (1 : ℚ) ≠ 0 := by
  refine ⟨rfl, ?_, rfl, rfl, ?_, by norm_num⟩
  · with_unfolding_all rfl
  · with_unfolding_all rfl

set_option maxRecDepth 400000 in
/-- C5 (amended): a producer whose outputs are demanded by nothing keeps a
positive efficiency.  The per-producer efficiency written by the
convergence loop (economy.ts:917-928) is max(min input satisfaction, 0.1):
every written entry is at least MIN_PRODUCTION_FLOOR = 0.1 (hence nonzero),
and the assignment never reads the producer's output (potential) map at
all, so it is independent of downstream demand for every building, not
just export/depot/station hubs. -/
theorem producer_efficiency_floored_demand_independent
    (producers : List ProducerState) (processors : List ConsumerState)
    (eff0 : List (String × ℚ)) (f : ProducerState → RMap)
    (h0 : ∀ p ∈ eff0, MIN_PRODUCTION_FLOOR ≤ p.2) :
    (∀ p ∈ recomputeEfficiencies producers processors eff0,
        MIN_PRODUCTION_FLOOR ≤ p.2 ∧ p.2 ≠ 0) ∧
    recomputeEfficiencies (producers.map (fun p => { p with potential := f p }))
        processors eff0 = recomputeEfficiencies producers processors eff0 ∧
    MIN_PRODUCTION_FLOOR = 0.1 := by
  refine ⟨?_, recomputeEfficiencies_potential_irrel f producers processors eff0, rfl⟩
  intro p hp
  have h := recomputeEfficiencies_entries_floor producers processors eff0 h0 p hp
  refine ⟨h, ?_⟩
  intro hz
  rw [hz] at h
  have hpos : (0 : ℚ) < MIN_PRODUCTION_FLOOR := by
    rw [show MIN_PRODUCTION_FLOOR = (0.1 : ℚ) from rfl]
    norm_num
  linarith

/-- Concrete producer for the C5 witness. -/
def c5Producer : ProducerState :=
  { hex := { q := 0, r := 0 }, key := "0,0", buildingId := "wood_camp",
    potential := [("wood", 0.3)], realized := [], remaining := [],
    clusterBonus := 0, clusterSize := 1, zoneOutputBonus := 0,
    zoneInputReduction := 0, superclusterSize := 0 }

/-- Witness for producer_efficiency_floored_demand_independent at a
concrete wood_camp producer with no consumers. -/
theorem producer_efficiency_floored_demand_independent_witness :
    (∀ p ∈ recomputeEfficiencies [c5Producer] [] [],
        MIN_PRODUCTION_FLOOR ≤ p.2 ∧ p.2 ≠ 0) ∧
    recomputeEfficiencies ([c5Producer].map (fun p => { p with potential := [] }))
        [] [] = recomputeEfficiencies [c5Producer] [] [] ∧
    MIN_PRODUCTION_FLOOR = 0.1 :=
  producer_efficiency_floored_demand_independent [c5Producer] [] []
    (fun _ => []) (by intro p hp; simp at hp)

/- ===================== C9: hub zone hop cost ===================== -/

/-- Radius-2 disc around a trade_depot at the origin. -/
def c9Grid : Grid :=
  (getHexesInRadius 0 0 2).map (fun (h : Int × Int) =>
    (hexKey h.1 h.2,
     { q := h.1, r := h.2,
       buildingId := if h.1 = 0 ∧ h.2 = 0 then some "trade_depot" else none }))

/-- Hub zones of the C9 grid. -/
def c9Zones : List HubZone := computeHubZones (collectOperating c9Grid).1 c9Grid

/-- Distances from the depot in the C9 grid. -/
def c9Dist : DistanceMap :=
  precomputeDistances ["0,0"] c9Grid [] 10 (some []) noOverrides (some c9Zones)
    InfraCategory.transport

/-- Distances from the cell two steps from the depot in the C9 grid. -/
def c9DistBack : DistanceMap :=
  precomputeDistances ["2,0"] c9Grid [] 10 (some []) noOverrides (some c9Zones)
    InfraCategory.transport

set_option maxRecDepth 400000 in
/-- C9 is refuted in its scenario half: for a consumer 2 hex steps from a
radius-2 depot with the whole route inside the depot's zone, the computed
depot-to-consumer path cost is a SINGLE hub hop 0.05, not the claimed
2 x 0.05 = 0.1: the depot's zone covers all 19 cells of the radius-2 disc
(including "1,0" and "2,0"), and the Dijkstra lookup gives 1/20. -/
theorem hubZone_two_hop_cost_counterexample :
    c9Zones.map (fun z => (z.hubKey, z.hexKeys.length)) = [("0,0", 19)] ∧
    c9Zones.map (fun z =>
      (z.hexKeys.contains "1,0", z.hexKeys.contains "2,0")) = [(true, true)] ∧
    ((DistanceMap.getMap c9Dist "0,0").bind (fun m => RMap.getOpt m "2,0")) =
      some (1 / 20 : ℚ) ∧
    (1 / 20 : ℚ) ≠ 2 * (5 / 100 : ℚ) := by
  refine ⟨?_, ?_, ?_, by norm_num⟩
  · with_unfolding_all rfl
  · with_unfolding_all rfl
  · with_unfolding_all rfl

set_option maxRecDepth 400000 in
/-- C9 (amended): movement between a hub and ANY cell of its hub zone costs
one fixed hop HUB_HOP_COST = 0.05 in either direction, regardless of the
grid distance: in the C9 grid the depot-to-"2,0" cost, the reverse
"2,0"-to-depot cost, and the depot-to-"1,0" cost all equal HUB_HOP_COST. -/
theorem hubZone_single_hop_cost :
    HUB_HOP_COST = 0.05 ∧
    ((DistanceMap.getMap c9Dist "0,0").bind (fun m => RMap.getOpt m "2,0")) =
      some HUB_HOP_COST ∧
    ((DistanceMap.getMap c9DistBack "2,0").bind (fun m => RMap.getOpt m "0,0")) =
      some HUB_HOP_COST ∧
    ((DistanceMap.getMap c9Dist "0,0").bind (fun m => RMap.getOpt m "1,0")) =
      some HUB_HOP_COST := by
  refine ⟨rfl, ?_, ?_, ?_⟩
  · with_unfolding_all rfl
  · with_unfolding_all rfl
  · with_unfolding_all rfl

/- ===================== C6: export path machinery ===================== -/

/-- Defaulted read of a bestSeen map (JS `bestSeen.get(k) ?? 0`); coincides
with the RMap read. -/
def bestD (m : List (String × ℚ)) (k : String) : ℚ :=
  RMap.get m k

theorem bestD_alist (m : List (String × ℚ)) (k : String) :
    (AList.get m k).getD 0 = bestD m k := rfl

theorem bestD_set_self (m : List (String × ℚ)) (k : String) (v : ℚ) :
    bestD (AList.set m k v) k = v :=
  RMap.get_set_self m k v

theorem bestD_set_ne (m : List (String × ℚ)) (k k2 : String) (v : ℚ)
    (hne : k2 ≠ k) : bestD (AList.set m k v) k2 = bestD m k2 :=
  RMap.get_set_ne m k k2 v hne

/-- One traversable expansion step of the export BFS (economy.ts:414-421 and
432-440): from the cell stored at key k through neighbor coordinate n with
step efficiency e; the target key must be present in the grid. -/
def exportAdj (grid : Grid) (infraEdges : EdgeMap) (t : GetTerrainsFn)
    (k : String) (n : Int × Int) (e : ℚ) : Prop :=
  ∃ h, Grid.get grid k = some h ∧ n ∈ getNeighbors h.q h.r ∧
    (Grid.get grid (hexKey n.1 n.2)).isSome = true ∧
    getStepEfficiency infraEdges t h.q h.r n.1 n.2 = some e

/-- Whether the cell stored at a key is at the map edge. -/
def isEdgeKey (grid : Grid) (t : GetTerrainsFn) (k : String) : Bool :=
  match Grid.get grid k with
  | none => false
  | some h => isAtMapEdge grid t h.q h.r

/-- A single recorded step of an export path. -/
structure ExpStep where
  fromKey : String
  n : Int × Int
  eff : ℚ

/-- Key of the cell a step moves into. -/
def ExpStep.toKey (s : ExpStep) : String := hexKey s.n.1 s.n.2

/-- Chain well-formedness: consecutive traversable steps starting at k0. -/
def chainOk (grid : Grid) (infraEdges : EdgeMap) (t : GetTerrainsFn) :
    String → List ExpStep → Prop
  | _, [] => True
  | k0, s :: rest =>
    s.fromKey = k0 ∧ exportAdj grid infraEdges t s.fromKey s.n s.eff ∧
      chainOk grid infraEdges t s.toKey rest

/-- Final cell of a chain starting at k0. -/
def chainEnd : String → List ExpStep → String
  | k0, [] => k0
  | _, s :: rest => chainEnd s.toKey rest

/-- Path value: the minimum step efficiency (capped at 1, which is inert
because every step efficiency is at most 1). -/
def chainVal (c : List ExpStep) : ℚ :=
  c.foldr (fun s a => min s.eff a) 1

/-- All cells strictly inside a chain (the targets of every step but the
last) are away from the map edge. -/
def chainInteriorNE (grid : Grid) (t : GetTerrainsFn) : List ExpStep → Prop
  | [] => True
  | [_] => True
  | s :: rest => isEdgeKey grid t s.toKey = false ∧ chainInteriorNE grid t rest

/-- The finite value set of export efficiencies (0 can only occur through an
edge record carrying a power type in its transport slot, which the source
type system rules out; it is kept for faithfulness and is harmless because a
0 never wins a strict-improvement comparison). -/
def isEffVal (v : ℚ) : Prop := v = 0 ∨ v = 0.5 ∨ v = 0.7 ∨ v = 1

/-- Improvement rank of a bestSeen value: how many strict upgrades remain. -/
def effRank (v : ℚ) : Nat :=
  if v < 0.5 then 3 else if v < 0.7 then 2 else if v < 1 then 1 else 0

theorem isEffVal_nonneg {v : ℚ} (h : isEffVal v) : 0 ≤ v := by
  rcases h with h | h | h | h <;> rw [h] <;> norm_num

theorem isEffVal_le_one {v : ℚ} (h : isEffVal v) : v ≤ 1 := by
  rcases h with h | h | h | h <;> rw [h] <;> norm_num

theorem isEffVal_min {a b : ℚ} (ha : isEffVal a) (hb : isEffVal b) :
    isEffVal (min a b) := by
  rcases ha with h | h | h | h <;> rcases hb with g | g | g | g <;>
    rw [h, g] <;> unfold isEffVal <;> rw [min_def] <;> norm_num

theorem effRank_zero_eval : effRank 0 = 3 := by
  unfold effRank
  rw [if_pos (by norm_num)]

theorem effRank_half_eval : effRank 0.5 = 2 := by
  unfold effRank
  rw [if_neg (by norm_num), if_pos (by norm_num)]

theorem effRank_seven_eval : effRank 0.7 = 1 := by
  unfold effRank
  rw [if_neg (by norm_num), if_neg (by norm_num), if_pos (by norm_num)]

theorem effRank_one_eval : effRank 1 = 0 := by
  unfold effRank
  rw [if_neg (by norm_num), if_neg (by norm_num), if_neg (by norm_num)]

theorem effRank_lt_of_lt {a b : ℚ} (ha : isEffVal a) (hb : isEffVal b)
    (hab : a < b) : effRank b < effRank a := by
  rcases ha with h | h | h | h <;> rcases hb with g | g | g | g <;>
    subst h <;> subst g <;>
    simp only [effRank_zero_eval, effRank_half_eval, effRank_seven_eval,
      effRank_one_eval] <;>
    first
    | omega
    | norm_num at hab

theorem effRank_le_three (v : ℚ) : effRank v ≤ 3 := by
  unfold effRank
  split_ifs <;> omega

theorem INFRA_EXPORT_EFFICIENCY_val (ty : InfraType) :
    isEffVal (INFRA_EXPORT_EFFICIENCY ty) := by
  cases ty <;> unfold INFRA_EXPORT_EFFICIENCY isEffVal <;> norm_num

theorem INFRA_EXPORT_EFFICIENCY_le_one (ty : InfraType) :
    INFRA_EXPORT_EFFICIENCY ty ≤ 1 := by
  cases ty <;> unfold INFRA_EXPORT_EFFICIENCY <;> norm_num

/-- The untaken-water branch value of getStepEfficiency. -/
def stepBase (infraEdges : EdgeMap) (fromQ fromR toQ toR : Int) : Option ℚ :=
  match EdgeMap.get infraEdges (getEdgeKey fromQ fromR toQ toR) with
  | some e =>
    match e.transport with
    | some ty => some (INFRA_EXPORT_EFFICIENCY ty)
    | none => none
  | none => none

theorem getStepEfficiency_eq (infraEdges : EdgeMap) (t : GetTerrainsFn)
    (fromQ fromR toQ toR : Int) :
    getStepEfficiency infraEdges t fromQ fromR toQ toR =
      (if (t toQ toR).contains TerrainType.water then
        some (max ((stepBase infraEdges fromQ fromR toQ toR).getD 0) 1)
       else stepBase infraEdges fromQ fromR toQ toR) := by
  unfold getStepEfficiency stepBase
  rfl

theorem stepBase_val (infraEdges : EdgeMap) (fromQ fromR toQ toR : Int) (e : ℚ)
    (h : stepBase infraEdges fromQ fromR toQ toR = some e) : isEffVal e := by
  unfold stepBase at h
  split at h
  · split at h
    · injection h with h2
      rw [← h2]
      exact INFRA_EXPORT_EFFICIENCY_val _
    · exact absurd h (by simp)
  · exact absurd h (by simp)

theorem stepBase_getD_le_one (infraEdges : EdgeMap) (fromQ fromR toQ toR : Int) :
    (stepBase infraEdges fromQ fromR toQ toR).getD 0 ≤ 1 := by
  cases hE : stepBase infraEdges fromQ fromR toQ toR with
  | none => norm_num
  | some e =>
    have := isEffVal_le_one (stepBase_val infraEdges fromQ fromR toQ toR e hE)
    simpa using this

theorem getStepEfficiency_val (infraEdges : EdgeMap) (t : GetTerrainsFn)
    (fromQ fromR toQ toR : Int) (e : ℚ)
    (h : getStepEfficiency infraEdges t fromQ fromR toQ toR = some e) :
    isEffVal e := by
  rw [getStepEfficiency_eq] at h
  by_cases hw : (t toQ toR).contains TerrainType.water = true
  · rw [if_pos hw] at h
    have h1 : e = max ((stepBase infraEdges fromQ fromR toQ toR).getD 0) 1 := by
      injection h with h2
      exact h2.symm
    rw [h1, max_eq_right (stepBase_getD_le_one infraEdges fromQ fromR toQ toR)]
    unfold isEffVal
    norm_num
  · rw [if_neg hw] at h
    exact stepBase_val infraEdges fromQ fromR toQ toR e h

theorem exportAdj_val {grid : Grid} {infraEdges : EdgeMap} {t : GetTerrainsFn}
    {k : String} {n : Int × Int} {e : ℚ}
    (h : exportAdj grid infraEdges t k n e) : isEffVal e := by
  obtain ⟨hx, _, _, _, hs⟩ := h
  exact getStepEfficiency_val infraEdges t hx.q hx.r n.1 n.2 e hs
/- ===================== C6: chain lemmas ===================== -/

theorem chainVal_cons (s : ExpStep) (c : List ExpStep) :
    chainVal (s :: c) = min s.eff (chainVal c) := rfl

theorem chainVal_nil : chainVal [] = 1 := rfl

theorem chainVal_le_one : ∀ c : List ExpStep, chainVal c ≤ 1 := by
  intro c
  induction c with
  | nil => exact le_refl 1
  | cons s t ih =>
    rw [chainVal_cons]
    exact le_trans (min_le_right _ _) ih

theorem chainVal_append (c1 c2 : List ExpStep) :
    chainVal (c1 ++ c2) = min (chainVal c1) (chainVal c2) := by
  induction c1 with
  | nil =>
    rw [List.nil_append, chainVal_nil]
    exact (min_eq_right (chainVal_le_one c2)).symm
  | cons s t ih =>
    rw [List.cons_append, chainVal_cons, chainVal_cons, ih, min_assoc]

theorem chainEnd_cons (k0 : String) (s : ExpStep) (c : List ExpStep) :
    chainEnd k0 (s :: c) = chainEnd s.toKey c := rfl

theorem chainEnd_append (c1 c2 : List ExpStep) : ∀ k0 : String,
    chainEnd k0 (c1 ++ c2) = chainEnd (chainEnd k0 c1) c2 := by
  induction c1 with
  | nil => intro k0; rfl
  | cons s t ih => intro k0; rw [List.cons_append, chainEnd_cons, ih]; rfl

theorem chainOk_cons (grid : Grid) (infraEdges : EdgeMap) (t : GetTerrainsFn)
    (k0 : String) (s : ExpStep) (c : List ExpStep) :
    chainOk grid infraEdges t k0 (s :: c) ↔
      s.fromKey = k0 ∧ exportAdj grid infraEdges t s.fromKey s.n s.eff ∧
        chainOk grid infraEdges t s.toKey c := Iff.rfl

theorem chainOk_append_one (grid : Grid) (infraEdges : EdgeMap)
    (t : GetTerrainsFn) (s : ExpStep) :
    ∀ (c : List ExpStep) (k0 : String), chainOk grid infraEdges t k0 c →
    s.fromKey = chainEnd k0 c →
    exportAdj grid infraEdges t s.fromKey s.n s.eff →
    chainOk grid infraEdges t k0 (c ++ [s]) := by
  intro c
  induction c with
  | nil =>
    intro k0 _ hfrom hadj
    exact ⟨hfrom, hadj, trivial⟩
  | cons a u ih =>
    intro k0 hok hfrom hadj
    obtain ⟨ha, hadja, hrest⟩ := hok
    exact ⟨ha, hadja, ih a.toKey hrest hfrom hadj⟩

/-- A chain is realizable to key k with value v. -/
def realizedAt (grid : Grid) (infraEdges : EdgeMap) (t : GetTerrainsFn)
    (start k : String) (v : ℚ) : Prop :=
  ∃ c, c ≠ [] ∧ chainOk grid infraEdges t start c ∧ chainEnd start c = k ∧
    chainVal c = v

theorem realizedAt_single (grid : Grid) (infraEdges : EdgeMap)
    (t : GetTerrainsFn) (start : String) (n : Int × Int) (e : ℚ)
    (hadj : exportAdj grid infraEdges t start n e) :
    realizedAt grid infraEdges t start (hexKey n.1 n.2) e := by
  refine ⟨[⟨start, n, e⟩], by simp, ⟨rfl, hadj, trivial⟩, rfl, ?_⟩
  show min e 1 = e
  exact min_eq_left (isEffVal_le_one (exportAdj_val hadj))

theorem realizedAt_snoc (grid : Grid) (infraEdges : EdgeMap)
    (t : GetTerrainsFn) (start k : String) (w : ℚ) (n : Int × Int) (e : ℚ)
    (h : realizedAt grid infraEdges t start k w)
    (hadj : exportAdj grid infraEdges t k n e) :
    realizedAt grid infraEdges t start (hexKey n.1 n.2) (min w e) := by
  obtain ⟨c, hne, hok, hend, hval⟩ := h
  refine ⟨c ++ [⟨k, n, e⟩], by simp, ?_, ?_, ?_⟩
  · exact chainOk_append_one grid infraEdges t ⟨k, n, e⟩ c start hok hend.symm hadj
  · rw [chainEnd_append]
    rfl
  · rw [chainVal_append, hval]
    show min w (min e 1) = min w e
    rw [min_eq_left (isEffVal_le_one (exportAdj_val hadj))]

theorem chainEnd_isSome (grid : Grid) (infraEdges : EdgeMap)
    (t : GetTerrainsFn) : ∀ (c : List ExpStep) (k0 : String), c ≠ [] →
    chainOk grid infraEdges t k0 c →
    (Grid.get grid (chainEnd k0 c)).isSome = true := by
  intro c
  induction c with
  | nil => intro k0 h; exact absurd rfl h
  | cons s u ih =>
    intro k0 _ hok
    obtain ⟨_, hadj, hrest⟩ := hok
    cases u with
    | nil =>
      obtain ⟨hx, _, _, hsome, _⟩ := hadj
      exact hsome
    | cons b u2 =>
      rw [chainEnd_cons]
      exact ih s.toKey (by simp) hrest

theorem realizedAt_isSome (grid : Grid) (infraEdges : EdgeMap)
    (t : GetTerrainsFn) (start k : String) (v : ℚ)
    (h : realizedAt grid infraEdges t start k v) :
    (Grid.get grid k).isSome = true := by
  obtain ⟨c, hne, hok, hend, _⟩ := h
  rw [← hend]
  exact chainEnd_isSome grid infraEdges t c start hne hok

/- ===================== C6: sum and fold helpers ===================== -/

theorem sum_map_le_pointwise {α : Type} (f g : α → Nat) :
    ∀ L : List α, (∀ a ∈ L, g a ≤ f a) → (L.map g).sum ≤ (L.map f).sum := by
  intro L
  induction L with
  | nil => intro _; exact le_refl 0
  | cons b u ih =>
    intro h
    rw [List.map_cons, List.map_cons, List.sum_cons, List.sum_cons]
    have h1 := h b (List.mem_cons_self b u)
    have h2 := ih (fun a ha => h a (List.mem_cons_of_mem b ha))
    omega

theorem sum_map_succ_le_of_mem {α : Type} (f g : α → Nat) (a0 : α) :
    ∀ L : List α, a0 ∈ L → (∀ a ∈ L, g a ≤ f a) → g a0 + 1 ≤ f a0 →
    (L.map g).sum + 1 ≤ (L.map f).sum := by
  intro L
  induction L with
  | nil => intro h; exact absurd h (List.not_mem_nil a0)
  | cons b u ih =>
    intro hmem h hs
    rw [List.map_cons, List.map_cons, List.sum_cons, List.sum_cons]
    rcases List.mem_cons.mp hmem with he | hu
    · have h2 := sum_map_le_pointwise f g u
        (fun a ha => h a (List.mem_cons_of_mem b ha))
      have h3 : g b + 1 ≤ f b := he ▸ hs
      omega
    · have h1 := h b (List.mem_cons_self b u)
      have h2 := ih hu (fun a ha => h a (List.mem_cons_of_mem b ha)) hs
      omega

theorem foldl_preserve_mem {σ α : Type} (f : σ → α → σ) (P : σ → Prop) :
    ∀ (l : List α) (s : σ), (∀ s2 a, a ∈ l → P s2 → P (f s2 a)) → P s →
    P (l.foldl f s) := by
  intro l
  induction l with
  | nil => intro s _ hP; exact hP
  | cons b u ih =>
    intro s hstep hP
    rw [List.foldl_cons]
    exact ih (f s b) (fun s2 a ha => hstep s2 a (List.mem_cons_of_mem b ha))
      (hstep s b (List.mem_cons_self b u) hP)

theorem foldl_establish {σ α : Type} (f : σ → α → σ) (R : α → σ → Prop)
    (hpre : ∀ s a b, R a s → R a (f s b)) (hest : ∀ s a, R a (f s a)) :
    ∀ (l : List α) (s : σ) (a : α), a ∈ l → R a (l.foldl f s) := by
  intro l
  induction l with
  | nil => intro s a h; exact absurd h (List.not_mem_nil a)
  | cons b u ih =>
    intro s a ha
    rw [List.foldl_cons]
    rcases List.mem_cons.mp ha with he | hu
    · subst he
      exact foldl_preserve_mem f (R a) u (f s a)
        (fun s2 c _ => hpre s2 a c) (hest s a)
    · exact ih (f s b) a hu

/- ===================== C6: grid key lemmas ===================== -/

/-- The distinct keys of the grid record. -/
def gridKeyList (grid : Grid) : List String := (grid.map Prod.fst).dedup

theorem Grid.get_mem_keys (g : Grid) (k : String)
    (h : (Grid.get g k).isSome = true) : k ∈ gridKeyList g := by
  unfold Grid.get at h
  cases hf : g.find? (fun p => p.1 == k) with
  | none => rw [hf] at h; exact absurd h (by simp)
  | some p =>
    have hmem := List.mem_of_find?_eq_some hf
    have hp1 : p.1 = k := by
      have hpk := List.find?_some hf
      simpa using hpk
    unfold gridKeyList
    rw [List.mem_dedup, ← hp1]
    exact List.mem_map_of_mem Prod.fst hmem

theorem gridKeyList_length_le (g : Grid) : (gridKeyList g).length ≤ g.length := by
  unfold gridKeyList
  calc (g.map Prod.fst).dedup.length ≤ (g.map Prod.fst).length :=
        (g.map Prod.fst).dedup_sublist.length_le
    _ = g.length := List.length_map g Prod.fst

/- ===================== C6: bestD value lemmas ===================== -/

theorem bestD_val (m : List (String × ℚ)) (k : String)
    (h : ∀ p ∈ m, isEffVal p.2) : isEffVal (bestD m k) := by
  unfold bestD RMap.get
  cases hf : m.find? (fun p => p.1 == k) with
  | none => exact Or.inl rfl
  | some p =>
    have := h p (List.mem_of_find?_eq_some hf)
    simpa using this

theorem bestD_nonneg (m : List (String × ℚ)) (k : String)
    (h : ∀ p ∈ m, isEffVal p.2) : 0 ≤ bestD m k :=
  isEffVal_nonneg (bestD_val m k h)
/- ===================== C6: the relaxation fold ===================== -/

/-- The body of the neighbor-relaxation fold inside exportLoop
(economy.ts:432-441), lifted out for reasoning; definitionally equal to the
inline lambda. -/
def relaxFold (grid : Grid) (infraEdges : EdgeMap) (t : GetTerrainsFn)
    (curHex : HexData) (minEff : ℚ)
    (s : List (String × ℚ) × List (String × ℚ)) (n : Int × Int) :
    List (String × ℚ) × List (String × ℚ) :=
  let nk := hexKey n.1 n.2
  match Grid.get grid nk with
  | none => s
  | some _ =>
    match getStepEfficiency infraEdges t curHex.q curHex.r n.1 n.2 with
    | none => s
    | some stepEff =>
      let pathEff := min minEff stepEff
      let prev := (AList.get s.1 nk).getD 0
      if prev < pathEff then (AList.set s.1 nk pathEff, s.2 ++ [(nk, pathEff)])
      else s

/-- Total remaining improvement rank over the grid's distinct keys. -/
def rankSum (grid : Grid) (m : List (String × ℚ)) : Nat :=
  ((gridKeyList grid).map (fun k => effRank (bestD m k))).sum

/-- Termination measure of the export BFS. -/
def expPhi (grid : Grid) (st : ExportState) : Nat :=
  st.queue.length + rankSum grid st.bestSeen

/-- Case split on one relaxation-fold step: it either leaves the state alone
or performs a strict-improvement push. -/
theorem relaxFold_cases (grid : Grid) (infraEdges : EdgeMap)
    (t : GetTerrainsFn) (curHex : HexData) (minEff : ℚ)
    (s : List (String × ℚ) × List (String × ℚ)) (n : Int × Int) :
    relaxFold grid infraEdges t curHex minEff s n = s ∨
    ∃ stepEff, (Grid.get grid (hexKey n.1 n.2)).isSome = true ∧
      getStepEfficiency infraEdges t curHex.q curHex.r n.1 n.2 = some stepEff ∧
      bestD s.1 (hexKey n.1 n.2) < min minEff stepEff ∧
      relaxFold grid infraEdges t curHex minEff s n =
        (AList.set s.1 (hexKey n.1 n.2) (min minEff stepEff),
         s.2 ++ [(hexKey n.1 n.2, min minEff stepEff)]) := by
  unfold relaxFold
  dsimp only
  cases hg : Grid.get grid (hexKey n.1 n.2) with
  | none => exact Or.inl rfl
  | some hx =>
    cases hs : getStepEfficiency infraEdges t curHex.q curHex.r n.1 n.2 with
    | none => exact Or.inl rfl
    | some stepEff =>
      dsimp only
      by_cases hlt :
          (AList.get s.1 (hexKey n.1 n.2)).getD 0 < min minEff stepEff
      · rw [if_pos hlt]
        refine Or.inr ⟨stepEff, by simp, rfl, ?_, rfl⟩
        rw [← bestD_alist]
        exact hlt
      · rw [if_neg hlt]
        exact Or.inl rfl
/- ===================== C6: fold step lemmas ===================== -/

theorem relaxFold_bestD_mono (grid : Grid) (infraEdges : EdgeMap)
    (t : GetTerrainsFn) (curHex : HexData) (minEff : ℚ)
    (s : List (String × ℚ) × List (String × ℚ)) (n : Int × Int) (k : String) :
    bestD s.1 k ≤ bestD (relaxFold grid infraEdges t curHex minEff s n).1 k := by
  rcases relaxFold_cases grid infraEdges t curHex minEff s n with h | ⟨se, _, _, hlt, heq⟩
  · rw [h]
  · rw [heq]
    by_cases hk : k = hexKey n.1 n.2
    · subst hk
      rw [bestD_set_self]
      exact le_of_lt hlt
    · rw [bestD_set_ne s.1 (hexKey n.1 n.2) k _ hk]

theorem relaxFold_queue_extend (grid : Grid) (infraEdges : EdgeMap)
    (t : GetTerrainsFn) (curHex : HexData) (minEff : ℚ)
    (s : List (String × ℚ) × List (String × ℚ)) (n : Int × Int)
    (p : String × ℚ) (hp : p ∈ s.2) :
    p ∈ (relaxFold grid infraEdges t curHex minEff s n).2 := by
  rcases relaxFold_cases grid infraEdges t curHex minEff s n with h | ⟨se, _, _, _, heq⟩
  · rw [h]
    exact hp
  · rw [heq]
    exact List.mem_append_left _ hp

/-- Bundled invariant carried through the relaxation fold: soundness and
value-set membership of the map and queue, the pending-entry property for
every changed cell, and the measure bound. -/
def foldInv (grid : Grid) (infraEdges : EdgeMap) (t : GetTerrainsFn)
    (start : String) (pre : List (String × ℚ)) (bound : Nat)
    (s : List (String × ℚ) × List (String × ℚ)) : Prop :=
  (∀ p ∈ s.1, realizedAt grid infraEdges t start p.1 p.2 ∧ isEffVal p.2) ∧
  (∀ p ∈ s.2, realizedAt grid infraEdges t start p.1 p.2 ∧ isEffVal p.2) ∧
  (∀ k, bestD s.1 k = bestD pre k ∨
    ∃ v, bestD s.1 k ≤ v ∧ (k, v) ∈ s.2) ∧
  (s.2.length + rankSum grid s.1 ≤ bound)

theorem relaxFold_inv_step (grid : Grid) (infraEdges : EdgeMap)
    (t : GetTerrainsFn) (start : String) (pre : List (String × ℚ)) (bound : Nat)
    (curKey : String) (curHex : HexData) (minEff : ℚ)
    (hcur : Grid.get grid curKey = some curHex)
    (hreal : realizedAt grid infraEdges t start curKey minEff)
    (hval : isEffVal minEff)
    (s : List (String × ℚ) × List (String × ℚ)) (n : Int × Int)
    (hn : n ∈ getNeighbors curHex.q curHex.r)
    (hinv : foldInv grid infraEdges t start pre bound s) :
    foldInv grid infraEdges t start pre bound
      (relaxFold grid infraEdges t curHex minEff s n) := by
  obtain ⟨f1, f2, f6, f7⟩ := hinv
  rcases relaxFold_cases grid infraEdges t curHex minEff s n with
    h | ⟨se, hsome, hstep, hlt, heq⟩
  · rw [h]
    exact ⟨f1, f2, f6, f7⟩
  · have hadj : exportAdj grid infraEdges t curKey n se :=
      ⟨curHex, hcur, hn, hsome, hstep⟩
    have hpreal : realizedAt grid infraEdges t start (hexKey n.1 n.2)
        (min minEff se) :=
      realizedAt_snoc grid infraEdges t start curKey minEff n se hreal hadj
    have hpval : isEffVal (min minEff se) :=
      isEffVal_min hval (getStepEfficiency_val infraEdges t curHex.q curHex.r
        n.1 n.2 se hstep)
    rw [heq]
    refine ⟨?_, ?_, ?_, ?_⟩
    · intro p hp
      rcases AList.mem_set_cases s.1 (hexKey n.1 n.2) (min minEff se) p hp with
        he | hm
      · rw [he]
        exact ⟨hpreal, hpval⟩
      · exact f1 p hm
    · intro p hp
      rcases List.mem_append.mp hp with hm | hm
      · exact f2 p hm
      · rw [List.mem_singleton.mp hm]
        exact ⟨hpreal, hpval⟩
    · intro k
      by_cases hk : k = hexKey n.1 n.2
      · subst hk
        refine Or.inr ⟨min minEff se, ?_, ?_⟩
        · rw [bestD_set_self]
        · exact List.mem_append_right _ (List.mem_singleton.mpr rfl)
      · rw [bestD_set_ne s.1 (hexKey n.1 n.2) k _ hk]
        rcases f6 k with he | ⟨v, hv, hvm⟩
        · exact Or.inl he
        · exact Or.inr ⟨v, hv, List.mem_append_left _ hvm⟩
    · dsimp only
      have hprevval : isEffVal (bestD s.1 (hexKey n.1 n.2)) :=
        bestD_val s.1 (hexKey n.1 n.2) (fun p hp => (f1 p hp).2)
      have hrank : effRank (min minEff se) + 1 ≤
          effRank (bestD s.1 (hexKey n.1 n.2)) :=
        effRank_lt_of_lt hprevval hpval hlt
      have hmem : hexKey n.1 n.2 ∈ gridKeyList grid :=
        Grid.get_mem_keys grid (hexKey n.1 n.2) hsome
      have hsum : rankSum grid (AList.set s.1 (hexKey n.1 n.2)
          (min minEff se)) + 1 ≤ rankSum grid s.1 := by
        unfold rankSum
        refine sum_map_succ_le_of_mem
          (fun k => effRank (bestD s.1 k))
          (fun k => effRank (bestD (AList.set s.1 (hexKey n.1 n.2)
            (min minEff se)) k))
          (hexKey n.1 n.2) (gridKeyList grid) hmem ?_ ?_
        · intro a _
          dsimp only
          by_cases hk : a = hexKey n.1 n.2
          · subst hk
            rw [bestD_set_self]
            omega
          · rw [bestD_set_ne s.1 (hexKey n.1 n.2) a _ hk]
        · dsimp only
          rw [bestD_set_self]
          exact hrank
      have hlen : ((s.2 ++ [(hexKey n.1 n.2, min minEff se)]).length)
          = s.2.length + 1 := by
        rw [List.length_append]
        rfl
      rw [hlen]
      omega

theorem relaxFold_establish_step (grid : Grid) (infraEdges : EdgeMap)
    (t : GetTerrainsFn) (curKey : String) (curHex : HexData) (minEff : ℚ)
    (hcur : Grid.get grid curKey = some curHex)
    (s : List (String × ℚ) × List (String × ℚ)) (n : Int × Int) (e : ℚ)
    (hadj : exportAdj grid infraEdges t curKey n e) :
    min minEff e ≤
      bestD (relaxFold grid infraEdges t curHex minEff s n).1 (hexKey n.1 n.2) := by
  obtain ⟨hx, hget, hn, hsome, hstep⟩ := hadj
  rw [hcur] at hget
  injection hget with hh
  subst hh
  obtain ⟨hd, hgx⟩ := Option.isSome_iff_exists.mp hsome
  unfold relaxFold
  dsimp only
  rw [hgx]
  dsimp only
  rw [hstep]
  dsimp only
  by_cases hlt : (AList.get s.1 (hexKey n.1 n.2)).getD 0 < min minEff e
  · rw [if_pos hlt]
    rw [bestD_set_self]
  · rw [if_neg hlt]
    rw [← bestD_alist]
    rw [not_lt] at hlt
    exact hlt
/- ===================== C6: whole-fold lemmas ===================== -/

theorem relaxFold_fold_inv (grid : Grid) (infraEdges : EdgeMap)
    (t : GetTerrainsFn) (start : String) (pre : List (String × ℚ)) (bound : Nat)
    (curKey : String) (curHex : HexData) (minEff : ℚ)
    (hcur : Grid.get grid curKey = some curHex)
    (hreal : realizedAt grid infraEdges t start curKey minEff)
    (hval : isEffVal minEff)
    (s0 : List (String × ℚ) × List (String × ℚ))
    (hinv : foldInv grid infraEdges t start pre bound s0) :
    foldInv grid infraEdges t start pre bound
      ((getNeighbors curHex.q curHex.r).foldl
        (relaxFold grid infraEdges t curHex minEff) s0) :=
  foldl_preserve_mem (relaxFold grid infraEdges t curHex minEff)
    (foldInv grid infraEdges t start pre bound)
    (getNeighbors curHex.q curHex.r) s0
    (fun s2 n hn hP => relaxFold_inv_step grid infraEdges t start pre bound
      curKey curHex minEff hcur hreal hval s2 n hn hP)
    hinv

theorem relaxFold_fold_mono (grid : Grid) (infraEdges : EdgeMap)
    (t : GetTerrainsFn) (curHex : HexData) (minEff : ℚ)
    (ns : List (Int × Int)) (s0 : List (String × ℚ) × List (String × ℚ))
    (k : String) :
    bestD s0.1 k ≤
      bestD ((ns.foldl (relaxFold grid infraEdges t curHex minEff) s0)).1 k :=
  foldl_preserve_mem (relaxFold grid infraEdges t curHex minEff)
    (fun s => bestD s0.1 k ≤ bestD s.1 k) ns s0
    (fun s2 n _ h => le_trans h
      (relaxFold_bestD_mono grid infraEdges t curHex minEff s2 n k))
    (le_refl _)

theorem relaxFold_fold_queue (grid : Grid) (infraEdges : EdgeMap)
    (t : GetTerrainsFn) (curHex : HexData) (minEff : ℚ)
    (ns : List (Int × Int)) (s0 : List (String × ℚ) × List (String × ℚ))
    (p : String × ℚ) (hp : p ∈ s0.2) :
    p ∈ ((ns.foldl (relaxFold grid infraEdges t curHex minEff) s0)).2 :=
  foldl_preserve_mem (relaxFold grid infraEdges t curHex minEff)
    (fun s => p ∈ s.2) ns s0
    (fun s2 n _ h => relaxFold_queue_extend grid infraEdges t curHex minEff s2 n p h)
    hp

theorem relaxFold_fold_establish (grid : Grid) (infraEdges : EdgeMap)
    (t : GetTerrainsFn) (curKey : String) (curHex : HexData) (minEff : ℚ)
    (hcur : Grid.get grid curKey = some curHex)
    (ns : List (Int × Int)) (s0 : List (String × ℚ) × List (String × ℚ))
    (n : Int × Int) (hn : n ∈ ns) (e : ℚ)
    (hadj : exportAdj grid infraEdges t curKey n e) :
    min minEff e ≤
      bestD ((ns.foldl (relaxFold grid infraEdges t curHex minEff) s0)).1
        (hexKey n.1 n.2) :=
  foldl_establish (relaxFold grid infraEdges t curHex minEff)
    (fun n2 s => ∀ e2, exportAdj grid infraEdges t curKey n2 e2 →
      min minEff e2 ≤ bestD s.1 (hexKey n2.1 n2.2))
    (fun s a b h e2 hadj2 => le_trans (h e2 hadj2)
      (relaxFold_bestD_mono grid infraEdges t curHex minEff s b (hexKey a.1 a.2)))
    (fun s a e2 hadj2 => relaxFold_establish_step grid infraEdges t curKey curHex
      minEff hcur s a e2 hadj2)
    ns s0 n hn e hadj

/- ===================== C6: exportLoop unfolding equations ===================== -/

theorem exportLoop_zero (grid : Grid) (infraEdges : EdgeMap)
    (t : GetTerrainsFn) (st : ExportState) :
    exportLoop grid infraEdges t 0 st = st := rfl

theorem exportLoop_succ_empty (grid : Grid) (infraEdges : EdgeMap)
    (t : GetTerrainsFn) (fuel : Nat) (bs : List (String × ℚ)) (b : ℚ) :
    exportLoop grid infraEdges t (fuel + 1) ⟨bs, [], b⟩ = ⟨bs, [], b⟩ := rfl

theorem exportLoop_succ_none (grid : Grid) (infraEdges : EdgeMap)
    (t : GetTerrainsFn) (fuel : Nat) (bs : List (String × ℚ))
    (rest : List (String × ℚ)) (b : ℚ) (cur : String) (me : ℚ)
    (hg : Grid.get grid cur = none) :
    exportLoop grid infraEdges t (fuel + 1) ⟨bs, (cur, me) :: rest, b⟩ =
      exportLoop grid infraEdges t fuel ⟨bs, rest, b⟩ := by
  conv_lhs => rw [exportLoop]
  dsimp only
  rw [hg]

theorem exportLoop_succ_edge (grid : Grid) (infraEdges : EdgeMap)
    (t : GetTerrainsFn) (fuel : Nat) (bs : List (String × ℚ))
    (rest : List (String × ℚ)) (b : ℚ) (cur : String) (me : ℚ)
    (curHex : HexData) (hg : Grid.get grid cur = some curHex)
    (he : isAtMapEdge grid t curHex.q curHex.r = true) :
    exportLoop grid infraEdges t (fuel + 1) ⟨bs, (cur, me) :: rest, b⟩ =
      exportLoop grid infraEdges t fuel ⟨bs, rest, max b me⟩ := by
  conv_lhs => rw [exportLoop]
  dsimp only
  rw [hg]
  dsimp only
  rw [if_pos he]

theorem exportLoop_succ_expand (grid : Grid) (infraEdges : EdgeMap)
    (t : GetTerrainsFn) (fuel : Nat) (bs : List (String × ℚ))
    (rest : List (String × ℚ)) (b : ℚ) (cur : String) (me : ℚ)
    (curHex : HexData) (hg : Grid.get grid cur = some curHex)
    (he : isAtMapEdge grid t curHex.q curHex.r = false) :
    exportLoop grid infraEdges t (fuel + 1) ⟨bs, (cur, me) :: rest, b⟩ =
      exportLoop grid infraEdges t fuel
        ⟨((getNeighbors curHex.q curHex.r).foldl
            (relaxFold grid infraEdges t curHex me) (bs, rest)).1,
         ((getNeighbors curHex.q curHex.r).foldl
            (relaxFold grid infraEdges t curHex me) (bs, rest)).2,
         b⟩ := by
  conv_lhs => rw [exportLoop]
  dsimp only
  rw [hg]
  dsimp only
  rw [if_neg (by rw [he]; exact Bool.false_ne_true)]
  rfl
/- ===================== C6: the loop invariant ===================== -/

/-- A settled cell is relaxed: its recorded value has been propagated to
every traversable neighbor. -/
def relaxedAt (grid : Grid) (infraEdges : EdgeMap) (t : GetTerrainsFn)
    (m : List (String × ℚ)) (k : String) : Prop :=
  ∀ n e, exportAdj grid infraEdges t k n e →
    min (bestD m k) e ≤ bestD m (hexKey n.1 n.2)

/-- Some queue entry still services the cell's recorded value. -/
def queuePending (st : ExportState) (k : String) : Prop :=
  ∃ v, bestD st.bestSeen k ≤ v ∧ (k, v) ∈ st.queue

/-- A nonempty well-formed chain whose interior stays away from the map edge
and whose final cell is at the map edge. -/
def edgeChain (grid : Grid) (infraEdges : EdgeMap) (t : GetTerrainsFn)
    (start : String) (c : List ExpStep) : Prop :=
  c ≠ [] ∧ chainOk grid infraEdges t start c ∧ chainInteriorNE grid t c ∧
    isEdgeKey grid t (chainEnd start c) = true

/-- Invariant of the export BFS loop. -/
structure ExportInv (grid : Grid) (infraEdges : EdgeMap) (t : GetTerrainsFn)
    (start : String) (st : ExportState) : Prop where
  bs_sound : ∀ p ∈ st.bestSeen,
    realizedAt grid infraEdges t start p.1 p.2 ∧ isEffVal p.2
  q_sound : ∀ p ∈ st.queue,
    realizedAt grid infraEdges t start p.1 p.2 ∧ isEffVal p.2
  best_sound : st.best = 0 ∨ ∃ k, isEdgeKey grid t k = true ∧
    realizedAt grid infraEdges t start k st.best
  relaxOrPend : ∀ k, isEdgeKey grid t k = false →
    relaxedAt grid infraEdges t st.bestSeen k ∨ queuePending st k
  edgeFlush : ∀ k, isEdgeKey grid t k = true →
    bestD st.bestSeen k ≤ st.best ∨ queuePending st k
  comp : ∀ c, edgeChain grid infraEdges t start c →
    chainVal c ≤ st.best ∨
    ∃ a2 b2, c = a2 ++ b2 ∧ a2 ≠ [] ∧
      (chainVal a2 ≤ bestD st.bestSeen (chainEnd start a2) ∨
       ∃ v, chainVal a2 ≤ v ∧ (chainEnd start a2, v) ∈ st.queue)

theorem chainOk_split (grid : Grid) (infraEdges : EdgeMap) (t : GetTerrainsFn) :
    ∀ (a2 b2 : List ExpStep) (k0 : String),
    chainOk grid infraEdges t k0 (a2 ++ b2) →
    chainOk grid infraEdges t (chainEnd k0 a2) b2 := by
  intro a2
  induction a2 with
  | nil => intro b2 k0 h; exact h
  | cons s u ih =>
    intro b2 k0 h
    obtain ⟨_, _, hrest⟩ := h
    exact ih b2 s.toKey hrest

theorem isEdgeKey_of_hex (grid : Grid) (t : GetTerrainsFn) (k : String)
    (hx : HexData) (hg : Grid.get grid k = some hx) :
    isEdgeKey grid t k = isAtMapEdge grid t hx.q hx.r := by
  unfold isEdgeKey
  rw [hg]

/-- Dequeueing an entry whose cell is at the map edge preserves the
invariant. -/
theorem exportInv_edge_step (grid : Grid) (infraEdges : EdgeMap)
    (t : GetTerrainsFn) (start : String) (bs rest : List (String × ℚ))
    (b : ℚ) (cur : String) (me : ℚ) (hx : HexData)
    (hg : Grid.get grid cur = some hx)
    (he : isAtMapEdge grid t hx.q hx.r = true)
    (hinv : ExportInv grid infraEdges t start ⟨bs, (cur, me) :: rest, b⟩) :
    ExportInv grid infraEdges t start ⟨bs, rest, max b me⟩ := by
  have hedgecur : isEdgeKey grid t cur = true := by
    rw [isEdgeKey_of_hex grid t cur hx hg]
    exact he
  have hhead := hinv.q_sound (cur, me) (List.mem_cons_self _ _)
  refine ⟨hinv.bs_sound, ?_, ?_, ?_, ?_, ?_⟩
  · intro p hp
    exact hinv.q_sound p (List.mem_cons_of_mem _ hp)
  · by_cases hbm : b ≤ me
    · rw [max_eq_right hbm]
      exact Or.inr ⟨cur, hedgecur, hhead.1⟩
    · rw [max_eq_left (le_of_not_le hbm)]
      exact hinv.best_sound
  · intro k hk
    rcases hinv.relaxOrPend k hk with hrel | ⟨v, hv, hm⟩
    · exact Or.inl hrel
    · rcases List.mem_cons.mp hm with he2 | hm2
      · rw [Prod.mk.injEq] at he2
        rw [he2.1] at hk
        rw [hedgecur] at hk
        exact absurd hk (by simp)
      · exact Or.inr ⟨v, hv, hm2⟩
  · intro k hk
    rcases hinv.edgeFlush k hk with hle | ⟨v, hv, hm⟩
    · exact Or.inl (le_trans hle (le_max_left b me))
    · rcases List.mem_cons.mp hm with he2 | hm2
      · rw [Prod.mk.injEq] at he2
        refine Or.inl ?_
        calc bestD bs k ≤ v := hv
          _ = me := he2.2
          _ ≤ max b me := le_max_right b me
      · exact Or.inr ⟨v, hv, hm2⟩
  · intro c hc
    rcases hinv.comp c hc with hle | ⟨a2, b2, hsplit, hane, inner⟩
    · exact Or.inl (le_trans hle (le_max_left b me))
    · rcases inner with hbd | ⟨v, hv, hm⟩
      · exact Or.inr ⟨a2, b2, hsplit, hane, Or.inl hbd⟩
      · rcases List.mem_cons.mp hm with he2 | hm2
        · rw [Prod.mk.injEq] at he2
          refine Or.inl ?_
          have hca : chainVal c ≤ chainVal a2 := by
            rw [hsplit, chainVal_append]
            exact min_le_left _ _
          calc chainVal c ≤ chainVal a2 := hca
            _ ≤ v := hv
            _ = me := he2.2
            _ ≤ max b me := le_max_right b me
        · exact Or.inr ⟨a2, b2, hsplit, hane, Or.inr ⟨v, hv, hm2⟩⟩
/- ===================== C6: expansion step ===================== -/

/-- Dequeueing an entry whose cell is not at the map edge and relaxing its
neighbors preserves the invariant and strictly decreases the measure. -/
theorem exportInv_expand_step (grid : Grid) (infraEdges : EdgeMap)
    (t : GetTerrainsFn) (start : String) (bs rest : List (String × ℚ))
    (b : ℚ) (cur : String) (me : ℚ) (hx : HexData)
    (hg : Grid.get grid cur = some hx)
    (he : isAtMapEdge grid t hx.q hx.r = false)
    (hinv : ExportInv grid infraEdges t start ⟨bs, (cur, me) :: rest, b⟩) :
    ExportInv grid infraEdges t start
      ⟨((getNeighbors hx.q hx.r).foldl
          (relaxFold grid infraEdges t hx me) (bs, rest)).1,
       ((getNeighbors hx.q hx.r).foldl
          (relaxFold grid infraEdges t hx me) (bs, rest)).2, b⟩ ∧
    ((getNeighbors hx.q hx.r).foldl
        (relaxFold grid infraEdges t hx me) (bs, rest)).2.length +
      rankSum grid ((getNeighbors hx.q hx.r).foldl
        (relaxFold grid infraEdges t hx me) (bs, rest)).1 ≤
      rest.length + rankSum grid bs := by
  have hedgecur : isEdgeKey grid t cur = false := by
    rw [isEdgeKey_of_hex grid t cur hx hg]
    exact he
  have hhead := hinv.q_sound (cur, me) (List.mem_cons_self _ _)
  have hFI : foldInv grid infraEdges t start bs (rest.length + rankSum grid bs)
      ((getNeighbors hx.q hx.r).foldl
        (relaxFold grid infraEdges t hx me) (bs, rest)) :=
    relaxFold_fold_inv grid infraEdges t start bs (rest.length + rankSum grid bs)
      cur hx me hg hhead.1 hhead.2 (bs, rest)
      ⟨fun p hp => hinv.bs_sound p hp,
       fun p hp => hinv.q_sound p (List.mem_cons_of_mem _ hp),
       fun k => Or.inl rfl, le_refl _⟩
  obtain ⟨f1, f2, f6, f7⟩ := hFI
  have hmono : ∀ k, bestD bs k ≤
      bestD ((getNeighbors hx.q hx.r).foldl
        (relaxFold grid infraEdges t hx me) (bs, rest)).1 k :=
    fun k => relaxFold_fold_mono grid infraEdges t hx me
      (getNeighbors hx.q hx.r) (bs, rest) k
  have hqsub : ∀ p ∈ rest, p ∈
      ((getNeighbors hx.q hx.r).foldl
        (relaxFold grid infraEdges t hx me) (bs, rest)).2 :=
    fun p hp => relaxFold_fold_queue grid infraEdges t hx me
      (getNeighbors hx.q hx.r) (bs, rest) p hp
  have hadjmem : ∀ n : Int × Int, ∀ e : ℚ,
      exportAdj grid infraEdges t cur n e → n ∈ getNeighbors hx.q hx.r := by
    intro n e hadj
    obtain ⟨h2, hget2, hn2, _, _⟩ := hadj
    rw [hg] at hget2
    injection hget2 with hh
    rw [← hh] at hn2
    exact hn2
  have hestab : ∀ n : Int × Int, ∀ e : ℚ,
      exportAdj grid infraEdges t cur n e →
      min me e ≤ bestD ((getNeighbors hx.q hx.r).foldl
        (relaxFold grid infraEdges t hx me) (bs, rest)).1 (hexKey n.1 n.2) :=
    fun n e hadj => relaxFold_fold_establish grid infraEdges t cur hx me hg
      (getNeighbors hx.q hx.r) (bs, rest) n (hadjmem n e hadj) e hadj
  refine ⟨⟨f1, f2, hinv.best_sound, ?_, ?_, ?_⟩, f7⟩
  · intro k hk
    by_cases hchg : bestD ((getNeighbors hx.q hx.r).foldl
        (relaxFold grid infraEdges t hx me) (bs, rest)).1 k = bestD bs k
    · by_cases hkc : k = cur
      · subst hkc
        rcases hinv.relaxOrPend k hk with hrel | ⟨v, hv, hm⟩
        · refine Or.inl ?_
          intro n e hadj
          rw [hchg]
          exact le_trans (hrel n e hadj) (hmono (hexKey n.1 n.2))
        · rcases List.mem_cons.mp hm with he2 | hm2
          · rw [Prod.mk.injEq] at he2
            refine Or.inl ?_
            intro n e hadj
            rw [hchg]
            have h1 : bestD bs k ≤ me := he2.2 ▸ hv
            calc min (bestD bs k) e ≤ min me e := min_le_min h1 (le_refl e)
              _ ≤ _ := hestab n e hadj
          · exact Or.inr ⟨v, by rw [hchg]; exact hv, hqsub _ hm2⟩
      · rcases hinv.relaxOrPend k hk with hrel | ⟨v, hv, hm⟩
        · refine Or.inl ?_
          intro n e hadj
          rw [hchg]
          exact le_trans (hrel n e hadj) (hmono (hexKey n.1 n.2))
        · rcases List.mem_cons.mp hm with he2 | hm2
          · rw [Prod.mk.injEq] at he2
            exact absurd he2.1 hkc
          · exact Or.inr ⟨v, by rw [hchg]; exact hv, hqsub _ hm2⟩
    · rcases f6 k with he2 | ⟨v, hv, hm⟩
      · exact absurd he2 hchg
      · exact Or.inr ⟨v, hv, hm⟩
  · intro k hk
    have hkc : k ≠ cur := by
      intro he3
      rw [he3, hedgecur] at hk
      exact absurd hk (by simp)
    by_cases hchg : bestD ((getNeighbors hx.q hx.r).foldl
        (relaxFold grid infraEdges t hx me) (bs, rest)).1 k = bestD bs k
    · rcases hinv.edgeFlush k hk with hle | ⟨v, hv, hm⟩
      · exact Or.inl (by rw [hchg]; exact hle)
      · rcases List.mem_cons.mp hm with he2 | hm2
        · rw [Prod.mk.injEq] at he2
          exact absurd he2.1 hkc
        · exact Or.inr ⟨v, by rw [hchg]; exact hv, hqsub _ hm2⟩
    · rcases f6 k with he2 | ⟨v, hv, hm⟩
      · exact absurd he2 hchg
      · exact Or.inr ⟨v, hv, hm⟩
  · intro c hc
    rcases hinv.comp c hc with hle | ⟨a2, b2, hsplit, hane, inner⟩
    · exact Or.inl hle
    · rcases inner with hbd | ⟨v, hv, hm⟩
      · exact Or.inr ⟨a2, b2, hsplit, hane,
          Or.inl (le_trans hbd (hmono (chainEnd start a2)))⟩
      · rcases List.mem_cons.mp hm with he2 | hm2
        · rw [Prod.mk.injEq] at he2
          obtain ⟨hk1, hv1⟩ := he2
          cases b2 with
          | nil =>
            obtain ⟨_, _, _, hend⟩ := hc
            rw [hsplit, List.append_nil, hk1, hedgecur] at hend
            exact absurd hend (by simp)
          | cons s b3 =>
            obtain ⟨hcne, hok, hint, hend⟩ := hc
            have hok2 : chainOk grid infraEdges t (chainEnd start a2)
                (s :: b3) := by
              rw [hsplit] at hok
              exact chainOk_split grid infraEdges t a2 (s :: b3) start hok
            obtain ⟨hsf, hsadj, hsrest⟩ := hok2
            have hsadj2 : exportAdj grid infraEdges t cur s.n s.eff := by
              rw [hsf, hk1] at hsadj
              exact hsadj
            refine Or.inr ⟨a2 ++ [s], b3, ?_, by simp, Or.inl ?_⟩
            · rw [hsplit, List.append_assoc]
              rfl
            · rw [chainEnd_append, chainVal_append]
              have h1 : chainVal a2 ≤ me := hv1 ▸ hv
              have h2 : chainVal [s] ≤ s.eff := by
                rw [chainVal_cons, chainVal_nil]
                exact min_le_left _ _
              calc min (chainVal a2) (chainVal [s]) ≤ min me s.eff :=
                    min_le_min h1 h2
                _ ≤ _ := hestab s.n s.eff hsadj2
        · exact Or.inr ⟨a2, b2, hsplit, hane, Or.inr ⟨v, hv, hqsub _ hm2⟩⟩
/- ===================== C6: loop master lemma ===================== -/

/-- Running the export loop with more fuel than the measure drains the queue
while preserving the invariant; best only grows. -/
theorem exportLoop_master (grid : Grid) (infraEdges : EdgeMap)
    (t : GetTerrainsFn) (start : String) :
    ∀ (fuel : Nat) (st : ExportState),
    ExportInv grid infraEdges t start st → expPhi grid st < fuel →
    ExportInv grid infraEdges t start (exportLoop grid infraEdges t fuel st) ∧
    (exportLoop grid infraEdges t fuel st).queue = [] ∧
    st.best ≤ (exportLoop grid infraEdges t fuel st).best := by
  intro fuel
  induction fuel with
  | zero => intro st _ hphi; exact absurd hphi (by omega)
  | succ f ih =>
    intro st hinv hphi
    obtain ⟨bs, q, b⟩ := st
    cases q with
    | nil =>
      rw [exportLoop_succ_empty]
      exact ⟨hinv, rfl, le_refl _⟩
    | cons hd rest =>
      obtain ⟨cur, me⟩ := hd
      cases hg : Grid.get grid cur with
      | none =>
        have hr := (hinv.q_sound (cur, me) (List.mem_cons_self _ _)).1
        have hsome := realizedAt_isSome grid infraEdges t start cur me hr
        rw [hg] at hsome
        exact absurd hsome (by simp)
      | some hx =>
        cases he : isAtMapEdge grid t hx.q hx.r with
        | true =>
          rw [exportLoop_succ_edge grid infraEdges t f bs rest b cur me hx hg he]
          have hinv2 := exportInv_edge_step grid infraEdges t start bs rest b
            cur me hx hg he hinv
          obtain ⟨hI, hQ, hB⟩ := ih ⟨bs, rest, max b me⟩ hinv2 (by
            unfold expPhi at hphi ⊢
            dsimp only at hphi ⊢
            rw [List.length_cons] at hphi
            omega)
          exact ⟨hI, hQ, le_trans (le_max_left b me) hB⟩
        | false =>
          rw [exportLoop_succ_expand grid infraEdges t f bs rest b cur me hx hg he]
          obtain ⟨hinv2, hlen⟩ := exportInv_expand_step grid infraEdges t start
            bs rest b cur me hx hg he hinv
          obtain ⟨hI, hQ, hB⟩ := ih _ hinv2 (by
            unfold expPhi at hphi ⊢
            dsimp only at hphi ⊢
            rw [List.length_cons] at hphi
            omega)
          exact ⟨hI, hQ, hB⟩
/- ===================== C6: seed lemmas ===================== -/

/-- The body of the seeding fold of getExportEfficiency (economy.ts:414-421),
lifted out for reasoning; definitionally equal to the inline lambda. -/
def seedFold (grid : Grid) (infraEdges : EdgeMap) (t : GetTerrainsFn)
    (startHex : HexData)
    (s : List (String × ℚ) × List (String × ℚ)) (n : Int × Int) :
    List (String × ℚ) × List (String × ℚ) :=
  let nk := hexKey n.1 n.2
  match Grid.get grid nk with
  | none => s
  | some _ =>
    match getStepEfficiency infraEdges t startHex.q startHex.r n.1 n.2 with
    | none => s
    | some eff => (AList.set s.1 nk eff, s.2 ++ [(nk, eff)])

theorem exportSeed_eq_fold (grid : Grid) (infraEdges : EdgeMap)
    (t : GetTerrainsFn) (startHex : HexData) :
    exportSeed grid infraEdges t startHex =
      (getNeighbors startHex.q startHex.r).foldl
        (seedFold grid infraEdges t startHex) ([], []) := rfl

theorem seedFold_cases (grid : Grid) (infraEdges : EdgeMap) (t : GetTerrainsFn)
    (startHex : HexData) (s : List (String × ℚ) × List (String × ℚ))
    (n : Int × Int) :
    seedFold grid infraEdges t startHex s n = s ∨
    ∃ eff, (Grid.get grid (hexKey n.1 n.2)).isSome = true ∧
      getStepEfficiency infraEdges t startHex.q startHex.r n.1 n.2 = some eff ∧
      seedFold grid infraEdges t startHex s n =
        (AList.set s.1 (hexKey n.1 n.2) eff,
         s.2 ++ [(hexKey n.1 n.2, eff)]) := by
  unfold seedFold
  dsimp only
  cases hg : Grid.get grid (hexKey n.1 n.2) with
  | none => exact Or.inl rfl
  | some hy =>
    cases hstp : getStepEfficiency infraEdges t startHex.q startHex.r n.1 n.2 with
    | none => exact Or.inl rfl
    | some eff => exact Or.inr ⟨eff, by simp, rfl, rfl⟩

/-- Soundness/pending invariant carried through the seeding fold. -/
def seedInv (grid : Grid) (infraEdges : EdgeMap) (t : GetTerrainsFn)
    (start : String)
    (s : List (String × ℚ) × List (String × ℚ)) : Prop :=
  (∀ p ∈ s.1, realizedAt grid infraEdges t start p.1 p.2 ∧ isEffVal p.2) ∧
  (∀ p ∈ s.2, realizedAt grid infraEdges t start p.1 p.2 ∧ isEffVal p.2) ∧
  (∀ k, bestD s.1 k = 0 ∨ ∃ v, bestD s.1 k ≤ v ∧ (k, v) ∈ s.2)

theorem seedFold_inv_step (grid : Grid) (infraEdges : EdgeMap)
    (t : GetTerrainsFn) (start : String) (startHex : HexData)
    (hs : Grid.get grid start = some startHex)
    (s : List (String × ℚ) × List (String × ℚ)) (n : Int × Int)
    (hn : n ∈ getNeighbors startHex.q startHex.r)
    (hinv : seedInv grid infraEdges t start s) :
    seedInv grid infraEdges t start (seedFold grid infraEdges t startHex s n) := by
  obtain ⟨g1, g2, g3⟩ := hinv
  rcases seedFold_cases grid infraEdges t startHex s n with h | ⟨eff, hsome, hstp, heq⟩
  · rw [h]
    exact ⟨g1, g2, g3⟩
  · have hadj : exportAdj grid infraEdges t start n eff :=
      ⟨startHex, hs, hn, hsome, hstp⟩
    have hreal : realizedAt grid infraEdges t start (hexKey n.1 n.2) eff :=
      realizedAt_single grid infraEdges t start n eff hadj
    have hval : isEffVal eff :=
      getStepEfficiency_val infraEdges t startHex.q startHex.r n.1 n.2 eff hstp
    rw [heq]
    refine ⟨?_, ?_, ?_⟩
    · intro p hp
      rcases AList.mem_set_cases s.1 (hexKey n.1 n.2) eff p hp with he2 | hm
      · rw [he2]
        exact ⟨hreal, hval⟩
      · exact g1 p hm
    · intro p hp
      rcases List.mem_append.mp hp with hm | hm
      · exact g2 p hm
      · rw [List.mem_singleton.mp hm]
        exact ⟨hreal, hval⟩
    · intro k
      by_cases hk : k = hexKey n.1 n.2
      · subst hk
        refine Or.inr ⟨eff, ?_, ?_⟩
        · rw [bestD_set_self]
        · exact List.mem_append_right _ (List.mem_singleton.mpr rfl)
      · rw [bestD_set_ne s.1 (hexKey n.1 n.2) k _ hk]
        rcases g3 k with he2 | ⟨v, hv, hm⟩
        · exact Or.inl he2
        · exact Or.inr ⟨v, hv, List.mem_append_left _ hm⟩

theorem seedFold_queue_extend (grid : Grid) (infraEdges : EdgeMap)
    (t : GetTerrainsFn) (startHex : HexData)
    (s : List (String × ℚ) × List (String × ℚ)) (n : Int × Int)
    (p : String × ℚ) (hp : p ∈ s.2) :
    p ∈ (seedFold grid infraEdges t startHex s n).2 := by
  rcases seedFold_cases grid infraEdges t startHex s n with h | ⟨eff, _, _, heq⟩
  · rw [h]
    exact hp
  · rw [heq]
    exact List.mem_append_left _ hp

theorem seedFold_len_step (grid : Grid) (infraEdges : EdgeMap)
    (t : GetTerrainsFn) (startHex : HexData)
    (s : List (String × ℚ) × List (String × ℚ)) (n : Int × Int) :
    (seedFold grid infraEdges t startHex s n).2.length ≤ s.2.length + 1 := by
  rcases seedFold_cases grid infraEdges t startHex s n with h | ⟨eff, _, _, heq⟩
  · rw [h]
    omega
  · rw [heq]
    rw [List.length_append]
    simp

theorem seedFold_len (grid : Grid) (infraEdges : EdgeMap) (t : GetTerrainsFn)
    (startHex : HexData) :
    ∀ (ns : List (Int × Int)) (s0 : List (String × ℚ) × List (String × ℚ)),
    ((ns.foldl (seedFold grid infraEdges t startHex) s0)).2.length ≤
      s0.2.length + ns.length := by
  intro ns
  induction ns with
  | nil => intro s0; simp
  | cons n u ih =>
    intro s0
    rw [List.foldl_cons]
    have h1 := ih (seedFold grid infraEdges t startHex s0 n)
    have h2 := seedFold_len_step grid infraEdges t startHex s0 n
    rw [List.length_cons]
    omega

theorem seedFold_establish (grid : Grid) (infraEdges : EdgeMap)
    (t : GetTerrainsFn) (start : String) (startHex : HexData)
    (hs : Grid.get grid start = some startHex)
    (ns : List (Int × Int)) (s0 : List (String × ℚ) × List (String × ℚ))
    (n : Int × Int) (hn : n ∈ ns) (e : ℚ)
    (hadj : exportAdj grid infraEdges t start n e) :
    (hexKey n.1 n.2, e) ∈
      ((ns.foldl (seedFold grid infraEdges t startHex) s0)).2 := by
  refine foldl_establish (seedFold grid infraEdges t startHex)
    (fun n2 s => ∀ e2, exportAdj grid infraEdges t start n2 e2 →
      (hexKey n2.1 n2.2, e2) ∈ s.2)
    (fun s a b h e2 hadj2 =>
      seedFold_queue_extend grid infraEdges t startHex s b _ (h e2 hadj2))
    ?_ ns s0 n hn e hadj
  intro s a e2 hadj2
  obtain ⟨h2, hget2, _, hsome2, hstp2⟩ := hadj2
  rw [hs] at hget2
  injection hget2 with hh
  subst hh
  obtain ⟨hd, hgx⟩ := Option.isSome_iff_exists.mp hsome2
  unfold seedFold
  dsimp only
  rw [hgx]
  dsimp only
  rw [hstp2]
  exact List.mem_append_right _ (List.mem_singleton.mpr rfl)
/- ===================== C6: initial state ===================== -/

theorem exportInv_init (grid : Grid) (infraEdges : EdgeMap)
    (t : GetTerrainsFn) (start : String) (startHex : HexData)
    (hs : Grid.get grid start = some startHex) :
    ExportInv grid infraEdges t start
      ⟨(exportSeed grid infraEdges t startHex).1,
       (exportSeed grid infraEdges t startHex).2, 0⟩ := by
  have hSI : seedInv grid infraEdges t start
      (exportSeed grid infraEdges t startHex) := by
    rw [exportSeed_eq_fold]
    refine foldl_preserve_mem (seedFold grid infraEdges t startHex)
      (seedInv grid infraEdges t start)
      (getNeighbors startHex.q startHex.r) ([], [])
      (fun s2 n hn hP =>
        seedFold_inv_step grid infraEdges t start startHex hs s2 n hn hP)
      ⟨?_, ?_, fun k => Or.inl rfl⟩
    · intro p hp
      exact absurd hp (List.not_mem_nil p)
    · intro p hp
      exact absurd hp (List.not_mem_nil p)
  obtain ⟨g1, g2, g3⟩ := hSI
  refine ⟨g1, g2, Or.inl rfl, ?_, ?_, ?_⟩
  · intro k hk
    rcases g3 k with h0 | ⟨v, hv, hm⟩
    · refine Or.inl ?_
      intro n e hadj
      rw [h0]
      have he0 : (0 : ℚ) ≤ e := isEffVal_nonneg (exportAdj_val hadj)
      rw [min_eq_left he0]
      exact bestD_nonneg _ _ (fun p hp => (g1 p hp).2)
    · exact Or.inr ⟨v, hv, hm⟩
  · intro k hk
    rcases g3 k with h0 | ⟨v, hv, hm⟩
    · exact Or.inl (le_of_eq h0)
    · exact Or.inr ⟨v, hv, hm⟩
  · intro c hc
    obtain ⟨hcne, hok, hint, hend⟩ := hc
    cases c with
    | nil => exact absurd rfl hcne
    | cons s u =>
      obtain ⟨hsf, hadj, hrest⟩ := hok
      have hadj2 : exportAdj grid infraEdges t start s.n s.eff := by
        rw [hsf] at hadj
        exact hadj
      have hnmem : s.n ∈ getNeighbors startHex.q startHex.r := by
        obtain ⟨h2, hget2, hn2, _, _⟩ := hadj2
        rw [hs] at hget2
        injection hget2 with hh
        rw [← hh] at hn2
        exact hn2
      have hmem := seedFold_establish grid infraEdges t start startHex hs
        (getNeighbors startHex.q startHex.r) ([], []) s.n hnmem s.eff hadj2
      refine Or.inr ⟨[s], u, rfl, by simp, Or.inr ⟨s.eff, ?_, ?_⟩⟩
      · rw [chainVal_cons, chainVal_nil]
        exact min_le_left _ _
      · show (hexKey s.n.1 s.n.2, s.eff) ∈ (exportSeed grid infraEdges t startHex).2
        rw [exportSeed_eq_fold]
        exact hmem

theorem rankSum_le_bound (grid : Grid) (m : List (String × ℚ)) :
    rankSum grid m ≤ 3 * (gridKeyList grid).length := by
  unfold rankSum
  generalize gridKeyList grid = L
  induction L with
  | nil => simp
  | cons k u ih =>
    rw [List.map_cons, List.sum_cons, List.length_cons]
    have h1 := effRank_le_three (bestD m k)
    omega

theorem expPhi_init_lt (grid : Grid) (infraEdges : EdgeMap)
    (t : GetTerrainsFn) (startHex : HexData) :
    expPhi grid ⟨(exportSeed grid infraEdges t startHex).1,
      (exportSeed grid infraEdges t startHex).2, 0⟩ <
      4 * (grid.length + 1) + 8 := by
  unfold expPhi
  dsimp only
  have h1 : (exportSeed grid infraEdges t startHex).2.length ≤ 6 := by
    rw [exportSeed_eq_fold]
    have h2 := seedFold_len grid infraEdges t startHex
      (getNeighbors startHex.q startHex.r) ([], [])
    simpa using h2
  have h2 := rankSum_le_bound grid (exportSeed grid infraEdges t startHex).1
  have h3 := gridKeyList_length_le grid
  omega

/- ===================== C6: termination-time chaining ===================== -/

theorem interiorNE_prefix_end (grid : Grid) (t : GetTerrainsFn) :
    ∀ (a2 : List ExpStep) (s : ExpStep) (b3 : List ExpStep) (k0 : String),
    a2 ≠ [] → chainInteriorNE grid t (a2 ++ s :: b3) →
    isEdgeKey grid t (chainEnd k0 a2) = false := by
  intro a2
  induction a2 with
  | nil => intro s b3 k0 h; exact absurd rfl h
  | cons x a3 ih =>
    intro s b3 k0 _ hint
    cases a3 with
    | nil =>
      obtain ⟨hx, _⟩ := hint
      exact hx
    | cons y a4 =>
      obtain ⟨_, hint2⟩ := hint
      exact ih s b3 x.toKey (by simp) hint2

theorem suffix_walk (grid : Grid) (infraEdges : EdgeMap) (t : GetTerrainsFn)
    (start : String) (m : List (String × ℚ))
    (hrel : ∀ k, isEdgeKey grid t k = false →
      relaxedAt grid infraEdges t m k) :
    ∀ (b2 a2 : List ExpStep),
    chainOk grid infraEdges t start (a2 ++ b2) →
    chainInteriorNE grid t (a2 ++ b2) → a2 ≠ [] →
    chainVal a2 ≤ bestD m (chainEnd start a2) →
    chainVal (a2 ++ b2) ≤ bestD m (chainEnd start (a2 ++ b2)) := by
  intro b2
  induction b2 with
  | nil =>
    intro a2 _ _ _ hbd
    rw [List.append_nil]
    exact hbd
  | cons s b3 ih =>
    intro a2 hok hint hane hbd
    have hne : isEdgeKey grid t (chainEnd start a2) = false :=
      interiorNE_prefix_end grid t a2 s b3 start hane hint
    have hok2 : chainOk grid infraEdges t (chainEnd start a2) (s :: b3) :=
      chainOk_split grid infraEdges t a2 (s :: b3) start hok
    obtain ⟨hsf, hsadj, hsrest⟩ := hok2
    have hsadj2 : exportAdj grid infraEdges t (chainEnd start a2) s.n s.eff := by
      rw [hsf] at hsadj
      exact hsadj
    have hstep := hrel (chainEnd start a2) hne s.n s.eff hsadj2
    have hbd2 : chainVal (a2 ++ [s]) ≤ bestD m (chainEnd start (a2 ++ [s])) := by
      rw [chainVal_append, chainEnd_append]
      have h1 : min (chainVal a2) (chainVal [s]) ≤
          min (bestD m (chainEnd start a2)) s.eff := by
        refine min_le_min hbd ?_
        rw [chainVal_cons, chainVal_nil]
        exact min_le_left _ _
      exact le_trans h1 hstep
    have heq : a2 ++ s :: b3 = (a2 ++ [s]) ++ b3 := by
      rw [List.append_assoc]
      rfl
    rw [heq]
    rw [heq] at hok hint
    exact ih (a2 ++ [s]) hok hint (by simp) hbd2

theorem chain_to_NE (grid : Grid) (infraEdges : EdgeMap) (t : GetTerrainsFn) :
    ∀ (c : List ExpStep) (k0 : String),
    chainOk grid infraEdges t k0 c → c ≠ [] →
    isEdgeKey grid t (chainEnd k0 c) = true →
    ∃ c2, c2 ≠ [] ∧ chainOk grid infraEdges t k0 c2 ∧
      chainInteriorNE grid t c2 ∧ isEdgeKey grid t (chainEnd k0 c2) = true ∧
      chainVal c ≤ chainVal c2 := by
  intro c
  induction c with
  | nil => intro k0 _ h; exact absurd rfl h
  | cons s u ih =>
    intro k0 hok _ hend
    obtain ⟨hsf, hadj, hrest⟩ := hok
    cases hst : isEdgeKey grid t s.toKey with
    | true =>
      refine ⟨[s], by simp, ⟨hsf, hadj, trivial⟩, trivial, hst, ?_⟩
      rw [chainVal_cons, chainVal_cons, chainVal_nil]
      exact min_le_min (le_refl s.eff) (chainVal_le_one u)
    | false =>
      cases u with
      | nil =>
        have hend3 : isEdgeKey grid t s.toKey = true := hend
        rw [hst] at hend3
        exact absurd hend3 (by simp)
      | cons w u2 =>
        rw [chainEnd_cons] at hend
        obtain ⟨c2, hne2, hok2, hint2, hend2, hval2⟩ :=
          ih s.toKey hrest (by simp) hend
        cases c2 with
        | nil => exact absurd rfl hne2
        | cons z zs =>
          refine ⟨s :: z :: zs, by simp, ⟨hsf, hadj, hok2⟩, ?_, ?_, ?_⟩
          · exact ⟨hst, hint2⟩
          · rw [chainEnd_cons]
            exact hend2
          · rw [chainVal_cons, chainVal_cons]
            exact min_le_min (le_refl s.eff) hval2
/- ===================== C6: final characterization ===================== -/

theorem stepBase_eq_transport (infraEdges : EdgeMap) (q r q2 r2 : Int) :
    stepBase infraEdges q r q2 r2 =
      ((EdgeMap.get infraEdges (getEdgeKey q r q2 r2)).bind
        (fun ed => ed.transport)).map INFRA_EXPORT_EFFICIENCY := by
  unfold stepBase
  cases hE : EdgeMap.get infraEdges (getEdgeKey q r q2 r2) with
  | none => rfl
  | some ed =>
    dsimp only
    cases hT : ed.transport with
    | none => simp [hT]
    | some ty => simp [hT]

theorem getStepEfficiency_water (infraEdges : EdgeMap) (t : GetTerrainsFn)
    (q r q2 r2 : Int) (hw : (t q2 r2).contains TerrainType.water = true) :
    getStepEfficiency infraEdges t q r q2 r2 = some 1 := by
  rw [getStepEfficiency_eq, if_pos hw,
    max_eq_right (stepBase_getD_le_one infraEdges q r q2 r2)]

theorem getStepEfficiency_noWater (infraEdges : EdgeMap) (t : GetTerrainsFn)
    (q r q2 r2 : Int) (hw : (t q2 r2).contains TerrainType.water = false) :
    getStepEfficiency infraEdges t q r q2 r2 =
      ((EdgeMap.get infraEdges (getEdgeKey q r q2 r2)).bind
        (fun ed => ed.transport)).map INFRA_EXPORT_EFFICIENCY := by
  rw [getStepEfficiency_eq, if_neg (by rw [hw]; exact Bool.false_ne_true),
    stepBase_eq_transport]

theorem getExportEfficiency_edge_case (grid : Grid) (infraEdges : EdgeMap)
    (t : GetTerrainsFn) (startKey : String) (startHex : HexData)
    (hs : Grid.get grid startKey = some startHex)
    (he : isAtMapEdge grid t startHex.q startHex.r = true) :
    getExportEfficiency startKey grid infraEdges t = 1 := by
  unfold getExportEfficiency
  rw [hs]
  dsimp only
  rw [if_pos he]

theorem getExportEfficiency_eq_loop (grid : Grid) (infraEdges : EdgeMap)
    (t : GetTerrainsFn) (startKey : String) (startHex : HexData)
    (hs : Grid.get grid startKey = some startHex)
    (he : isAtMapEdge grid t startHex.q startHex.r = false) :
    getExportEfficiency startKey grid infraEdges t =
      (exportLoop grid infraEdges t (4 * (grid.length + 1) + 8)
        ⟨(exportSeed grid infraEdges t startHex).1,
         (exportSeed grid infraEdges t startHex).2, 0⟩).best := by
  unfold getExportEfficiency
  rw [hs]
  dsimp only
  rw [if_neg (by rw [he]; exact Bool.false_ne_true)]

theorem getExportEfficiency_nonEdge_spec (grid : Grid) (infraEdges : EdgeMap)
    (t : GetTerrainsFn) (startKey : String) (startHex : HexData)
    (hs : Grid.get grid startKey = some startHex)
    (he : isAtMapEdge grid t startHex.q startHex.r = false) :
    (getExportEfficiency startKey grid infraEdges t = 0 ∨
      ∃ k, isEdgeKey grid t k = true ∧
        realizedAt grid infraEdges t startKey k
          (getExportEfficiency startKey grid infraEdges t)) ∧
    (∀ c, c ≠ [] → chainOk grid infraEdges t startKey c →
      isEdgeKey grid t (chainEnd startKey c) = true →
      chainVal c ≤ getExportEfficiency startKey grid infraEdges t) := by
  have hinit := exportInv_init grid infraEdges t startKey startHex hs
  have hphi := expPhi_init_lt grid infraEdges t startHex
  obtain ⟨hI, hQ, hB⟩ := exportLoop_master grid infraEdges t startKey
    (4 * (grid.length + 1) + 8)
    ⟨(exportSeed grid infraEdges t startHex).1,
     (exportSeed grid infraEdges t startHex).2, 0⟩ hinit hphi
  rw [getExportEfficiency_eq_loop grid infraEdges t startKey startHex hs he]
  constructor
  · rcases hI.best_sound with h0 | ⟨k, hk, hr⟩
    · exact Or.inl h0
    · exact Or.inr ⟨k, hk, hr⟩
  · intro c hcne hcok hcend
    obtain ⟨c2, h2ne, h2ok, h2int, h2end, h2val⟩ :=
      chain_to_NE grid infraEdges t c startKey hcok hcne hcend
    have hcomp := hI.comp c2 ⟨h2ne, h2ok, h2int, h2end⟩
    have hrelF : ∀ k, isEdgeKey grid t k = false →
        relaxedAt grid infraEdges t
          (exportLoop grid infraEdges t (4 * (grid.length + 1) + 8)
            ⟨(exportSeed grid infraEdges t startHex).1,
             (exportSeed grid infraEdges t startHex).2, 0⟩).bestSeen k := by
      intro k hk
      rcases hI.relaxOrPend k hk with h | ⟨v, _, hm⟩
      · exact h
      · rw [hQ] at hm
        exact absurd hm (List.not_mem_nil _)
    rcases hcomp with hle | ⟨a2, b2, hsplit, hane, inner⟩
    · exact le_trans h2val hle
    · have hbd : chainVal a2 ≤
          bestD (exportLoop grid infraEdges t (4 * (grid.length + 1) + 8)
            ⟨(exportSeed grid infraEdges t startHex).1,
             (exportSeed grid infraEdges t startHex).2, 0⟩).bestSeen
            (chainEnd startKey a2) := by
        rcases inner with h | ⟨v, _, hm⟩
        · exact h
        · rw [hQ] at hm
          exact absurd hm (List.not_mem_nil _)
      have hok2 : chainOk grid infraEdges t startKey (a2 ++ b2) := by
        rw [← hsplit]
        exact h2ok
      have hint2 : chainInteriorNE grid t (a2 ++ b2) := by
        rw [← hsplit]
        exact h2int
      have hwalk := suffix_walk grid infraEdges t startKey
        (exportLoop grid infraEdges t (4 * (grid.length + 1) + 8)
          ⟨(exportSeed grid infraEdges t startHex).1,
           (exportSeed grid infraEdges t startHex).2, 0⟩).bestSeen hrelF
        b2 a2 hok2 hint2 hane hbd
      have hfl2 : bestD (exportLoop grid infraEdges t (4 * (grid.length + 1) + 8)
            ⟨(exportSeed grid infraEdges t startHex).1,
             (exportSeed grid infraEdges t startHex).2, 0⟩).bestSeen
            (chainEnd startKey c2) ≤
          (exportLoop grid infraEdges t (4 * (grid.length + 1) + 8)
            ⟨(exportSeed grid infraEdges t startHex).1,
             (exportSeed grid infraEdges t startHex).2, 0⟩).best := by
        rcases hI.edgeFlush (chainEnd startKey c2) h2end with h | ⟨v, _, hm⟩
        · exact h
        · rw [hQ] at hm
          exact absurd hm (List.not_mem_nil _)
      calc chainVal c ≤ chainVal c2 := h2val
        _ = chainVal (a2 ++ b2) := by rw [hsplit]
        _ ≤ _ := hwalk
        _ = bestD (exportLoop grid infraEdges t (4 * (grid.length + 1) + 8)
              ⟨(exportSeed grid infraEdges t startHex).1,
               (exportSeed grid infraEdges t startHex).2, 0⟩).bestSeen
              (chainEnd startKey c2) := by rw [← hsplit]
        _ ≤ _ := hfl2
/- ===================== C6: claim theorem ===================== -/

/-- C6: getExportEfficiency computes the widest-path export efficiency: (i) a
start cell already at the map edge yields 1; (ii) otherwise the result is
either 0 or realized by a traversable path from the start to a map-edge cell
whose value (minimum step efficiency) is the result, every path to a
map-edge cell has value at most the result (so the result is the maximum
over all such paths of the minimum per-step efficiency), and when no
traversable path reaches a map-edge cell the result is 0; (iii) the step
efficiencies are road 0.5, rail 0.7, canal 1.0; (iv) a step into water has
efficiency 1.0; (v) a step into a non-water cell takes its efficiency from
the transport infrastructure on the edge, and is not traversable without
one. -/
theorem getExportEfficiency_max_min_path (grid : Grid) (infraEdges : EdgeMap)
    (t : GetTerrainsFn) (startKey : String) (startHex : HexData)
    (hs : Grid.get grid startKey = some startHex) :
    (isAtMapEdge grid t startHex.q startHex.r = true →
      getExportEfficiency startKey grid infraEdges t = 1) ∧
    (isAtMapEdge grid t startHex.q startHex.r = false →
      (getExportEfficiency startKey grid infraEdges t = 0 ∨
        ∃ k, isEdgeKey grid t k = true ∧
          realizedAt grid infraEdges t startKey k
            (getExportEfficiency startKey grid infraEdges t)) ∧
      (∀ c, c ≠ [] → chainOk grid infraEdges t startKey c →
        isEdgeKey grid t (chainEnd startKey c) = true →
        chainVal c ≤ getExportEfficiency startKey grid infraEdges t) ∧
      ((∀ c, c ≠ [] → chainOk grid infraEdges t startKey c →
          isEdgeKey grid t (chainEnd startKey c) = false) →
        getExportEfficiency startKey grid infraEdges t = 0)) ∧
    (INFRA_EXPORT_EFFICIENCY InfraType.road = 0.5 ∧
      INFRA_EXPORT_EFFICIENCY InfraType.rail = 0.7 ∧
      INFRA_EXPORT_EFFICIENCY InfraType.canal = 1) ∧
    (∀ fromQ fromR toQ toR : Int,
      (t toQ toR).contains TerrainType.water = true →
      getStepEfficiency infraEdges t fromQ fromR toQ toR = some 1) ∧
    (∀ fromQ fromR toQ toR : Int,
      (t toQ toR).contains TerrainType.water = false →
      getStepEfficiency infraEdges t fromQ fromR toQ toR =
        ((EdgeMap.get infraEdges (getEdgeKey fromQ fromR toQ toR)).bind
          (fun ed => ed.transport)).map INFRA_EXPORT_EFFICIENCY) := by
  refine ⟨?_, ?_, ⟨rfl, rfl, rfl⟩, ?_, ?_⟩
  · intro he
    exact getExportEfficiency_edge_case grid infraEdges t startKey startHex hs he
  · intro he
    obtain ⟨hsound, hcomp⟩ :=
      getExportEfficiency_nonEdge_spec grid infraEdges t startKey startHex hs he
    refine ⟨hsound, hcomp, ?_⟩
    intro hnone
    rcases hsound with h0 | ⟨k, hk, c, hcne, hcok, hcend, hcval⟩
    · exact h0
    · have h2 := hnone c hcne hcok
      rw [hcend, hk] at h2
      exact absurd h2 (by simp)
  · intro fromQ fromR toQ toR hw
    exact getStepEfficiency_water infraEdges t fromQ fromR toQ toR hw
  · intro fromQ fromR toQ toR hw
    exact getStepEfficiency_noWater infraEdges t fromQ fromR toQ toR hw

/-- Grid for the C6 witness: a single cell, necessarily at the map edge. -/
def c6WitnessGrid : Grid := [("0,0", { q := 0, r := 0 })]

/-- Terrain lookup for the C6 witness. -/
def c6WitnessTerrains : GetTerrainsFn := fun _ _ => [TerrainType.plains]

/-- Witness for getExportEfficiency_max_min_path on a one-cell grid. -/
theorem getExportEfficiency_max_min_path_witness :
    (isAtMapEdge c6WitnessGrid c6WitnessTerrains 0 0 = true →
      getExportEfficiency "0,0" c6WitnessGrid [] c6WitnessTerrains = 1) ∧
    (isAtMapEdge c6WitnessGrid c6WitnessTerrains 0 0 = false →
      (getExportEfficiency "0,0" c6WitnessGrid [] c6WitnessTerrains = 0 ∨
        ∃ k, isEdgeKey c6WitnessGrid c6WitnessTerrains k = true ∧
          realizedAt c6WitnessGrid [] c6WitnessTerrains "0,0" k
            (getExportEfficiency "0,0" c6WitnessGrid [] c6WitnessTerrains)) ∧
      (∀ c, c ≠ [] → chainOk c6WitnessGrid [] c6WitnessTerrains "0,0" c →
        isEdgeKey c6WitnessGrid c6WitnessTerrains (chainEnd "0,0" c) = true →
        chainVal c ≤ getExportEfficiency "0,0" c6WitnessGrid [] c6WitnessTerrains) ∧
      ((∀ c, c ≠ [] → chainOk c6WitnessGrid [] c6WitnessTerrains "0,0" c →
          isEdgeKey c6WitnessGrid c6WitnessTerrains (chainEnd "0,0" c) = false) →
        getExportEfficiency "0,0" c6WitnessGrid [] c6WitnessTerrains = 0)) ∧
    (INFRA_EXPORT_EFFICIENCY InfraType.road = 0.5 ∧
      INFRA_EXPORT_EFFICIENCY InfraType.rail = 0.7 ∧
      INFRA_EXPORT_EFFICIENCY InfraType.canal = 1) ∧
    (∀ fromQ fromR toQ toR : Int,
      (c6WitnessTerrains toQ toR).contains TerrainType.water = true →
      getStepEfficiency [] c6WitnessTerrains fromQ fromR toQ toR = some 1) ∧
    (∀ fromQ fromR toQ toR : Int,
      (c6WitnessTerrains toQ toR).contains TerrainType.water = false →
      getStepEfficiency [] c6WitnessTerrains fromQ fromR toQ toR =
        ((EdgeMap.get [] (getEdgeKey fromQ fromR toQ toR)).bind
          (fun ed => ed.transport)).map INFRA_EXPORT_EFFICIENCY) :=
  getExportEfficiency_max_min_path c6WitnessGrid [] c6WitnessTerrains "0,0"
    { q := 0, r := 0 } rfl

end Industrializer
